import Mathlib

/-!
Verification of the Vypr source-to-source compiler (C++ sources under
`src/` and `include/`) against its natural-language specification.

The development shallowly embeds the compiler pipeline:
  * the indentation-aware lexer (`lexer.cpp`),
  * the recursive-descent parser (`parser.cpp`),
  * the scope-and-use semantic analyzer (`semantic_analyzer.cpp`),
  * the IR generator (`ir_generator.cpp`), and
  * the constant normalization of the code emitter (`code_generator.cpp`).

Machine integers of the C++ code are modelled as `Int`/`Nat` (no overflow is
exercised by the properties below), C++ exceptions as `Except String`,
`std::queue`/`std::stack` as Lean lists, and unbounded C++ `while` loops as
fuel-indexed recursion (running out of fuel is a distinguished error, and all
theorems either quantify over the fuel or supply enough of it).  `double`
literals are kept symbolic (carried as their source text): no claim below
depends on floating-point arithmetic.
-/

namespace Vypr

/-! ### Tokens (`include/token.h`) -/

/-- Token kinds, mirroring `enum class TokenType` in `token.h`. -/
inductive TokenType where
  | VAR | FUNC | RETURN | IF | ELSE | WHILE | LOOP | IN | TIMES | PRINT | INPUT
  | STRING | INTEGER | FLOAT | BOOLEAN | IDENTIFIER
  | PLUS | MINUS | MULTIPLY | DIVIDE | MODULO | CONCAT | ASSIGN
  | EQUAL | NOT_EQUAL | GREATER | LESS | GREATER_EQUAL | LESS_EQUAL
  | AND | OR | NOT
  | LPAREN | RPAREN | LBRACKET | RBRACKET | COMMA | DOT | COLON
  | NEWLINE | INDENT | DEDENT | EOF_TOKEN | UNKNOWN
  deriving DecidableEq, Repr

/-- The `std::variant<std::string, int, double, bool>` payload of a token.
A `double` payload is kept as its source text (`vfloat`); a default-constructed
variant holds the empty `std::string`, which is the value of tokens built
without a payload. -/
inductive TokenValue where
  | vstr (s : String)
  | vint (n : Int)
  | vfloat (raw : String)
  | vbool (b : Bool)
  deriving DecidableEq, Repr

/-- A token: kind, payload, 1-based line and column (C++ `int`). -/
structure Token where
  type : TokenType
  value : TokenValue := .vstr ""
  line : Int
  column : Int
  deriving DecidableEq, Repr

/-! ### Lexer (`src/lexer.cpp`)

The lexer state mirrors the private fields of `class Lexer`.  The C++ field
`current_char` always equals `source[position]` when `position` is in range
and `'\0'` otherwise (the constructor and every assignment maintain this), so
it is modelled as the derived function `chAt`. -/

structure LexSt where
  source : List Char
  position : Nat
  line : Int
  column : Int
  current_indent : Nat
  indent_stack : List Nat   -- top of the `std::stack` at the head
  at_line_start : Bool
  token_queue : List Token  -- front of the `std::queue` at the head
  deriving Repr

/-- The constructor `Lexer::Lexer`. -/
def initLexSt (source : List Char) : LexSt :=
  { source := source, position := 0, line := 1, column := 1,
    current_indent := 0, indent_stack := [0], at_line_start := true,
    token_queue := [] }

/-- The derived `current_char`. -/
def chAt (s : LexSt) : Char :=
  s.source.getD s.position '\x00'

/-- `Lexer::advance`. -/
def advance (s : LexSt) : LexSt :=
  if s.position < s.source.length then
    let s := if chAt s = '\n' then { s with line := s.line + 1, column := 0 } else s
    let s := { s with position := s.position + 1 }
    if s.position ≥ s.source.length then s
    else { s with column := s.column + 1 }
  else s

/-- `Lexer::peek`. -/
def peekc (s : LexSt) : Char :=
  if s.position + 1 ≥ s.source.length then '\x00'
  else s.source.getD (s.position + 1) '\x00'

/-- C `std::isspace` in the default locale. -/
def isspaceChar (c : Char) : Bool :=
  c = ' ' || c = '\t' || c = '\n' || c = '\x0b' || c = '\x0c' || c = '\r'

/-- `Lexer::is_alpha` (`std::isalpha` or underscore). -/
def is_alpha (c : Char) : Bool :=
  ('A' ≤ c && c ≤ 'Z') || ('a' ≤ c && c ≤ 'z') || c = '_'

/-- `Lexer::is_digit`. -/
def is_digit (c : Char) : Bool :=
  '0' ≤ c && c ≤ '9'

/-- `Lexer::is_alphanumeric`. -/
def is_alphanumeric (c : Char) : Bool :=
  is_alpha c || is_digit c

/-- Message used when a fuel-indexed loop runs out of fuel; no C++ execution
corresponds to this outcome. -/
def fuelMsg : String := "out of fuel"

/-- `Lexer::skip_whitespace`. -/
def skip_whitespace : Nat → LexSt → Except String LexSt
  | 0, _ => .error fuelMsg
  | fuel + 1, s =>
    if isspaceChar (chAt s) ∧ chAt s ≠ '\n' then skip_whitespace fuel (advance s)
    else .ok s

/-- First loop of `Lexer::count_indent`: count spaces, 1 each. -/
def count_indent_sp : Nat → LexSt → Except String (Nat × LexSt)
  | 0, _ => .error fuelMsg
  | fuel + 1, s =>
    if chAt s = ' ' then
      match count_indent_sp fuel (advance s) with
      | .ok (n, s') => .ok (n + 1, s')
      | .error e => .error e
    else .ok (0, s)

/-- Second loop of `Lexer::count_indent`: count tabs, 4 each. -/
def count_indent_tab : Nat → LexSt → Except String (Nat × LexSt)
  | 0, _ => .error fuelMsg
  | fuel + 1, s =>
    if chAt s = '\t' then
      match count_indent_tab fuel (advance s) with
      | .ok (n, s') => .ok (n + 4, s')
      | .error e => .error e
    else .ok (0, s)

/-- `Lexer::count_indent`: spaces first (1 each), then tabs (4 each). -/
def count_indent (fuel : Nat) (s : LexSt) : Except String (Nat × LexSt) := do
  let (a, s₁) ← count_indent_sp fuel s
  let (b, s₂) ← count_indent_tab fuel s₁
  .ok (a + b, s₂)

/-- The pop-loop of `Lexer::process_indent`: pop while the stack is nonempty
and its top exceeds `level`, queueing one DEDENT token per pop. -/
def popIndents (level : Nat) (line : Int) : List Nat → List Nat × List Token
  | [] => ([], [])
  | top :: rest =>
    if top > level then
      let (st, toks) := popIndents level line rest
      (st, Token.mk .DEDENT (.vstr "") line 1 :: toks)
    else (top :: rest, [])

/-- `Lexer::process_indent`. -/
def process_indent (indent_level : Nat) (s : LexSt) : Except String LexSt :=
  let prev_indent := s.indent_stack.headD 0
  let s := { s with current_indent := indent_level }
  if indent_level > prev_indent then
    .ok { s with indent_stack := indent_level :: s.indent_stack,
                 token_queue := s.token_queue ++ [Token.mk .INDENT (.vstr "") s.line 1] }
  else if indent_level < prev_indent then
    let (st, toks) := popIndents indent_level s.line s.indent_stack
    let s := { s with indent_stack := st, token_queue := s.token_queue ++ toks }
    if st.isEmpty ∨ st.headD 0 ≠ indent_level then
      .error ("Invalid indentation at line " ++ toString s.line)
    else .ok s
  else .ok s

/-- The comment-skipping loop `while (current_char != '\n' && current_char != '\0') advance()`. -/
def skip_to_eol : Nat → LexSt → Except String LexSt
  | 0, _ => .error fuelMsg
  | fuel + 1, s =>
    if chAt s ≠ '\n' ∧ chAt s ≠ '\x00' then skip_to_eol fuel (advance s)
    else .ok s

/-- The blank/comment-line-skipping loop of `Lexer::handle_newline`. -/
def hnl_loop : Nat → LexSt → Except String LexSt
  | 0, _ => .error fuelMsg
  | fuel + 1, s =>
    if chAt s ≠ '\x00' then
      let start_pos := s.position
      match skip_whitespace fuel s with
      | .error e => .error e
      | .ok s₁ =>
        if chAt s₁ = '/' ∧ peekc s₁ = '/' then
          match skip_to_eol fuel s₁ with
          | .error e => .error e
          | .ok s₂ =>
            if chAt s₂ = '\n' then hnl_loop fuel (advance s₂)
            else .ok s₂  -- EOF after comment: break
        else if chAt s₁ = '\n' then hnl_loop fuel (advance s₁)
        else .ok { s₁ with position := start_pos, column := 1 }  -- backtrack, break
    else .ok s

/-- `Lexer::handle_newline`. -/
def handle_newline (fuel : Nat) (s : LexSt) : Except String LexSt := do
  let s := if chAt s = '\n' then advance s else s
  let s ← hnl_loop fuel s
  if chAt s ≠ '\x00' then
    let (indent_level, s) ← count_indent fuel s
    process_indent indent_level s
  else .ok s

/-- The keyword table `Lexer::keywords`. -/
def keywordLookup (id : String) : Option TokenType :=
  if id = "var" then some .VAR
  else if id = "func" then some .FUNC
  else if id = "return" then some .RETURN
  else if id = "if" then some .IF
  else if id = "else" then some .ELSE
  else if id = "while" then some .WHILE
  else if id = "loop" then some .LOOP
  else if id = "in" then some .IN
  else if id = "times" then some .TIMES
  else if id = "print" then some .PRINT
  else if id = "input" then some .INPUT
  else if id = "true" then some .BOOLEAN
  else if id = "false" then some .BOOLEAN
  else none

/-- The collection loop of `Lexer::handle_identifier`. -/
def collect_ident : Nat → LexSt → String → Except String (String × LexSt)
  | 0, _, _ => .error fuelMsg
  | fuel + 1, s, acc =>
    if is_alphanumeric (chAt s) then
      collect_ident fuel (advance s) (acc.push (chAt s))
    else .ok (acc, s)

/-- `Lexer::handle_identifier`. -/
def handle_identifier (fuel : Nat) (s : LexSt) : Except String (Token × LexSt) := do
  let (identifier, s') ← collect_ident fuel s ""
  match keywordLookup identifier with
  | some .BOOLEAN =>
    .ok (Token.mk .BOOLEAN (.vbool (identifier = "true")) s'.line
          (s'.column - identifier.length), s')
  | some kw =>
    .ok (Token.mk kw (.vstr "") s'.line (s'.column - identifier.length), s')
  | none =>
    .ok (Token.mk .IDENTIFIER (.vstr identifier) s'.line
          (s'.column - identifier.length), s')

/-- The collection loop of `Lexer::handle_number`; errors on a second
decimal point. -/
def collect_number : Nat → LexSt → String → Bool → Except String (String × Bool × LexSt)
  | 0, _, _, _ => .error fuelMsg
  | fuel + 1, s, acc, is_float =>
    if is_digit (chAt s) || chAt s = '.' then
      if chAt s = '.' ∧ is_float then
        .error ("Invalid number format at line " ++ toString s.line)
      else
        collect_number fuel (advance s) (acc.push (chAt s))
          (is_float || chAt s = '.')
    else .ok (acc, is_float, s)

/-- Decimal value of a digit string (the model of `std::stoi` on the collected
digits; overflow is not modelled). -/
def digitsToInt (str : String) : Int :=
  str.data.foldl (fun a c => a * 10 + (c.toNat - 48 : Int)) 0

/-- `Lexer::handle_number`.  A `FLOAT` keeps its source text (`std::stod` is
floating point, which no claim exercises). -/
def handle_number (fuel : Nat) (s : LexSt) : Except String (Token × LexSt) := do
  let (num_str, is_float, s') ← collect_number fuel s "" false
  if is_float then
    .ok (Token.mk .FLOAT (.vfloat num_str) s'.line (s'.column - num_str.length), s')
  else
    .ok (Token.mk .INTEGER (.vint (digitsToInt num_str)) s'.line
          (s'.column - num_str.length), s')

/-- The collection loop of `Lexer::handle_string` (stops at the matching
quote or end of input; the only escape is backslash-quote). -/
def collect_string : Nat → LexSt → Char → String → Except String (String × LexSt)
  | 0, _, _, _ => .error fuelMsg
  | fuel + 1, s, quote, acc =>
    if chAt s ≠ '\x00' ∧ chAt s ≠ quote then
      if chAt s = '\\' ∧ peekc s = quote then
        collect_string fuel (advance (advance s)) quote (acc.push quote)
      else
        collect_string fuel (advance s) quote (acc.push (chAt s))
    else .ok (acc, s)

/-- `Lexer::handle_string`. -/
def handle_string (fuel : Nat) (s : LexSt) : Except String (Token × LexSt) := do
  let quote := chAt s
  let s := advance s
  let (value, s₁) ← collect_string fuel s quote ""
  if chAt s₁ ≠ quote then
    .error ("Unterminated string at line " ++ toString s₁.line)
  else do
    let s₂ := advance s₁
    let s₃ ← skip_whitespace fuel s₂
    .ok (Token.mk .STRING (.vstr value) s₃.line
          (s₃.column - value.length - 2), s₃)

/-- `Lexer::handle_operator`. -/
def handle_operator (s : LexSt) : Except String (Token × LexSt) :=
  let c := chAt s
  let s₁ := advance s
  let one := fun (t : TokenType) => Except.ok (Token.mk t (.vstr "") s₁.line (s₁.column - 1), s₁)
  let two := fun (t : TokenType) =>
    let s₂ := advance s₁
    Except.ok (Token.mk t (.vstr "") s₂.line (s₂.column - 2), s₂)
  if c = '+' then one .PLUS
  else if c = '-' then one .MINUS
  else if c = '*' then one .MULTIPLY
  else if c = '/' then one .DIVIDE
  else if c = '%' then one .MODULO
  else if c = '^' then one .CONCAT
  else if c = '=' then (if chAt s₁ = '=' then two .EQUAL else one .ASSIGN)
  else if c = '!' then (if chAt s₁ = '=' then two .NOT_EQUAL else one .NOT)
  else if c = '>' then (if chAt s₁ = '=' then two .GREATER_EQUAL else one .GREATER)
  else if c = '<' then (if chAt s₁ = '=' then two .LESS_EQUAL else one .LESS)
  else if c = '&' then
    (if chAt s₁ = '&' then two .AND
     else .error ("Unexpected character at line " ++ toString s₁.line))
  else if c = '|' then
    (if chAt s₁ = '|' then two .OR
     else .error ("Unexpected character at line " ++ toString s₁.line))
  else if c = '(' then one .LPAREN
  else if c = ')' then one .RPAREN
  else if c = '[' then one .LBRACKET
  else if c = ']' then one .RBRACKET
  else if c = ':' then one .COLON
  else if c = ',' then one .COMMA
  else if c = '.' then one .DOT
  else .error ("Unexpected character at line " ++ toString s₁.line)

/-- The end-of-file branch of `Lexer::next_token`: flush one DEDENT per
indentation level above 0, then return the first queued token or EOF. -/
def eofDedents (line column : Int) : List Nat → List Nat × List Token
  | [] => ([], [])
  | [x] => ([x], [])
  | _x :: y :: rest =>
    let (st, toks) := eofDedents line column (y :: rest)
    (st, Token.mk .DEDENT (.vstr "") line column :: toks)

/-- End-of-source epilogue of `Lexer::next_token`. -/
def eof_flush (s : LexSt) : Token × LexSt :=
  let (st, toks) := eofDedents s.line s.column s.indent_stack
  let s := { s with indent_stack := st, token_queue := s.token_queue ++ toks }
  match s.token_queue with
  | t :: q => (t, { s with token_queue := q })
  | [] => (Token.mk .EOF_TOKEN (.vstr "") s.line s.column, s)

/-- The `while (current_char != '\0')` loop of `Lexer::next_token`. -/
def nt_loop : Nat → LexSt → Except String (Token × LexSt)
  | 0, _ => .error fuelMsg
  | fuel + 1, s =>
    if chAt s ≠ '\x00' then
      if s.at_line_start then
        match handle_newline fuel s with
        | .error e => .error e
        | .ok s₁ =>
          let s₂ := { s₁ with at_line_start := false }
          match s₂.token_queue with
          | t :: q => .ok (t, { s₂ with token_queue := q })
          | [] =>
            if chAt s₂ = '\x00' then .ok (eof_flush s₂)
            else nt_loop fuel s₂
      else if isspaceChar (chAt s) ∧ chAt s ≠ '\n' then
        match skip_whitespace fuel s with
        | .error e => .error e
        | .ok s₁ => nt_loop fuel s₁
      else if chAt s = '\n' then
        let prev_line := s.line
        let prev_col := s.column
        let s₁ := advance s
        .ok (Token.mk .NEWLINE (.vstr "") prev_line prev_col,
             { s₁ with at_line_start := true })
      else if chAt s = '/' ∧ peekc s = '/' then
        match skip_to_eol fuel s with
        | .error e => .error e
        | .ok s₁ => nt_loop fuel s₁
      else
        let s := { s with at_line_start := false }
        if is_alpha (chAt s) || chAt s = '_' then handle_identifier fuel s
        else if is_digit (chAt s) then handle_number fuel s
        else if chAt s = '\"' || chAt s = '\'' then handle_string fuel s
        else handle_operator s
    else .ok (eof_flush s)

/-- `Lexer::next_token`. -/
def next_token (fuel : Nat) (s : LexSt) : Except String (Token × LexSt) :=
  match s.token_queue with
  | t :: q => .ok (t, { s with token_queue := q })
  | [] => nt_loop fuel s

/-- The collection loop of `Lexer::tokenize`. -/
def tokenize_loop : Nat → Nat → LexSt → Except String (List Token)
  | 0, _, _ => .error fuelMsg
  | fuel + 1, ntFuel, s =>
    match next_token ntFuel s with
    | .error e => .error e
    | .ok (t, s') =>
      if t.type = .EOF_TOKEN then .ok [t]
      else
        match tokenize_loop fuel ntFuel s' with
        | .error e => .error e
        | .ok ts => .ok (t :: ts)

/-- `Lexer::tokenize` on a source string. -/
def tokenize (fuel : Nat) (source : List Char) : Except String (List Token) :=
  tokenize_loop fuel fuel (initLexSt source)

/-! ### Abstract syntax tree (`include/ast.h`)

The per-variant C++ subclasses become the constructors of two mutual
inductives.  `LiteralValue` mirrors `std::variant<int, double, bool,
std::string>`, keeping a `double` as its source text. -/

inductive LiteralValue where
  | vint (n : Int)
  | vfloat (raw : String)
  | vbool (b : Bool)
  | vstr (s : String)
  deriving DecidableEq, Repr

mutual

inductive Expr where
  | literal (value : LiteralValue)
  | var (name : String)
  | binary (left : Expr) (op : TokenType) (right : Expr)
  | unary (op : TokenType) (right : Expr)
  | arrayAccess (array : Expr) (index : Expr)
  | memberAccess (object : Expr) (member : String)
  | call (callee : String) (arguments : List Expr)
  | arrayLit (elements : List Expr)
  deriving Repr

inductive Stmt where
  | exprStmt (expression : Expr)
  | varDecl (name : String) (initializer : Option Expr)
  | block (statements : List Stmt)
  | ifStmt (condition : Expr) (then_branch : Stmt) (else_branch : Option Stmt)
  | whileStmt (condition : Expr) (body : Stmt)
  | loopIn (var_name : String) (iterable : Expr) (body : Stmt)
  | loopTimes (count : Expr) (body : Stmt)
  | ret (value : Option Expr)
  | printStmt (expression : Expr)
  | inputStmt (var_name : String)
  | funcDecl (name : String) (parameters : List String) (body : Stmt)
  deriving Repr

end

/-- The root `Program` node. -/
structure Program where
  statements : List Stmt
  deriving Repr

/-! ### Parser (`src/parser.cpp`)

State and helper API of `class Parser`.  The C++ recursive descent has
no a-priori termination argument visible to Lean, so each parse function is
fuel-indexed; every theorem either quantifies over the fuel or supplies a
sufficient concrete amount. -/

structure ParserSt where
  tokens : List Token
  current : Nat
  deriving Repr

/-- The synthetic token `Token(EOF_TOKEN, -1, -1)` of `Parser::peek`. -/
def syntheticEof : Token := Token.mk .EOF_TOKEN (.vstr "") (-1) (-1)

/-- `Parser::peek`. -/
def peekT (p : ParserSt) : Token :=
  if p.current ≥ p.tokens.length then
    match p.tokens.getLast? with
    | some t => t
    | none => syntheticEof
  else p.tokens.getD p.current syntheticEof

/-- `Parser::previous` (the C++ indexes `tokens[current - 1]` unchecked; a
call with `current = 0` would be undefined behaviour and never happens, the
model returns the synthetic EOF there). -/
def previousT (p : ParserSt) : Token :=
  p.tokens.getD (p.current - 1) syntheticEof

/-- `Parser::isAtEnd`. -/
def isAtEndT (p : ParserSt) : Bool :=
  p.current ≥ p.tokens.length || (p.tokens.getD p.current syntheticEof).type = .EOF_TOKEN

/-- `Parser::advance`. -/
def advanceT (p : ParserSt) : Token × ParserSt :=
  let p' := if ¬ isAtEndT p then { p with current := p.current + 1 } else p
  (previousT p', p')

/-- `Parser::check`. -/
def checkT (t : TokenType) (p : ParserSt) : Bool :=
  if isAtEndT p then false else (peekT p).type = t

/-- `Parser::match` (single kind). -/
def matchT (t : TokenType) (p : ParserSt) : Bool × ParserSt :=
  if checkT t p then let (_, p') := advanceT p; (true, p')
  else (false, p)

/-- `Parser::match` (list of kinds, tried in order). -/
def matchAnyT : List TokenType → ParserSt → Bool × ParserSt
  | [], p => (false, p)
  | t :: ts, p =>
    let (b, p') := matchT t p
    if b then (true, p') else matchAnyT ts p'

/-- `Parser::error`: a `ParseError` with line-prefixed message. -/
def parseErr (tok : Token) (message : String) : String :=
  "Line " ++ toString tok.line ++ ": " ++ message

/-- `Parser::consume`. -/
def consumeT (t : TokenType) (message : String) (p : ParserSt) : Except String (Token × ParserSt) :=
  if checkT t p then .ok (advanceT p)
  else .error (parseErr (peekT p) message)

/-- `std::get<std::string>` on a token payload (`std::bad_variant_access`
is modelled as an error and never occurs on lexer output). -/
def getVStr : TokenValue → Except String String
  | .vstr s => .ok s
  | _ => .error "bad_variant_access"

/-- `std::get<bool>` on a token payload. -/
def getVBool : TokenValue → Except String Bool
  | .vbool b => .ok b
  | _ => .error "bad_variant_access"

/-- `std::get<int>` on a token payload. -/
def getVInt : TokenValue → Except String Int
  | .vint n => .ok n
  | _ => .error "bad_variant_access"

/-- `std::get<double>` on a token payload (kept as source text). -/
def getVFloat : TokenValue → Except String String
  | .vfloat r => .ok r
  | _ => .error "bad_variant_access"

mutual

/-- The statement-collection loop of `Parser::program`. -/
def program_loop (fuel : Nat) (acc : List Stmt) (p : ParserSt) :
    Except String (List Stmt × ParserSt) :=
  match fuel with
  | 0 => .error fuelMsg
  | fuel + 1 =>
    if ¬ isAtEndT p then
      let (b, p₁) := matchT .NEWLINE p
      if b then program_loop fuel acc p₁
      else do
        let (st, p₂) ← declaration fuel p₁
        program_loop fuel (acc ++ [st]) p₂
    else .ok (acc, p)

/-- `Parser::declaration`. -/
def declaration (fuel : Nat) (p : ParserSt) : Except String (Stmt × ParserSt) :=
  match fuel with
  | 0 => .error fuelMsg
  | fuel + 1 =>
    let (bVar, p₁) := matchT .VAR p
    if bVar then var_declaration fuel p₁
    else
      let (bFunc, p₂) := matchT .FUNC p₁
      if bFunc then func_declaration fuel p₂
      else statement fuel p₂

/-- `Parser::var_declaration`. -/
def var_declaration (fuel : Nat) (p : ParserSt) : Except String (Stmt × ParserSt) :=
  match fuel with
  | 0 => .error fuelMsg
  | fuel + 1 =>
    let (bId, p₁) := matchT .IDENTIFIER p
    if bId then do
      let name ← getVStr (previousT p₁).value
      let (bAssign, p₂) := matchT .ASSIGN p₁
      if bAssign then do
        let (init, p₃) ← expression fuel p₂
        let (_, p₄) := matchT .NEWLINE p₃
        .ok (.varDecl name (some init), p₄)
      else
        let (_, p₃) := matchT .NEWLINE p₂
        .ok (.varDecl name none, p₃)
    else .error (parseErr (peekT p₁) "Expected variable name.")

/-- `Parser::func_declaration`. -/
def func_declaration (fuel : Nat) (p : ParserSt) : Except String (Stmt × ParserSt) :=
  match fuel with
  | 0 => .error fuelMsg
  | fuel + 1 =>
    let (bId, p₁) := matchT .IDENTIFIER p
    if bId then do
      let name ← getVStr (previousT p₁).value
      let (_, p₂) ← consumeT .LPAREN "Expected '(' after function name." p₁
      let (params, p₃) ← parameters fuel p₂
      let (_, p₄) ← consumeT .RPAREN "Expected ')' after parameters." p₃
      let (_, p₅) ← consumeT .COLON "Expected ':' after function declaration." p₄
      let (_, p₆) := matchT .NEWLINE p₅
      let (_, p₇) ← consumeT .INDENT "Expected indented function body." p₆
      let (body, p₈) ← blockP fuel p₇
      .ok (.funcDecl name params body, p₈)
    else .error (parseErr (peekT p₁) "Expected function name.")

/-- `Parser::parameters`. -/
def parameters (fuel : Nat) (p : ParserSt) : Except String (List String × ParserSt) :=
  match fuel with
  | 0 => .error fuelMsg
  | fuel + 1 =>
    if ¬ checkT .RPAREN p then parameters_loop fuel [] p
    else .ok ([], p)

/-- The do-while loop of `Parser::parameters`. -/
def parameters_loop (fuel : Nat) (acc : List String) (p : ParserSt) :
    Except String (List String × ParserSt) :=
  match fuel with
  | 0 => .error fuelMsg
  | fuel + 1 =>
    let (bId, p₁) := matchT .IDENTIFIER p
    if bId then do
      let name ← getVStr (previousT p₁).value
      let (bComma, p₂) := matchT .COMMA p₁
      if bComma then parameters_loop fuel (acc ++ [name]) p₂
      else .ok (acc ++ [name], p₂)
    else .error (parseErr (peekT p₁) "Expected parameter name.")

/-- `Parser::statement`. -/
def statement (fuel : Nat) (p : ParserSt) : Except String (Stmt × ParserSt) :=
  match fuel with
  | 0 => .error fuelMsg
  | fuel + 1 =>
    let (bIf, p₁) := matchT .IF p
    if bIf then if_statement fuel p₁ else
    let (bWhile, p₂) := matchT .WHILE p₁
    if bWhile then while_statement fuel p₂ else
    let (bLoop, p₃) := matchT .LOOP p₂
    if bLoop then loop_statement fuel p₃ else
    let (bRet, p₄) := matchT .RETURN p₃
    if bRet then return_statement fuel p₄ else
    let (bPrint, p₅) := matchT .PRINT p₄
    if bPrint then print_statement fuel p₅ else
    let (bInput, p₆) := matchT .INPUT p₅
    if bInput then input_statement fuel p₆ else
    expression_statement fuel p₆

/-- `Parser::if_statement`. -/
def if_statement (fuel : Nat) (p : ParserSt) : Except String (Stmt × ParserSt) :=
  match fuel with
  | 0 => .error fuelMsg
  | fuel + 1 => do
    let (condition, p₁) ← expression fuel p
    let (_, p₂) ← consumeT .COLON "Expected ':' after if condition." p₁
    let (_, p₃) := matchT .NEWLINE p₂
    let (_, p₄) ← consumeT .INDENT "Expected indented if body." p₃
    let (then_branch, p₅) ← blockP fuel p₄
    let (bElse, p₆) := matchT .ELSE p₅
    if bElse then
      let (bIf, p₇) := matchT .IF p₆
      if bIf then do
        let (else_branch, p₈) ← if_statement fuel p₇
        .ok (.ifStmt condition then_branch (some else_branch), p₈)
      else do
        let (_, p₈) ← consumeT .COLON "Expected ':' after else." p₇
        let (_, p₉) := matchT .NEWLINE p₈
        let (_, p₁₀) ← consumeT .INDENT "Expected indented else body." p₉
        let (else_branch, p₁₁) ← blockP fuel p₁₀
        .ok (.ifStmt condition then_branch (some else_branch), p₁₁)
    else .ok (.ifStmt condition then_branch none, p₆)

/-- `Parser::while_statement`. -/
def while_statement (fuel : Nat) (p : ParserSt) : Except String (Stmt × ParserSt) :=
  match fuel with
  | 0 => .error fuelMsg
  | fuel + 1 => do
    let (condition, p₁) ← expression fuel p
    let (_, p₂) ← consumeT .COLON "Expected ':' after while condition." p₁
    let (_, p₃) := matchT .NEWLINE p₂
    let (_, p₄) ← consumeT .INDENT "Expected indented while body." p₃
    let (body, p₅) ← blockP fuel p₄
    .ok (.whileStmt condition body, p₅)

/-- `Parser::loop_statement`. -/
def loop_statement (fuel : Nat) (p : ParserSt) : Except String (Stmt × ParserSt) :=
  match fuel with
  | 0 => .error fuelMsg
  | fuel + 1 =>
    if checkT .INTEGER p || checkT .IDENTIFIER p then do
      let (count, p₁) ← expression fuel p
      let (_, p₂) ← consumeT .TIMES "Expected 'times' after count." p₁
      let (_, p₃) ← consumeT .COLON "Expected ':' after loop times." p₂
      let (_, p₄) := matchT .NEWLINE p₃
      let (_, p₅) ← consumeT .INDENT "Expected indented loop body." p₄
      let (body, p₆) ← blockP fuel p₅
      .ok (.loopTimes count body, p₆)
    else
      let (bId, p₁) := matchT .IDENTIFIER p
      if bId then do
        let var_name ← getVStr (previousT p₁).value
        let (_, p₂) ← consumeT .IN "Expected 'in' after variable in loop." p₁
        let (iterable, p₃) ← expression fuel p₂
        let (_, p₄) ← consumeT .COLON "Expected ':' after loop in." p₃
        let (_, p₅) := matchT .NEWLINE p₄
        let (_, p₆) ← consumeT .INDENT "Expected indented loop body." p₅
        let (body, p₇) ← blockP fuel p₆
        .ok (.loopIn var_name iterable body, p₇)
      else .error (parseErr (peekT p₁) "Expected variable name or number after 'loop'.")

/-- `Parser::return_statement`. -/
def return_statement (fuel : Nat) (p : ParserSt) : Except String (Stmt × ParserSt) :=
  match fuel with
  | 0 => .error fuelMsg
  | fuel + 1 =>
    if ¬ checkT .NEWLINE p then do
      let (value, p₁) ← expression fuel p
      let (_, p₂) := matchT .NEWLINE p₁
      .ok (.ret (some value), p₂)
    else
      let (_, p₁) := matchT .NEWLINE p
      .ok (.ret none, p₁)

/-- `Parser::print_statement` (the trailing NEWLINE is `match`ed, i.e.
consumed when present but not required). -/
def print_statement (fuel : Nat) (p : ParserSt) : Except String (Stmt × ParserSt) :=
  match fuel with
  | 0 => .error fuelMsg
  | fuel + 1 => do
    let (value, p₁) ← expression fuel p
    let (_, p₂) := matchT .NEWLINE p₁
    .ok (.printStmt value, p₂)

/-- `Parser::input_statement`. -/
def input_statement (fuel : Nat) (p : ParserSt) : Except String (Stmt × ParserSt) :=
  match fuel with
  | 0 => .error fuelMsg
  | _ + 1 =>
    let (bId, p₁) := matchT .IDENTIFIER p
    if bId then do
      let var_name ← getVStr (previousT p₁).value
      let (_, p₂) := matchT .NEWLINE p₁
      .ok (.inputStmt var_name, p₂)
    else .error (parseErr (peekT p₁) "Expected variable name after 'input'.")

/-- `Parser::expression_statement`. -/
def expression_statement (fuel : Nat) (p : ParserSt) : Except String (Stmt × ParserSt) :=
  match fuel with
  | 0 => .error fuelMsg
  | fuel + 1 => do
    let (expr, p₁) ← expression fuel p
    let (_, p₂) := matchT .NEWLINE p₁
    .ok (.exprStmt expr, p₂)

/-- The statement loop of `Parser::block`. -/
def block_loop (fuel : Nat) (acc : List Stmt) (p : ParserSt) :
    Except String (List Stmt × ParserSt) :=
  match fuel with
  | 0 => .error fuelMsg
  | fuel + 1 =>
    if ¬ checkT .DEDENT p ∧ ¬ checkT .EOF_TOKEN p then
      let (b, p₁) := matchT .NEWLINE p
      if b then block_loop fuel acc p₁
      else do
        let (st, p₂) ← declaration fuel p₁
        block_loop fuel (acc ++ [st]) p₂
    else .ok (acc, p)

/-- `Parser::block`. -/
def blockP (fuel : Nat) (p : ParserSt) : Except String (Stmt × ParserSt) :=
  match fuel with
  | 0 => .error fuelMsg
  | fuel + 1 => do
    let (statements, p₁) ← block_loop fuel [] p
    let (_, p₂) ← consumeT .DEDENT "Expected dedent at end of block." p₁
    .ok (.block statements, p₂)

/-- `Parser::expression`. -/
def expression (fuel : Nat) (p : ParserSt) : Except String (Expr × ParserSt) :=
  match fuel with
  | 0 => .error fuelMsg
  | fuel + 1 => assignment fuel p

/-- `Parser::assignment` (right-associative; rebuilds the left node as the
C++ does). -/
def assignment (fuel : Nat) (p : ParserSt) : Except String (Expr × ParserSt) :=
  match fuel with
  | 0 => .error fuelMsg
  | fuel + 1 => do
    let (expr, p₁) ← logical_or fuel p
    let (bAssign, p₂) := matchT .ASSIGN p₁
    if bAssign then do
      let (value, p₃) ← assignment fuel p₂
      match expr with
      | .var name => .ok (.binary (.var name) .ASSIGN value, p₃)
      | .arrayAccess arr idx => .ok (.binary (.arrayAccess arr idx) .ASSIGN value, p₃)
      | _ => .error (parseErr (previousT p₃) "Invalid assignment target.")
    else .ok (expr, p₂)

/-- `Parser::logical_or`. -/
def logical_or (fuel : Nat) (p : ParserSt) : Except String (Expr × ParserSt) :=
  match fuel with
  | 0 => .error fuelMsg
  | fuel + 1 => do
    let (expr, p₁) ← logical_and fuel p
    logical_or_loop fuel expr p₁

/-- The `while (match(OR))` loop of `Parser::logical_or`. -/
def logical_or_loop (fuel : Nat) (expr : Expr) (p : ParserSt) :
    Except String (Expr × ParserSt) :=
  match fuel with
  | 0 => .error fuelMsg
  | fuel + 1 =>
    let (b, p₁) := matchT .OR p
    if b then do
      let op := (previousT p₁).type
      let (right, p₂) ← logical_and fuel p₁
      logical_or_loop fuel (.binary expr op right) p₂
    else .ok (expr, p₁)

/-- `Parser::logical_and`. -/
def logical_and (fuel : Nat) (p : ParserSt) : Except String (Expr × ParserSt) :=
  match fuel with
  | 0 => .error fuelMsg
  | fuel + 1 => do
    let (expr, p₁) ← equality fuel p
    logical_and_loop fuel expr p₁

/-- The `while (match(AND))` loop of `Parser::logical_and`. -/
def logical_and_loop (fuel : Nat) (expr : Expr) (p : ParserSt) :
    Except String (Expr × ParserSt) :=
  match fuel with
  | 0 => .error fuelMsg
  | fuel + 1 =>
    let (b, p₁) := matchT .AND p
    if b then do
      let op := (previousT p₁).type
      let (right, p₂) ← equality fuel p₁
      logical_and_loop fuel (.binary expr op right) p₂
    else .ok (expr, p₁)

/-- `Parser::equality`. -/
def equality (fuel : Nat) (p : ParserSt) : Except String (Expr × ParserSt) :=
  match fuel with
  | 0 => .error fuelMsg
  | fuel + 1 => do
    let (expr, p₁) ← comparison fuel p
    equality_loop fuel expr p₁

/-- The `while (match({EQUAL, NOT_EQUAL}))` loop of `Parser::equality`. -/
def equality_loop (fuel : Nat) (expr : Expr) (p : ParserSt) :
    Except String (Expr × ParserSt) :=
  match fuel with
  | 0 => .error fuelMsg
  | fuel + 1 =>
    let (b, p₁) := matchAnyT [.EQUAL, .NOT_EQUAL] p
    if b then do
      let op := (previousT p₁).type
      let (right, p₂) ← comparison fuel p₁
      equality_loop fuel (.binary expr op right) p₂
    else .ok (expr, p₁)

/-- `Parser::comparison`. -/
def comparison (fuel : Nat) (p : ParserSt) : Except String (Expr × ParserSt) :=
  match fuel with
  | 0 => .error fuelMsg
  | fuel + 1 => do
    let (expr, p₁) ← term fuel p
    comparison_loop fuel expr p₁

/-- The comparison-operator loop of `Parser::comparison`. -/
def comparison_loop (fuel : Nat) (expr : Expr) (p : ParserSt) :
    Except String (Expr × ParserSt) :=
  match fuel with
  | 0 => .error fuelMsg
  | fuel + 1 =>
    let (b, p₁) := matchAnyT [.LESS, .LESS_EQUAL, .GREATER, .GREATER_EQUAL] p
    if b then do
      let op := (previousT p₁).type
      let (right, p₂) ← term fuel p₁
      comparison_loop fuel (.binary expr op right) p₂
    else .ok (expr, p₁)

/-- `Parser::term`. -/
def term (fuel : Nat) (p : ParserSt) : Except String (Expr × ParserSt) :=
  match fuel with
  | 0 => .error fuelMsg
  | fuel + 1 => do
    let (expr, p₁) ← factor fuel p
    term_loop fuel expr p₁

/-- The `while (match({PLUS, MINUS, CONCAT}))` loop of `Parser::term`. -/
def term_loop (fuel : Nat) (expr : Expr) (p : ParserSt) :
    Except String (Expr × ParserSt) :=
  match fuel with
  | 0 => .error fuelMsg
  | fuel + 1 =>
    let (b, p₁) := matchAnyT [.PLUS, .MINUS, .CONCAT] p
    if b then do
      let op := (previousT p₁).type
      let (right, p₂) ← factor fuel p₁
      term_loop fuel (.binary expr op right) p₂
    else .ok (expr, p₁)

/-- `Parser::factor`. -/
def factor (fuel : Nat) (p : ParserSt) : Except String (Expr × ParserSt) :=
  match fuel with
  | 0 => .error fuelMsg
  | fuel + 1 => do
    let (expr, p₁) ← unary fuel p
    factor_loop fuel expr p₁

/-- The `while (match({MULTIPLY, DIVIDE}))` loop of `Parser::factor`. -/
def factor_loop (fuel : Nat) (expr : Expr) (p : ParserSt) :
    Except String (Expr × ParserSt) :=
  match fuel with
  | 0 => .error fuelMsg
  | fuel + 1 =>
    let (b, p₁) := matchAnyT [.MULTIPLY, .DIVIDE] p
    if b then do
      let op := (previousT p₁).type
      let (right, p₂) ← unary fuel p₁
      factor_loop fuel (.binary expr op right) p₂
    else .ok (expr, p₁)

/-- `Parser::unary`. -/
def unary (fuel : Nat) (p : ParserSt) : Except String (Expr × ParserSt) :=
  match fuel with
  | 0 => .error fuelMsg
  | fuel + 1 =>
    let (b, p₁) := matchAnyT [.MINUS, .NOT] p
    if b then do
      let op := (previousT p₁).type
      let (right, p₂) ← unary fuel p₁
      .ok (.unary op right, p₂)
    else callP fuel p₁

/-- `Parser::call`. -/
def callP (fuel : Nat) (p : ParserSt) : Except String (Expr × ParserSt) :=
  match fuel with
  | 0 => .error fuelMsg
  | fuel + 1 => do
    let (expr, p₁) ← primary fuel p
    call_loop fuel expr p₁

/-- The postfix loop of `Parser::call`. -/
def call_loop (fuel : Nat) (expr : Expr) (p : ParserSt) : Except String (Expr × ParserSt) :=
  match fuel with
  | 0 => .error fuelMsg
  | fuel + 1 =>
    let (bParen, p₁) := matchT .LPAREN p
    if bParen then do
      let (e, p₂) ← finish_call fuel expr p₁
      call_loop fuel e p₂
    else
      let (bBracket, p₂) := matchT .LBRACKET p₁
      if bBracket then do
        let (index, p₃) ← expression fuel p₂
        let (_, p₄) ← consumeT .RBRACKET "Expected ']' after array index." p₃
        call_loop fuel (.arrayAccess expr index) p₄
      else
        let (bDot, p₃) := matchT .DOT p₂
        if bDot then
          let (bId, p₄) := matchT .IDENTIFIER p₃
          if bId then do
            let member ← getVStr (previousT p₄).value
            call_loop fuel (.memberAccess expr member) p₄
          else .error (parseErr (peekT p₄) "Expected property name after '.'.")
        else .ok (expr, p₃)

/-- `Parser::primary`. -/
def primary (fuel : Nat) (p : ParserSt) : Except String (Expr × ParserSt) :=
  match fuel with
  | 0 => .error fuelMsg
  | fuel + 1 =>
    let (bBool, p₁) := matchT .BOOLEAN p
    if bBool then do
      let b ← getVBool (previousT p₁).value
      .ok (.literal (.vbool b), p₁)
    else
      let (bInt, p₂) := matchT .INTEGER p₁
      if bInt then do
        let n ← getVInt (previousT p₂).value
        .ok (.literal (.vint n), p₂)
      else
        let (bFloat, p₃) := matchT .FLOAT p₂
        if bFloat then do
          let r ← getVFloat (previousT p₃).value
          .ok (.literal (.vfloat r), p₃)
        else
          let (bStr, p₄) := matchT .STRING p₃
          if bStr then do
            let s ← getVStr (previousT p₄).value
            .ok (.literal (.vstr s), p₄)
          else
            let (bId, p₅) := matchT .IDENTIFIER p₄
            if bId then do
              let name ← getVStr (previousT p₅).value
              .ok (.var name, p₅)
            else
              let (bParen, p₆) := matchT .LPAREN p₅
              if bParen then do
                let (expr, p₇) ← expression fuel p₆
                let (_, p₈) ← consumeT .RPAREN "Expected ')' after expression." p₇
                .ok (expr, p₈)
              else
                let (bBracket, p₇) := matchT .LBRACKET p₆
                if bBracket then do
                  let (elements, p₈) ←
                    if ¬ checkT .RBRACKET p₇ then elements_loop fuel [] p₇
                    else .ok ([], p₇)
                  let (_, p₉) ← consumeT .RBRACKET "Expected ']' after array elements." p₈
                  .ok (.arrayLit elements, p₉)
                else .error (parseErr (peekT p₇) "Expected expression.")

/-- The do-while element loop of the array-literal branch of
`Parser::primary`. -/
def elements_loop (fuel : Nat) (acc : List Expr) (p : ParserSt) :
    Except String (List Expr × ParserSt) :=
  match fuel with
  | 0 => .error fuelMsg
  | fuel + 1 => do
    let (e, p₁) ← expression fuel p
    let (bComma, p₂) := matchT .COMMA p₁
    if bComma then elements_loop fuel (acc ++ [e]) p₂
    else .ok (acc ++ [e], p₂)

/-- `Parser::finish_call`. -/
def finish_call (fuel : Nat) (callee : Expr) (p : ParserSt) :
    Except String (Expr × ParserSt) :=
  match fuel with
  | 0 => .error fuelMsg
  | fuel + 1 => do
    let (args, p₁) ← argumentsP fuel p
    let (_, p₂) ← consumeT .RPAREN "Expected ')' after arguments." p₁
    match callee with
    | .var name => .ok (.call name args, p₂)
    | _ => .error (parseErr (previousT p₂) "Expected function name.")

/-- `Parser::arguments`. -/
def argumentsP (fuel : Nat) (p : ParserSt) : Except String (List Expr × ParserSt) :=
  match fuel with
  | 0 => .error fuelMsg
  | fuel + 1 =>
    if ¬ checkT .RPAREN p then arguments_loop fuel [] p
    else .ok ([], p)

/-- The do-while loop of `Parser::arguments`. -/
def arguments_loop (fuel : Nat) (acc : List Expr) (p : ParserSt) :
    Except String (List Expr × ParserSt) :=
  match fuel with
  | 0 => .error fuelMsg
  | fuel + 1 => do
    let (e, p₁) ← expression fuel p
    let (bComma, p₂) := matchT .COMMA p₁
    if bComma then arguments_loop fuel (acc ++ [e]) p₂
    else .ok (acc ++ [e], p₂)

end

/-- `Parser::parse` / `Parser::program` on a token list. -/
def parseProgram (fuel : Nat) (tokens : List Token) : Except String Program := do
  let (statements, _) ← program_loop fuel [] (ParserSt.mk tokens 0)
  .ok (Program.mk statements)

/-! ### Semantic analyzer (`src/semantic_analyzer.cpp`)

A `Scope` is its symbol map, modelled as an association list with unique
keys (`Scope::define` refuses duplicates); the parent chain is the tail of
the analyzer's scope list.  `Symbol* resolve` followed by an in-place
`symbol->initialized = true` becomes lookup plus functional update of the
innermost scope holding the name. -/

inductive SymType where
  | VARIABLE
  | FUNCTION
  deriving DecidableEq, Repr

/-- `struct Symbol` with the C++ constructor defaults
(`initialized = true`, `paramCount = 0`). -/
structure Symbol where
  type : SymType
  initialized : Bool := true
  paramCount : Nat := 0
  deriving DecidableEq, Repr

/-- The symbol map of one `Scope`. -/
abbrev ScopeMap := List (String × Symbol)

/-- Map lookup in one scope. -/
def scopeLookup (sc : ScopeMap) (name : String) : Option Symbol :=
  match sc.find? (fun q => q.1 == name) with
  | some q => some q.2
  | none => none

/-- `Scope::isDefined`. -/
def scope_isDefined (sc : ScopeMap) (name : String) : Bool :=
  (scopeLookup sc name).isSome

/-- `Scope::define` (insertion fails silently when the key exists, as
`unordered_map::insert` does). -/
def scope_define (sc : ScopeMap) (name : String) (sym : Symbol) : ScopeMap :=
  if scope_isDefined sc name then sc else sc ++ [(name, sym)]

/-- `Scope::resolve` along the parent chain (innermost scope first). -/
def resolveSym : List ScopeMap → String → Option Symbol
  | [], _ => none
  | sc :: rest, name =>
    match scopeLookup sc name with
    | some sym => some sym
    | none => resolveSym rest name

/-- The effect of `symbol->initialized = true` through a resolved pointer:
update the innermost scope containing the name. -/
def markInit : List ScopeMap → String → List ScopeMap
  | [], _ => []
  | sc :: rest, name =>
    if scope_isDefined sc name then
      sc.map (fun q => if q.1 == name then (q.1, { q.2 with initialized := true }) else q) :: rest
    else sc :: markInit rest name

/-- The mutable fields of `class SemanticAnalyzer`; the scope stack holds the
innermost scope at the head and the global scope at the end. -/
structure AnalyzerSt where
  scopes : List ScopeMap
  in_function : Bool
  deriving Repr

/-- The symbol map of `current_scope`. -/
def currentScope (a : AnalyzerSt) : ScopeMap :=
  a.scopes.headD []

/-- `SemanticAnalyzer::enterScope`. -/
def enterScope (a : AnalyzerSt) : AnalyzerSt :=
  { a with scopes := ([] : ScopeMap) :: a.scopes }

/-- `SemanticAnalyzer::exitScope` (the C++ throws when no scope is open;
analysis always pairs enter/exit so the stack is nonempty at every call). -/
def exitScope (a : AnalyzerSt) : AnalyzerSt :=
  { a with scopes := a.scopes.tail }

/-- `current_scope->define` on the analyzer state. -/
def defineCur (a : AnalyzerSt) (name : String) (sym : Symbol) : AnalyzerSt :=
  match a.scopes with
  | [] => a
  | sc :: rest => { a with scopes := scope_define sc name sym :: rest }

/-- The parameter-definition loop of
`SemanticAnalyzer::visitFunctionDeclaration`. -/
def saParams (fname : String) : List String → AnalyzerSt → Except String AnalyzerSt
  | [], a => .ok a
  | param :: rest, a =>
    if scope_isDefined (currentScope a) param then
      .error ("Parameter '" ++ param ++ "' is already defined in function '" ++ fname ++ "'")
    else saParams fname rest (defineCur a param (Symbol.mk .VARIABLE true 0))

mutual

/-- `SemanticAnalyzer::visit` on an expression, dispatching to the
`visit*Expression` members. -/
def saExpr : Expr → AnalyzerSt → Except String AnalyzerSt
  | .binary left op right, a => do
    let a ← saExpr left a
    let a ← saExpr right a
    if op = .ASSIGN then
      match left with
      | .var name =>
        match resolveSym a.scopes name with
        | none => .error ("Variable '" ++ name ++ "' is not defined")
        | some _ => .ok { a with scopes := markInit a.scopes name }
      | .arrayAccess _ _ => .ok a
      | _ => .error "Invalid assignment target"
    else .ok a
  | .unary _ right, a => saExpr right a
  | .literal _, a => .ok a
  | .var name, a =>
    match resolveSym a.scopes name with
    | none => .error ("Variable '" ++ name ++ "' is not defined")
    | some sym =>
      if ¬ sym.initialized then .error ("Variable '" ++ name ++ "' is not initialized")
      else .ok a
  | .call callee args, a =>
    if callee = "int" ∨ callee = "float" ∨ callee = "str" ∨ callee = "bool" then
      if args.length ≠ 1 then
        .error ("Built-in function '" ++ callee ++ "' expects 1 argument, but got "
                ++ toString args.length)
      else saExprList args a
    else
      match resolveSym a.scopes callee with
      | none => .error ("Function '" ++ callee ++ "' is not defined")
      | some sym =>
        if sym.type ≠ .FUNCTION then .error ("'" ++ callee ++ "' is not a function")
        else if sym.paramCount ≠ args.length then
          .error ("Function '" ++ callee ++ "' expects " ++ toString sym.paramCount
                  ++ " arguments, but got " ++ toString args.length)
        else saExprList args a
  | .arrayLit elements, a => saExprList elements a
  | .arrayAccess array index, a => do
    let a ← saExpr array a
    saExpr index a
  | .memberAccess object _, a => saExpr object a

/-- Argument/element visiting loops of the expression visitors. -/
def saExprList : List Expr → AnalyzerSt → Except String AnalyzerSt
  | [], a => .ok a
  | e :: rest, a => do
    let a ← saExpr e a
    saExprList rest a

/-- `SemanticAnalyzer::visit` on a statement, dispatching to the
`visit*Statement`/declaration members. -/
def saStmt : Stmt → AnalyzerSt → Except String AnalyzerSt
  | .varDecl name init, a =>
    if scope_isDefined (currentScope a) name then
      .error ("Variable '" ++ name ++ "' is already defined in this scope")
    else do
      let a ← match init with
        | some e => saExpr e a
        | none => .ok a
      .ok (defineCur a name (Symbol.mk .VARIABLE init.isSome 0))
  | .funcDecl name params body, a =>
    if scope_isDefined (currentScope a) name then
      .error ("Function '" ++ name ++ "' is already defined in this scope")
    else do
      let a := defineCur a name (Symbol.mk .FUNCTION true params.length)
      let a := enterScope a
      let previous_in_function := a.in_function
      let a := { a with in_function := true }
      let a ← saParams name params a
      let a ← saStmt body a
      let a := { a with in_function := previous_in_function }
      .ok (exitScope a)
  | .exprStmt e, a => saExpr e a
  | .ifStmt condition then_branch else_branch, a => do
    let a ← saExpr condition a
    let a ← saStmt then_branch (enterScope a)
    let a := exitScope a
    match else_branch with
    | some e => do
      let a ← saStmt e (enterScope a)
      .ok (exitScope a)
    | none => .ok a
  | .whileStmt condition body, a => do
    let a ← saExpr condition a
    let a ← saStmt body (enterScope a)
    .ok (exitScope a)
  | .ret value, a =>
    if ¬ a.in_function then .error "Cannot return from outside a function"
    else
      match value with
      | some e => saExpr e a
      | none => .ok a
  | .block statements, a => saStmtList statements a
  | .printStmt e, a => saExpr e a
  | .inputStmt v, a =>
    match resolveSym a.scopes v with
    | none => .error ("Variable '" ++ v ++ "' is not defined")
    | some _ => .ok { a with scopes := markInit a.scopes v }
  | .loopIn v iterable body, a => do
    let a ← saExpr iterable a
    let a := enterScope a
    let a := defineCur a v (Symbol.mk .VARIABLE true 0)
    let a ← saStmt body a
    .ok (exitScope a)
  | .loopTimes count body, a => do
    let a ← saExpr count a
    let a ← saStmt body (enterScope a)
    .ok (exitScope a)

/-- The statement loop of `visitBlockStatement` / `visit(Program)`. -/
def saStmtList : List Stmt → AnalyzerSt → Except String AnalyzerSt
  | [], a => .ok a
  | s :: rest, a => do
    let a ← saStmt s a
    saStmtList rest a

end

/-- `SemanticAnalyzer::analyze`: a fresh analyzer (one open global scope,
`in_function = false`) visits the program; success returns unit, failure
surfaces the first `SemanticError`. -/
def analyze (p : Program) : Except String Unit :=
  match saStmtList p.statements (AnalyzerSt.mk [[]] false) with
  | .ok _ => .ok ()
  | .error e => .error e

/-! ### IR (`include/ir_generator.h`, `src/ir_generator.cpp`) -/

/-- `enum class IROpCode` (the `.cpp` additionally uses `CONVERT`). -/
inductive IROpCode where
  | LOAD_CONST | LOAD_VAR | STORE_VAR | BINARY_OP | UNARY_OP
  | JUMP | JUMP_IF_FALSE | JUMP_IF_TRUE | CALL | RETURN
  | PRINT | INPUT | ARRAY_NEW | ARRAY_GET | ARRAY_SET
  | MEMBER_GET | LABEL | CONVERT | NOP
  deriving DecidableEq, Repr

/-- `struct IRInstruction`. -/
structure IRInstruction where
  opcode : IROpCode
  operands : List String
  deriving DecidableEq, Repr

/-- `struct IRFunction`. -/
structure IRFunction where
  name : String
  parameters : List String
  instructions : List IRInstruction
  labelCounter : Nat
  deriving DecidableEq, Repr

/-- `IRFunction::generateLabel`. -/
def IRFunction.generateLabel (f : IRFunction) : String × IRFunction :=
  ("L" ++ Nat.repr f.labelCounter, { f with labelCounter := f.labelCounter + 1 })

/-- The mutable fields of `class IRGenerator`; `currentFunction` is the
index of the pointed-to element of `functions`. -/
structure GenState where
  functions : List IRFunction
  cur : Nat
  varsMap : List (String × Nat)   -- the C++ field `variables` (a Lean keyword)
  tempCounter : Nat
  deriving Repr

/-- `IRGenerator::IRGenerator`. -/
def initGenState : GenState :=
  { functions := [IRFunction.mk "__main__" [] [] 0], cur := 0,
    varsMap := [], tempCounter := 0 }

/-- In-place update of the `i`-th list element. -/
def listModify : List α → Nat → (α → α) → List α
  | [], _, _ => []
  | a :: l, 0, g => g a :: l
  | a :: l, n + 1, g => a :: listModify l n g

/-- The function `currentFunction` points to. -/
def curFn (σ : GenState) : IRFunction :=
  σ.functions.getD σ.cur (IRFunction.mk "" [] [] 0)

/-- Apply an update through the `currentFunction` pointer. -/
def modifyCur (σ : GenState) (g : IRFunction → IRFunction) : GenState :=
  { σ with functions := listModify σ.functions σ.cur g }

/-- `IRGenerator::emit`. -/
def emit (instr : IRInstruction) (σ : GenState) : GenState :=
  modifyCur σ (fun f => { f with instructions := f.instructions ++ [instr] })

/-- `IRGenerator::generateTemp`. -/
def generateTemp (σ : GenState) : String × GenState :=
  ("t" ++ Nat.repr σ.tempCounter, { σ with tempCounter := σ.tempCounter + 1 })

/-- `currentFunction->generateLabel()` on the generator state. -/
def generateLabelSt (σ : GenState) : String × GenState :=
  ("L" ++ Nat.repr (curFn σ).labelCounter,
   modifyCur σ (fun f => { f with labelCounter := f.labelCounter + 1 }))

/-- `IRGenerator::enterFunction`. -/
def enterFunction (name : String) (parameters : List String) (σ : GenState) : GenState :=
  { σ with functions := σ.functions ++ [IRFunction.mk name parameters [] 0],
           cur := σ.functions.length,
           tempCounter := 0,
           varsMap := [] }

/-- `IRGenerator::exitFunction` (defined in the C++ but the declaration
visitor restores the saved pointer instead). -/
def exitFunction (σ : GenState) : GenState :=
  { σ with cur := 0 }

/-- `variables[name] = 1` on the `unordered_map`. -/
def varsSet (m : List (String × Nat)) (name : String) : List (String × Nat) :=
  if m.any (fun q => q.1 == name) then
    m.map (fun q => if q.1 == name then (q.1, 1) else q)
  else m ++ [(name, 1)]

/-- `variables[name] = 1` on the generator state. -/
def trackVar (name : String) (σ : GenState) : GenState :=
  { σ with varsMap := varsSet σ.varsMap name }

/-- The operand-joining loop of `visitCallExpression` /
`visitArrayExpression` (comma-space separated). -/
def joinComma : List String → String
  | [] => ""
  | x :: xs => xs.foldl (fun acc v => acc ++ ", " ++ v) x

/-- The binary token-to-operator switch of `visitBinaryExpression`. -/
def binOpString : TokenType → String
  | .PLUS => "+"
  | .MINUS => "-"
  | .MULTIPLY => "*"
  | .DIVIDE => "/"
  | .CONCAT => "^"
  | .EQUAL => "=="
  | .NOT_EQUAL => "!="
  | .LESS => "<"
  | .LESS_EQUAL => "<="
  | .GREATER => ">"
  | .GREATER_EQUAL => ">="
  | .AND => "&&"
  | .OR => "||"
  | _ => "?"

/-- The unary token-to-operator switch of `visitUnaryExpression`. -/
def unOpString : TokenType → String
  | .MINUS => "-"
  | .NOT => "!"
  | _ => "?"

/-- `std::to_string` on a C++ `int` (the literal payload). -/
def intToString (n : Int) : String :=
  if n < 0 then "-" ++ Nat.repr n.natAbs else Nat.repr n.toNat

/-- The string rendered for a literal by `visitLiteralExpression`
(`double`s are abstracted by their source text; no claim exercises them). -/
def literalValueString : LiteralValue → String
  | .vint n => intToString n
  | .vfloat raw => raw
  | .vbool b => if b then "true" else "false"
  | .vstr s => "\"" ++ s ++ "\""

mutual

/-- `IRGenerator::visit` on an expression: returns the operand string and
the updated generator state. -/
def genExpr : Expr → GenState → String × GenState
  | .binary left op right, σ =>
    let (leftV, σ) := genExpr left σ
    let (rightV, σ) := genExpr right σ
    let (result, σ) := generateTemp σ
    match op, left with
    | .ASSIGN, .var name =>
      (rightV, emit (IRInstruction.mk .STORE_VAR [name, rightV]) σ)
    | .ASSIGN, .arrayAccess arr idx =>
      let (arrayV, σ) := genExpr arr σ
      let (indexV, σ) := genExpr idx σ
      (rightV, emit (IRInstruction.mk .ARRAY_SET [arrayV, indexV, rightV]) σ)
    | _, _ =>
      (result, emit (IRInstruction.mk .BINARY_OP [result, leftV, binOpString op, rightV]) σ)
  | .unary op right, σ =>
    let (operand, σ) := genExpr right σ
    let (result, σ) := generateTemp σ
    (result, emit (IRInstruction.mk .UNARY_OP [result, unOpString op, operand]) σ)
  | .literal v, σ =>
    let (result, σ) := generateTemp σ
    (result, emit (IRInstruction.mk .LOAD_CONST [result, literalValueString v]) σ)
  | .var name, σ =>
    let (result, σ) := generateTemp σ
    (result, emit (IRInstruction.mk .LOAD_VAR [result, name]) σ)
  | .call callee args, σ =>
    let (argValues, σ) := genExprList args σ
    if (callee = "int" ∨ callee = "float" ∨ callee = "str" ∨ callee = "bool")
        ∧ argValues.length = 1 then
      let (result, σ) := generateTemp σ
      (result, emit (IRInstruction.mk .CONVERT [result, callee, argValues.headD ""]) σ)
    else
      let argsStr := joinComma argValues
      let (result, σ) := generateTemp σ
      (result, emit (IRInstruction.mk .CALL [result, callee, argsStr]) σ)
  | .arrayLit elements, σ =>
    let (elementValues, σ) := genExprList elements σ
    let elementsStr := joinComma elementValues
    let (result, σ) := generateTemp σ
    (result, emit (IRInstruction.mk .ARRAY_NEW [result, elementsStr]) σ)
  | .arrayAccess array index, σ =>
    let (arrayV, σ) := genExpr array σ
    let (indexV, σ) := genExpr index σ
    let (result, σ) := generateTemp σ
    (result, emit (IRInstruction.mk .ARRAY_GET [result, arrayV, indexV]) σ)
  | .memberAccess object member, σ =>
    let (objectV, σ) := genExpr object σ
    let (result, σ) := generateTemp σ
    (result, emit (IRInstruction.mk .MEMBER_GET [result, objectV, member]) σ)

/-- Argument/element evaluation loops of `visitCallExpression` /
`visitArrayExpression`. -/
def genExprList : List Expr → GenState → List String × GenState
  | [], σ => ([], σ)
  | e :: rest, σ =>
    let (v, σ) := genExpr e σ
    let (vs, σ) := genExprList rest σ
    (v :: vs, σ)

/-- `IRGenerator::visit` on a statement. -/
def genStmt : Stmt → GenState → GenState
  | .varDecl name init, σ =>
    let σ := match init with
      | some e =>
        let (temp, σ) := genExpr e σ
        emit (IRInstruction.mk .STORE_VAR [name, temp]) σ
      | none => σ
    trackVar name σ
  | .funcDecl name params body, σ =>
    let previousFunction := σ.cur
    let σ := enterFunction name params σ
    let σ := params.foldl (fun σ param => trackVar param σ) σ
    let σ := genStmt body σ
    let σ :=
      if (curFn σ).instructions.isEmpty
          ∨ ((curFn σ).instructions.getLastD (IRInstruction.mk .NOP [])).opcode ≠ .RETURN then
        emit (IRInstruction.mk .RETURN []) σ
      else σ
    { σ with cur := previousFunction }
  | .exprStmt e, σ => (genExpr e σ).2
  | .ifStmt condition then_branch else_branch, σ =>
    let (conditionV, σ) := genExpr condition σ
    let (elseLabel, σ) := generateLabelSt σ
    let (endLabel, σ) := generateLabelSt σ
    let σ := emit (IRInstruction.mk .JUMP_IF_FALSE [conditionV, elseLabel]) σ
    let σ := genStmt then_branch σ
    let σ := emit (IRInstruction.mk .JUMP [endLabel]) σ
    let σ := emit (IRInstruction.mk .LABEL [elseLabel]) σ
    let σ := match else_branch with
      | some e => genStmt e σ
      | none => σ
    emit (IRInstruction.mk .LABEL [endLabel]) σ
  | .whileStmt condition body, σ =>
    let (loopLabel, σ) := generateLabelSt σ
    let (endLabel, σ) := generateLabelSt σ
    let σ := emit (IRInstruction.mk .LABEL [loopLabel]) σ
    let (conditionV, σ) := genExpr condition σ
    let σ := emit (IRInstruction.mk .JUMP_IF_FALSE [conditionV, endLabel]) σ
    let σ := genStmt body σ
    let σ := emit (IRInstruction.mk .JUMP [loopLabel]) σ
    emit (IRInstruction.mk .LABEL [endLabel]) σ
  | .ret value, σ =>
    match value with
    | some e =>
      let (v, σ) := genExpr e σ
      emit (IRInstruction.mk .RETURN [v]) σ
    | none => emit (IRInstruction.mk .RETURN []) σ
  | .block statements, σ => genStmtList statements σ
  | .printStmt e, σ =>
    let (v, σ) := genExpr e σ
    emit (IRInstruction.mk .PRINT [v]) σ
  | .inputStmt v, σ =>
    let σ := emit (IRInstruction.mk .INPUT [v]) σ
    trackVar v σ
  | .loopIn v iterable body, σ =>
    let (iterableV, σ) := genExpr iterable σ
    let (indexVar, σ) := generateTemp σ
    let (loopLabel, σ) := generateLabelSt σ
    let (endLabel, σ) := generateLabelSt σ
    let σ := emit (IRInstruction.mk .LOAD_CONST [indexVar, "0"]) σ
    let σ := emit (IRInstruction.mk .LABEL [loopLabel]) σ
    let (lengthTemp, σ) := generateTemp σ
    let (conditionTemp, σ) := generateTemp σ
    let σ := emit (IRInstruction.mk .MEMBER_GET [lengthTemp, iterableV, "length"]) σ
    let σ := emit (IRInstruction.mk .BINARY_OP [conditionTemp, indexVar, "<", lengthTemp]) σ
    let σ := emit (IRInstruction.mk .JUMP_IF_FALSE [conditionTemp, endLabel]) σ
    let (itemTemp, σ) := generateTemp σ
    let σ := emit (IRInstruction.mk .ARRAY_GET [itemTemp, iterableV, indexVar]) σ
    let σ := emit (IRInstruction.mk .STORE_VAR [v, itemTemp]) σ
    let σ := genStmt body σ
    let (nextIndexTemp, σ) := generateTemp σ
    let σ := emit (IRInstruction.mk .BINARY_OP [nextIndexTemp, indexVar, "+", "1"]) σ
    let σ := emit (IRInstruction.mk .STORE_VAR [indexVar, nextIndexTemp]) σ
    let σ := emit (IRInstruction.mk .JUMP [loopLabel]) σ
    emit (IRInstruction.mk .LABEL [endLabel]) σ
  | .loopTimes count body, σ =>
    let (countV, σ) := genExpr count σ
    let (indexVar, σ) := generateTemp σ
    let (loopLabel, σ) := generateLabelSt σ
    let (endLabel, σ) := generateLabelSt σ
    let σ := emit (IRInstruction.mk .LOAD_CONST [indexVar, "0"]) σ
    let σ := emit (IRInstruction.mk .LABEL [loopLabel]) σ
    let (conditionTemp, σ) := generateTemp σ
    let σ := emit (IRInstruction.mk .BINARY_OP [conditionTemp, indexVar, "<", countV]) σ
    let σ := emit (IRInstruction.mk .JUMP_IF_FALSE [conditionTemp, endLabel]) σ
    let σ := genStmt body σ
    let (nextIndexTemp, σ) := generateTemp σ
    let σ := emit (IRInstruction.mk .BINARY_OP [nextIndexTemp, indexVar, "+", "1"]) σ
    let σ := emit (IRInstruction.mk .STORE_VAR [indexVar, nextIndexTemp]) σ
    let σ := emit (IRInstruction.mk .JUMP [loopLabel]) σ
    emit (IRInstruction.mk .LABEL [endLabel]) σ

/-- The statement loop of `visitBlockStatement` / `visit(Program)`. -/
def genStmtList : List Stmt → GenState → GenState
  | [], σ => σ
  | s :: rest, σ => genStmtList rest (genStmt s σ)

end

/-- `IRGenerator::generate`. -/
def generate (p : Program) : List IRFunction :=
  (genStmtList p.statements initGenState).functions

/-! ### Code emitter constant normalization
(`CodeGenerator::handleLoadConst`, `src/code_generator.cpp`) -/

/-- The numeric-detection loop of `handleLoadConst`: optional minus at
index 0, at most one dot, all other characters decimal digits. -/
def lc_scan : List Char → Nat → Bool → Bool
  | [], _, _ => true
  | c :: cs, i, has_dot =>
    if i = 0 ∧ c = '-' then lc_scan cs (i + 1) has_dot
    else if c = '.' ∧ ¬ has_dot then lc_scan cs (i + 1) true
    else if is_digit c then lc_scan cs (i + 1) has_dot
    else false

/-- The value normalization of `CodeGenerator::handleLoadConst`. -/
def handleLoadConstValue (value : String) : String :=
  let cs := value.data
  if ¬ cs.isEmpty ∧ cs.headD ' ' = '\"' ∧ cs.getLastD ' ' = '\"' then value
  else if ¬ cs.isEmpty ∧ cs.headD ' ' = '\'' ∧ cs.getLastD ' ' = '\'' then value
  else
    let is_numeric := if cs.isEmpty then false else lc_scan cs 0 false
    if value = "true" then "True"
    else if value = "false" then "False"
    else if ¬ is_numeric then "\\\"" ++ value ++ "\\\""
    else value

/-- `CodeGenerator::handleLoadConst`. -/
def handleLoadConst (instruction : IRInstruction) : String :=
  instruction.operands.getD 0 "" ++ " = "
    ++ handleLoadConstValue (instruction.operands.getD 1 "")

/-! ### Observables used by the claims -/

/-- The indentation depth demanded by the specification sentence for C5:
every leading space counts 1 and every leading tab counts 4, independently
of their interleaving. -/
def claimedIndentDepth (cs : List Char) : Nat :=
  let ws := cs.takeWhile (fun c => c == ' ' || c == '\t')
  (ws.filter (fun c => c == ' ')).length + 4 * (ws.filter (fun c => c == '\t')).length

/-- Number of leading space characters. -/
def leadingSpaces (cs : List Char) : Nat :=
  (cs.takeWhile (fun c => c == ' ')).length

/-- Number of tab characters immediately following the leading spaces. -/
def tabsAfterSpaces (cs : List Char) : Nat :=
  ((cs.drop (leadingSpaces cs)).takeWhile (fun c => c == '\t')).length

/-- The bare values the emitter's scan passes through as numeric: after an
optional leading minus, every character is a decimal digit or a dot, with at
most one dot in the remainder (this includes degenerate shapes such as
`"-"`, `"."` and `"5."`). -/
def numericLike (cs : List Char) : Bool :=
  let body := if cs.headD ' ' = '-' then cs.tail else cs
  body.all (fun c => is_digit c || c == '.') && body.count '.' ≤ 1

/-- The normalization of `LOAD_CONST` values stated by the amended C6:
`true`/`false` become `True`/`False` unless already quoted; values enclosed
in matching quotes pass through; values accepted by the permissive numeric
scan pass through; every other bare value is wrapped in a
backslash-double-quote pair on each side. -/
def amendedLoadConstNorm (v : String) : String :=
  let cs := v.data
  if ¬ cs.isEmpty ∧ cs.headD ' ' = '\"' ∧ cs.getLastD ' ' = '\"' then v
  else if ¬ cs.isEmpty ∧ cs.headD ' ' = '\'' ∧ cs.getLastD ' ' = '\'' then v
  else if v = "true" then "True"
  else if v = "false" then "False"
  else if ¬ cs.isEmpty ∧ numericLike cs then v
  else "\\\"" ++ v ++ "\\\""

/-- Opcodes whose first operand is always a freshly issued temporary
destination in the IR generator. -/
def isTempCreating : IROpCode → Bool
  | .LOAD_CONST | .LOAD_VAR | .BINARY_OP | .UNARY_OP | .CALL
  | .CONVERT | .ARRAY_NEW | .ARRAY_GET | .MEMBER_GET => true
  | _ => false

/-- The temporary destinations introduced by an instruction sequence. -/
def tempDests (l : List IRInstruction) : List String :=
  l.filterMap (fun i => if isTempCreating i.opcode then some (i.operands.headD "") else none)

/-- The label names defined by an instruction sequence. -/
def labelsOf (l : List IRInstruction) : List String :=
  l.filterMap (fun i => if i.opcode = .LABEL then some (i.operands.headD "") else none)

/-- The jump targets referenced by an instruction sequence: operand 0 of a
`JUMP`, operand 1 of a conditional jump. -/
def jumpTargetsOf (l : List IRInstruction) : List String :=
  l.filterMap (fun i =>
    match i.opcode with
    | .JUMP => some (i.operands.headD "")
    | .JUMP_IF_FALSE => some (i.operands.getD 1 "")
    | .JUMP_IF_TRUE => some (i.operands.getD 1 "")
    | _ => none)

mutual

/-- Whether a statement contains a function declaration anywhere (used by
the amended C4). -/
def hasFuncDecl : Stmt → Bool
  | .funcDecl _ _ _ => true
  | .block stmts => hasFuncDeclList stmts
  | .ifStmt _ t e => hasFuncDecl t || (match e with | some s => hasFuncDecl s | none => false)
  | .whileStmt _ b => hasFuncDecl b
  | .loopIn _ _ b => hasFuncDecl b
  | .loopTimes _ b => hasFuncDecl b
  | _ => false

/-- `hasFuncDecl` over a statement list. -/
def hasFuncDeclList : List Stmt → Bool
  | [] => false
  | s :: rest => hasFuncDecl s || hasFuncDeclList rest

end

/-- The name `generateTemp` issues for counter value `n`. -/
def mkTemp (n : Nat) : String := "t" ++ Nat.repr n

/-- The name `generateLabel` issues for counter value `n`. -/
def mkLabel (n : Nat) : String := "L" ++ Nat.repr n

/-- Placeholder function used with `List.getD` (never selected while the
current-function index is in range). -/
def dfltFn : IRFunction := IRFunction.mk "" [] [] 0

/-- A generated instruction block `B` over the label-counter interval
`[c, c')`: its label names are `mkLabel` images of a duplicate-free index
list drawn from the interval, and every jump in `B` targets a label defined
in `B`. -/
def LBlock (c c' : Nat) (B : List IRInstruction) : Prop :=
  c ≤ c'
  ∧ (∀ t ∈ jumpTargetsOf B, t ∈ labelsOf B)
  ∧ ∃ ns : List Nat, labelsOf B = ns.map mkLabel ∧ ns.Nodup
      ∧ ∀ n ∈ ns, c ≤ n ∧ n < c'

/-- A generated instruction block `B` over the temporary-counter interval
`[c, c')`: its freshly issued destinations are `mkTemp` images of a
duplicate-free index list drawn from the interval. -/
def TBlock (c c' : Nat) (B : List IRInstruction) : Prop :=
  c ≤ c'
  ∧ ∃ ns : List Nat, tempDests B = ns.map mkTemp ∧ ns.Nodup
      ∧ ∀ n ∈ ns, c ≤ n ∧ n < c'

/-- A well-formed finished IR function: its label names are the `mkLabel`
images of a duplicate-free index list, and every jump targets one of its
own labels. -/
def WFFn (f : IRFunction) : Prop :=
  (∃ ns : List Nat, labelsOf f.instructions = ns.map mkLabel ∧ ns.Nodup)
  ∧ ∀ t ∈ jumpTargetsOf f.instructions, t ∈ labelsOf f.instructions

/-- One generation segment: between states `σ` and `σ'` the generator kept
the current index, appended exactly `B` to the current function, preserved
every pre-existing other function, and left every newly created function
well-formed. -/
def Seg (σ σ' : GenState) (B : List IRInstruction) : Prop :=
  σ'.cur = σ.cur
  ∧ σ.functions.length ≤ σ'.functions.length
  ∧ (∀ j, j < σ.functions.length → j ≠ σ.cur →
      σ'.functions.getD j dfltFn = σ.functions.getD j dfltFn)
  ∧ (curFn σ').instructions = (curFn σ).instructions ++ B
  ∧ (∀ j, σ.functions.length ≤ j → j < σ'.functions.length →
      WFFn (σ'.functions.getD j dfltFn))

/-- Shape facts shared by every expression visit: only the current
function changes, by appending a block `B` that defines no labels and
contains no jumps, whose fresh destinations form a `TBlock` over the
temporary-counter interval. -/
def GenExprPost (σ σ' : GenState) : Prop :=
  σ'.cur = σ.cur
  ∧ σ'.functions.length = σ.functions.length
  ∧ (∀ j, j ≠ σ.cur → σ'.functions.getD j dfltFn = σ.functions.getD j dfltFn)
  ∧ σ.tempCounter ≤ σ'.tempCounter
  ∧ ∃ B, (curFn σ').labelCounter = (curFn σ).labelCounter
      ∧ (curFn σ').instructions = (curFn σ).instructions ++ B
      ∧ labelsOf B = []
      ∧ jumpTargetsOf B = []
      ∧ TBlock σ.tempCounter σ'.tempCounter B

/-- Shape facts shared by every statement visit: a segment whose appended
block is a complete `LBlock` over the current function's label-counter
interval. -/
def GenStmtPost (σ σ' : GenState) : Prop :=
  ∃ B, Seg σ σ' B
    ∧ LBlock (curFn σ).labelCounter (curFn σ').labelCounter B

/-- The temporary-counter facts of a statement visit that contains no
function declaration (the counter is monotone and the appended block is a
`TBlock`). -/
def GenTempPost (σ σ' : GenState) : Prop :=
  σ.tempCounter ≤ σ'.tempCounter
  ∧ ∃ B, (curFn σ').instructions = (curFn σ).instructions ++ B
      ∧ TBlock σ.tempCounter σ'.tempCounter B

/-- Decimal digit characters of `n`, most significant first (the list
`Nat.repr` renders). -/
def decDigits (n : Nat) : List Char :=
  if n < 10 then [Nat.digitChar n]
  else decDigits (n / 10) ++ [Nat.digitChar (n % 10)]
termination_by n
decreasing_by exact Nat.div_lt_self (by omega) (by omega)

/-- Numeric value of a digit character. -/
def digitVal (c : Char) : Nat := c.toNat - 48

/-- Value of a most-significant-first digit list. -/
def digitsVal (l : List Char) : Nat :=
  l.foldl (fun a c => 10 * a + digitVal c) 0

/-! ## Helper lemmas -/

theorem getD_eq_headD_drop (l : List Char) (n : Nat) (c : Char) :
    l.getD n c = (l.drop n).headD c := by
  induction l generalizing n with
  | nil => simp [List.getD]
  | cons a l ih =>
    cases n with
    | zero => simp [List.getD]
    | succ n => simp [List.getD, ← ih n]

theorem chAt_eq (s : LexSt) : chAt s = (s.source.drop s.position).headD '\x00' :=
  getD_eq_headD_drop _ _ _

theorem advance_source (s : LexSt) : (advance s).source = s.source := by
  unfold advance
  split <;> [skip; rfl]
  dsimp only
  split <;> split <;> rfl

theorem advance_position (s : LexSt) (h : s.position < s.source.length) :
    (advance s).position = s.position + 1 := by
  unfold advance
  rw [if_pos h]
  dsimp only
  split <;> split <;> rfl

theorem advance_indent_stack (s : LexSt) : (advance s).indent_stack = s.indent_stack := by
  unfold advance
  split <;> [skip; rfl]
  dsimp only
  split <;> split <;> rfl

theorem advance_token_queue (s : LexSt) : (advance s).token_queue = s.token_queue := by
  unfold advance
  split <;> [skip; rfl]
  dsimp only
  split <;> split <;> rfl

theorem advance_at_line_start (s : LexSt) : (advance s).at_line_start = s.at_line_start := by
  unfold advance
  split <;> [skip; rfl]
  dsimp only
  split <;> split <;> rfl

/-- When the current character is real (in range), `advance` steps to the
tail of the remaining character list. -/
theorem advance_drop (s : LexSt) (h : s.position < s.source.length) :
    (advance s).source.drop (advance s).position = (s.source.drop s.position).tail := by
  rw [advance_source, advance_position s h, ← List.drop_drop]
  cases hd : s.source.drop s.position with
  | nil => simp [List.drop_eq_nil_iff.2 (by simpa using List.drop_eq_nil_iff.1 hd)]
  | cons a l => simp [List.drop_one, hd]

/-- A state whose remaining characters are nonempty has its position in
range. -/
theorem pos_lt_of_drop_ne_nil {s : LexSt} (h : s.source.drop s.position ≠ []) :
    s.position < s.source.length := by
  by_contra hc
  exact h (List.drop_eq_nil_iff.2 (by omega))

theorem chAt_cons {s : LexSt} {c : Char} {cs : List Char}
    (h : s.source.drop s.position = c :: cs) : chAt s = c := by
  rw [chAt_eq, h]; rfl

theorem chAt_nil {s : LexSt} (h : s.source.drop s.position = []) : chAt s = '\x00' := by
  rw [chAt_eq, h]; rfl

/-! Decimal rendering: `Nat.repr` is injective. -/

theorem toDigitsCore_eq_decDigits :
    ∀ (fuel n : Nat) (ds : List Char), n < fuel →
      Nat.toDigitsCore 10 fuel n ds = decDigits n ++ ds := by
  intro fuel
  induction fuel with
  | zero => intro n ds h; omega
  | succ fuel ih =>
    intro n ds h
    rw [Nat.toDigitsCore]
    by_cases h10 : n / 10 = 0
    · have hn : n < 10 := (Nat.div_eq_zero_iff (by omega)).1 h10
      rw [if_pos h10, decDigits, if_pos hn, Nat.mod_eq_of_lt hn]
      rfl
    · have hn : ¬ n < 10 := fun hlt => h10 (Nat.div_eq_of_lt hlt)
      have hdiv : n / 10 < fuel := by
        have h1 : n / 10 < n := Nat.div_lt_self (by omega) (by omega)
        omega
      rw [if_neg h10, ih (n / 10) _ hdiv]
      conv_rhs => rw [decDigits, if_neg hn]
      rw [List.append_assoc]
      rfl

theorem repr_eq_decDigits (n : Nat) : Nat.repr n = (decDigits n).asString := by
  rw [Nat.repr, Nat.toDigits, toDigitsCore_eq_decDigits (n + 1) n [] (by omega),
    List.append_nil]

theorem digitVal_digitChar (d : Nat) (h : d < 10) :
    digitVal (Nat.digitChar d) = d := by
  interval_cases d <;> rfl

theorem digitsVal_append_singleton (l : List Char) (c : Char) :
    digitsVal (l ++ [c]) = 10 * digitsVal l + digitVal c := by
  simp [digitsVal, List.foldl_append]

theorem digitsVal_decDigits (n : Nat) : digitsVal (decDigits n) = n := by
  induction n using Nat.strong_induction_on with
  | _ n ih =>
    rw [decDigits]
    by_cases h : n < 10
    · rw [if_pos h]
      simp [digitsVal, digitVal_digitChar n h]
    · rw [if_neg h, digitsVal_append_singleton,
        ih (n / 10) (Nat.div_lt_self (by omega) (by omega)),
        digitVal_digitChar _ (Nat.mod_lt _ (by omega))]
      omega

theorem natRepr_injective : Function.Injective Nat.repr := by
  intro m n h
  rw [repr_eq_decDigits, repr_eq_decDigits] at h
  have hdata : decDigits m = decDigits n := by
    have := congrArg String.data h
    simpa [List.asString] using this
  have := congrArg digitsVal hdata
  rwa [digitsVal_decDigits, digitsVal_decDigits] at this

theorem string_append_left_cancel {p a b : String} (h : p ++ a = p ++ b) : a = b := by
  have hdata := congrArg String.data h
  simp only [String.data_append] at hdata
  cases a with
  | mk da =>
    cases b with
    | mk db =>
      simp_all [List.append_cancel_left_eq]

theorem mkPrefixed_injective (p : String) :
    Function.Injective (fun n : Nat => p ++ Nat.repr n) := by
  intro m n h
  exact natRepr_injective (string_append_left_cancel h)

theorem except_ok_bind {e a b : Type} (x : a) (f : a → Except e b) :
    (Except.ok x : Except e a) >>= f = f x := rfl

theorem except_error_bind {e a b : Type} (msg : e) (f : a → Except e b) :
    (Except.error msg : Except e a) >>= f = .error msg := rfl

/-! ## C5 — indentation counting -/

theorem count_indent_sp_spec :
    ∀ (fuel : Nat) (s : LexSt), leadingSpaces (s.source.drop s.position) < fuel →
      ∃ s', count_indent_sp fuel s = .ok (leadingSpaces (s.source.drop s.position), s')
        ∧ s'.source = s.source
        ∧ s'.position = s.position + leadingSpaces (s.source.drop s.position) := by
  intro fuel
  induction fuel with
  | zero => intro s h; omega
  | succ fuel ih =>
    intro s h
    cases hd : s.source.drop s.position with
    | nil =>
      refine ⟨s, ?_, rfl, ?_⟩
      · rw [count_indent_sp, if_neg (by rw [chAt_nil hd]; decide)]
        simp [leadingSpaces]
      · simp [leadingSpaces]
    | cons c cs =>
      by_cases hc : c = ' '
      · have hpos : s.position < s.source.length :=
          pos_lt_of_drop_ne_nil (by rw [hd]; simp)
        have hdrop : (advance s).source.drop (advance s).position = cs := by
          rw [advance_drop s hpos, hd]; rfl
        have hlen : leadingSpaces (c :: cs) = leadingSpaces cs + 1 := by
          simp [leadingSpaces, List.takeWhile, hc]
        have hbound : leadingSpaces ((advance s).source.drop (advance s).position) < fuel := by
          rw [hdrop]
          rw [hd, hlen] at h
          omega
        obtain ⟨s', heq, hsrc, hpos'⟩ := ih (advance s) hbound
        refine ⟨s', ?_, by rw [hsrc, advance_source], ?_⟩
        · rw [count_indent_sp, if_pos (by rw [chAt_cons hd, hc]), heq, hdrop, hlen]
        · rw [hpos', hdrop, advance_position s hpos, hlen]
          omega
      · have hcb : (c == ' ') = false := beq_eq_false_iff_ne.mpr hc
        have hlen : leadingSpaces (c :: cs) = 0 := by
          simp [leadingSpaces, List.takeWhile, hcb]
        refine ⟨s, ?_, rfl, ?_⟩
        · rw [count_indent_sp, if_neg (by rw [chAt_cons hd]; exact hc), hlen]
        · rw [hlen]
          omega

theorem count_indent_tab_spec :
    ∀ (fuel : Nat) (s : LexSt),
      ((s.source.drop s.position).takeWhile (fun c => c == '\t')).length < fuel →
      ∃ s', count_indent_tab fuel s
          = .ok (4 * ((s.source.drop s.position).takeWhile (fun c => c == '\t')).length, s') := by
  intro fuel
  induction fuel with
  | zero => intro s h; omega
  | succ fuel ih =>
    intro s h
    cases hd : s.source.drop s.position with
    | nil =>
      refine ⟨s, ?_⟩
      rw [count_indent_tab, if_neg (by rw [chAt_nil hd]; decide)]
      simp
    | cons c cs =>
      by_cases hc : c = '\t'
      · have hpos : s.position < s.source.length :=
          pos_lt_of_drop_ne_nil (by rw [hd]; simp)
        have hdrop : (advance s).source.drop (advance s).position = cs := by
          rw [advance_drop s hpos, hd]; rfl
        have hlen : ((c :: cs).takeWhile (fun c => c == '\t')).length
            = (cs.takeWhile (fun c => c == '\t')).length + 1 := by
          simp [hc, List.takeWhile]
        have hbound : (((advance s).source.drop (advance s).position).takeWhile
            (fun c => c == '\t')).length < fuel := by
          rw [hdrop]
          rw [hd, hlen] at h
          omega
        obtain ⟨s', heq⟩ := ih (advance s) hbound
        refine ⟨s', ?_⟩
        rw [count_indent_tab, if_pos (by rw [chAt_cons hd, hc]), heq, hdrop, hlen]
        simp [Nat.mul_succ]
      · have hcb : (c == '\t') = false := beq_eq_false_iff_ne.mpr hc
        refine ⟨s, ?_⟩
        rw [count_indent_tab, if_neg (by rw [chAt_cons hd]; exact hc)]
        simp [List.takeWhile, hcb]

/-- C5 counterexample: on the source `"\t x"`, whose leading whitespace is a
tab followed by a space, `Lexer::count_indent` computes depth 4, while the
claimed order-independent count (1 per space, 4 per tab) gives 5. -/
theorem C5_counterexample :
    (count_indent 10 (initLexSt ['\t', ' ', 'x'])).map Prod.fst = .ok 4
    ∧ claimedIndentDepth ['\t', ' ', 'x'] = 5
    ∧ (4 : Nat) ≠ 5 :=
  ⟨rfl, rfl, by decide⟩

/-- C5 (amended): at start-of-line the lexer counts one per leading space and
then four per tab immediately following those spaces; whitespace after the
first non-tab character of the tab run — in particular a space that follows a
tab — is not counted. -/
theorem C5_count_indent (s : LexSt) (fuel : Nat)
    (hsp : leadingSpaces (s.source.drop s.position) < fuel)
    (htb : tabsAfterSpaces (s.source.drop s.position) < fuel) :
    ∃ s', count_indent fuel s
      = .ok (leadingSpaces (s.source.drop s.position)
              + 4 * tabsAfterSpaces (s.source.drop s.position), s') := by
  obtain ⟨s₁, heq₁, hsrc₁, hpos₁⟩ := count_indent_sp_spec fuel s hsp
  have hdrop : s₁.source.drop s₁.position
      = (s.source.drop s.position).drop (leadingSpaces (s.source.drop s.position)) := by
    rw [hsrc₁, hpos₁, ← List.drop_drop]
  have htb' : ((s₁.source.drop s₁.position).takeWhile (fun c => c == '\t')).length < fuel := by
    rw [hdrop]
    exact htb
  obtain ⟨s₂, heq₂⟩ := count_indent_tab_spec fuel s₁ htb'
  refine ⟨s₂, ?_⟩
  rw [count_indent, heq₁, except_ok_bind]
  dsimp only
  rw [heq₂, except_ok_bind]
  dsimp only
  rw [hdrop]
  rfl

/-- Witness for C5: on the source `" \tx"` (a space, then a tab) the depth is
`1 + 4 * 1 = 5`. -/
theorem C5_count_indent_witness :
    ∃ s', count_indent 10 (initLexSt [' ', '\t', 'x']) = .ok (5, s') := by
  obtain ⟨s', hs⟩ := C5_count_indent (initLexSt [' ', '\t', 'x']) 10 (by decide) (by decide)
  exact ⟨s', hs⟩

/-! ## C6 — LOAD_CONST normalization -/

theorem lc_scan_ne_zero :
    ∀ (cs : List Char) (i : Nat) (hd : Bool), i ≠ 0 →
      lc_scan cs i hd
        = (cs.all (fun c => is_digit c || c == '.')
            && decide (cs.count '.' + (if hd then 1 else 0) ≤ 1)) := by
  intro cs
  induction cs with
  | nil => intro i hd h; cases hd <;> simp [lc_scan]
  | cons c cs ih =>
    intro i hd h
    rw [lc_scan, if_neg (by simp [h])]
    by_cases hc : c = '.'
    · cases hd with
      | false =>
        rw [if_pos (by simp [hc]), ih _ _ (by omega)]
        subst hc
        simp [List.count_cons, is_digit]
      | true =>
        rw [if_neg (by simp), if_neg (by simp [hc, is_digit])]
        subst hc
        simp [List.count_cons]
    · rw [if_neg (by simp [hc])]
      by_cases hdig : is_digit c
      · rw [if_pos hdig, ih _ _ (by omega)]
        have hcnt : (c :: cs).count '.' = cs.count '.' := by
          simp [List.count_cons, hc]
        rw [hcnt]
        simp [hdig]
      · rw [if_neg hdig]
        simp [hdig, hc]

theorem lc_scan_zero (cs : List Char) : lc_scan cs 0 false = numericLike cs := by
  cases cs with
  | nil => simp [lc_scan, numericLike]
  | cons c cs =>
    by_cases hc : c = '-'
    · rw [lc_scan, if_pos (by simp [hc]), lc_scan_ne_zero cs 1 false (by omega)]
      subst hc
      simp [numericLike]
    · rw [lc_scan, if_neg (by simp [hc])]
      have hbody : numericLike (c :: cs)
          = ((c :: cs).all (fun c => is_digit c || c == '.')
              && decide ((c :: cs).count '.' ≤ 1)) := by
        simp [numericLike, hc]
      by_cases hdot : c = '.'
      · rw [if_pos (by simp [hdot]), lc_scan_ne_zero cs 1 true (by omega), hbody]
        subst hdot
        simp [List.count_cons, is_digit]
      · rw [if_neg (by simp [hdot]), hbody]
        by_cases hdig : is_digit c
        · rw [if_pos hdig, lc_scan_ne_zero cs 1 false (by omega)]
          have hcnt : (c :: cs).count '.' = cs.count '.' := by
            simp [List.count_cons, hdot]
          rw [hcnt]
          simp [hdig]
        · rw [if_neg hdig]
          simp [hdig, hdot]

/-- C6 counterexample: the bare value `hello` is emitted wrapped in
backslash-escaped quotes (`t0 = \"hello\"`, six extra characters including
two backslashes), not in one pair of plain double quotes. -/
theorem C6_counterexample :
    handleLoadConst (IRInstruction.mk .LOAD_CONST ["t0", "hello"]) = "t0 = \\\"hello\\\""
    ∧ "t0 = \\\"hello\\\"" ≠ "t0 = \"hello\"" :=
  ⟨rfl, by decide⟩

/-- C6 (amended): translating `LOAD_CONST t, v` emits `t = v'` where `v'`
normalizes `true`/`false` to `True`/`False`, passes already-quoted values
through, passes through every value accepted by the permissive numeric scan
(optional leading minus, digits, at most one dot — including `"-"`, `"."`,
`"5."`), and wraps every other bare value in a backslash-double-quote pair on
each side (`t = \"v\"`). -/
theorem C6_handleLoadConst (t v : String) :
    handleLoadConst (IRInstruction.mk .LOAD_CONST [t, v])
      = t ++ " = " ++ amendedLoadConstNorm v := by
  show t ++ " = " ++ handleLoadConstValue v = t ++ " = " ++ amendedLoadConstNorm v
  congr 1
  rw [handleLoadConstValue, amendedLoadConstNorm]
  by_cases h1 : ¬ v.data.isEmpty ∧ v.data.headD ' ' = '\"' ∧ v.data.getLastD ' ' = '\"'
  · rw [if_pos h1, if_pos h1]
  · rw [if_neg h1, if_neg h1]
    by_cases h2 : ¬ v.data.isEmpty ∧ v.data.headD ' ' = '\'' ∧ v.data.getLastD ' ' = '\''
    · rw [if_pos h2, if_pos h2]
    · rw [if_neg h2, if_neg h2]
      by_cases h3 : v = "true"
      · rw [if_pos h3, if_pos h3]
      · rw [if_neg h3, if_neg h3]
        by_cases h4 : v = "false"
        · rw [if_pos h4, if_pos h4]
        · rw [if_neg h4, if_neg h4]
          by_cases h5 : v.data.isEmpty
          · rw [if_pos (by simp [h5]), if_neg (by simp [h5])]
          · rw [if_neg h5, lc_scan_zero]
            by_cases h6 : numericLike v.data
            · simp [h5, h6]
            · simp [h5, h6]

/-! ## C2 — assignment to an uninitialized variable -/

/-- C2 counterexample: in `var x` followed by `x = 5`, semantic analysis
rejects the assignment with an uninitialized-read error, because the
analyzer visits the left-hand side as an ordinary variable read before the
assignment case runs. -/
theorem C2_counterexample :
    analyze (Program.mk [.varDecl "x" none,
        .exprStmt (.binary (.var "x") .ASSIGN (.literal (.vint 5)))])
      = .error "Variable 'x' is not initialized" := rfl

/-- C2 (amended): for every variable name and literal, declaring the
variable without an initializer and then assigning to it fails semantic
analysis with the uninitialized-read error raised while visiting the
left-hand `Variable` of the assignment — the lhs must not merely resolve,
it must already be initialized. -/
theorem C2_assign_uninitialized (x : String) (v : LiteralValue) :
    analyze (Program.mk [.varDecl x none,
        .exprStmt (.binary (.var x) .ASSIGN (.literal v))])
      = .error ("Variable '" ++ x ++ "' is not initialized") := by
  simp [analyze, saStmtList, saStmt, saExpr, defineCur, currentScope,
    scope_isDefined, scope_define, scopeLookup, resolveSym,
    List.find?_nil, List.find?_cons, except_ok_bind, except_error_bind]

/-! ## C3 — lowering of assignment expressions -/

/-- C3 counterexample: lowering `x = 5` emits `LOAD_VAR t0, x` — a read of
the assignment target — before the right-hand side and the store, and burns
the unused temporary `t2`; the claimed sequence (rhs instructions then one
store, nothing else) does not hold. -/
theorem C3_counterexample :
    (curFn (genExpr (.binary (.var "x") .ASSIGN (.literal (.vint 5))) initGenState).2).instructions
      = [IRInstruction.mk .LOAD_VAR ["t0", "x"],
         IRInstruction.mk .LOAD_CONST ["t1", "5"],
         IRInstruction.mk .STORE_VAR ["x", "t1"]]
    ∧ IRInstruction.mk .LOAD_VAR ["t0", "x"]
        ∈ (curFn (genExpr (.binary (.var "x") .ASSIGN (.literal (.vint 5))) initGenState).2).instructions :=
  ⟨rfl, by decide⟩

/-! ## C4 — freshness of temporaries -/

/-- C4 counterexample: the program `print 1` / `func f(): (empty)` /
`print 2` passes analysis, yet the temporary `t0` is issued twice as a
destination inside `__main__`, because lowering the function declaration
resets the temporary counter and never restores it. -/
theorem C4_counterexample :
    analyze (Program.mk [.printStmt (.literal (.vint 1)),
        .funcDecl "f" [] (.block []), .printStmt (.literal (.vint 2))]) = .ok ()
    ∧ ((generate (Program.mk [.printStmt (.literal (.vint 1)),
        .funcDecl "f" [] (.block []), .printStmt (.literal (.vint 2))])).headD
          (IRFunction.mk "" [] [] 0)).name = "__main__"
    ∧ tempDests ((generate (Program.mk [.printStmt (.literal (.vint 1)),
        .funcDecl "f" [] (.block []), .printStmt (.literal (.vint 2))])).headD
          (IRFunction.mk "" [] [] 0)).instructions = ["t0", "t0"]
    ∧ ¬ (["t0", "t0"] : List String).Nodup :=
  ⟨rfl, rfl, rfl, by decide⟩

/-! ## C9 — one statement per line -/

/-- C9 counterexample: the parser accepts `print 1 print 2` — two print
statements on one source line with no NEWLINE between them — as a
two-statement program, because simple statements only `match` (optionally
consume) the trailing NEWLINE instead of requiring it. -/
theorem C9_counterexample :
    ((tokenize 40 "print 1 print 2\n".data).bind (parseProgram 20)).map
        (fun p => p.statements.length) = .ok 2 := by
  have h1 : tokenize 40 "print 1 print 2\n".data
      = .ok [Token.mk .PRINT (.vstr "") 1 1, Token.mk .INTEGER (.vint 1) 1 7,
             Token.mk .PRINT (.vstr "") 1 9, Token.mk .INTEGER (.vint 2) 1 15,
             Token.mk .NEWLINE (.vstr "") 1 16, Token.mk .EOF_TOKEN (.vstr "") 2 0] := rfl
  rw [h1]
  rfl

/-- C9 (amended): a simple statement consumes a following NEWLINE when one
is present but does not require it; lexing and parsing
`print 1 print 2` yields the two-statement program
`[Print 1, Print 2]`. -/
theorem C9_print_print :
    (tokenize 40 "print 1 print 2\n".data).bind (parseProgram 20)
      = .ok (Program.mk [.printStmt (.literal (.vint 1)),
                         .printStmt (.literal (.vint 2))]) := by
  have h1 : tokenize 40 "print 1 print 2\n".data
      = .ok [Token.mk .PRINT (.vstr "") 1 1, Token.mk .INTEGER (.vint 1) 1 7,
             Token.mk .PRINT (.vstr "") 1 9, Token.mk .INTEGER (.vint 2) 1 15,
             Token.mk .NEWLINE (.vstr "") 1 16, Token.mk .EOF_TOKEN (.vstr "") 2 0] := rfl
  rw [h1]
  rfl

/-! ## C10 — function names bind at declaration -/

/-- C10: calling a user-defined function before its declaration fails with
the `not defined` semantic error (names are bound only when the declaration
is visited), while a function whose body calls itself (recursion) is
accepted, since the name is defined before the body is visited. -/
theorem C10_function_binding (f x : String)
    (h1 : f ≠ "int") (h2 : f ≠ "float") (h3 : f ≠ "str") (h4 : f ≠ "bool")
    (h5 : f ≠ x) :
    analyze (Program.mk [.exprStmt (.call f []), .funcDecl f [] (.block [])])
        = .error ("Function '" ++ f ++ "' is not defined")
    ∧ analyze (Program.mk [.funcDecl f [x]
          (.block [.ret (some (.call f [.var x]))])])
        = .ok () := by
  have hxf : (x == f) = false := beq_eq_false_iff_ne.mpr (Ne.symm h5)
  constructor
  · simp [analyze, saStmtList, saStmt, saExpr, saExprList, resolveSym,
      scopeLookup, List.find?_nil, List.find?_cons, except_ok_bind,
      except_error_bind, h1, h2, h3, h4]
  · simp [analyze, saStmtList, saStmt, saExpr, saExprList, saParams,
      defineCur, currentScope, scope_isDefined, scope_define, scopeLookup,
      resolveSym, enterScope, exitScope, List.find?_nil, List.find?_cons,
      except_ok_bind, except_error_bind, hxf, h1, h2, h3, h4]

/-! ## IR generator infrastructure (C3, C4, C8) -/

theorem mkTemp_injective {m n : Nat} (h : mkTemp m = mkTemp n) : m = n :=
  mkPrefixed_injective "t" h

theorem mkLabel_injective {m n : Nat} (h : mkLabel m = mkLabel n) : m = n :=
  mkPrefixed_injective "L" h

theorem listModify_length (l : List α) (n : Nat) (g : α → α) :
    (listModify l n g).length = l.length := by
  induction l generalizing n with
  | nil => rfl
  | cons a l ih =>
    cases n with
    | zero => rfl
    | succ n => simp [listModify, ih]

theorem listModify_getD_self (l : List α) (n : Nat) (g : α → α) (d : α)
    (h : n < l.length) : (listModify l n g).getD n d = g (l.getD n d) := by
  induction l generalizing n with
  | nil => simp at h
  | cons a l ih =>
    cases n with
    | zero => rfl
    | succ n =>
      simp only [listModify, List.getD_cons_succ]
      exact ih n (by simpa using h)

theorem listModify_getD_ne (l : List α) (n : Nat) (g : α → α) (d : α)
    (j : Nat) (h : j ≠ n) : (listModify l n g).getD j d = l.getD j d := by
  induction l generalizing n j with
  | nil => rfl
  | cons a l ih =>
    cases n with
    | zero =>
      cases j with
      | zero => omega
      | succ j => rfl
    | succ n =>
      cases j with
      | zero => rfl
      | succ j =>
        simp only [listModify, List.getD_cons_succ]
        exact ih n j (by omega)

theorem emit_cur (i : IRInstruction) (σ : GenState) : (emit i σ).cur = σ.cur := rfl

theorem emit_tempCounter (i : IRInstruction) (σ : GenState) :
    (emit i σ).tempCounter = σ.tempCounter := rfl

theorem emit_len (i : IRInstruction) (σ : GenState) :
    (emit i σ).functions.length = σ.functions.length :=
  listModify_length _ _ _

theorem curFn_emit (i : IRInstruction) (σ : GenState) (h : σ.cur < σ.functions.length) :
    curFn (emit i σ) = { curFn σ with instructions := (curFn σ).instructions ++ [i] } := by
  unfold curFn emit modifyCur
  exact listModify_getD_self _ _ _ _ h

theorem emit_getD_ne (i : IRInstruction) (σ : GenState) (j : Nat) (h : j ≠ σ.cur) :
    (emit i σ).functions.getD j dfltFn = σ.functions.getD j dfltFn :=
  listModify_getD_ne _ _ _ _ _ h

theorem generateLabelSt_cur (σ : GenState) : (generateLabelSt σ).2.cur = σ.cur := rfl

theorem generateLabelSt_tempCounter (σ : GenState) :
    (generateLabelSt σ).2.tempCounter = σ.tempCounter := rfl

theorem generateLabelSt_len (σ : GenState) :
    (generateLabelSt σ).2.functions.length = σ.functions.length :=
  listModify_length _ _ _

theorem generateLabelSt_fst (σ : GenState) :
    (generateLabelSt σ).1 = mkLabel (curFn σ).labelCounter := rfl

theorem curFn_generateLabelSt (σ : GenState) (h : σ.cur < σ.functions.length) :
    curFn (generateLabelSt σ).2 = { curFn σ with labelCounter := (curFn σ).labelCounter + 1 } := by
  unfold curFn generateLabelSt modifyCur
  exact listModify_getD_self _ _ _ _ h

theorem generateLabelSt_getD_ne (σ : GenState) (j : Nat) (h : j ≠ σ.cur) :
    (generateLabelSt σ).2.functions.getD j dfltFn = σ.functions.getD j dfltFn :=
  listModify_getD_ne _ _ _ _ _ h

theorem trackVar_functions (name : String) (σ : GenState) :
    (trackVar name σ).functions = σ.functions := rfl

theorem trackVar_cur (name : String) (σ : GenState) : (trackVar name σ).cur = σ.cur := rfl

theorem trackVar_tempCounter (name : String) (σ : GenState) :
    (trackVar name σ).tempCounter = σ.tempCounter := rfl

theorem labelsOf_append (B1 B2 : List IRInstruction) :
    labelsOf (B1 ++ B2) = labelsOf B1 ++ labelsOf B2 :=
  List.filterMap_append _ _ _

theorem jumpTargetsOf_append (B1 B2 : List IRInstruction) :
    jumpTargetsOf (B1 ++ B2) = jumpTargetsOf B1 ++ jumpTargetsOf B2 :=
  List.filterMap_append _ _ _

theorem tempDests_append (B1 B2 : List IRInstruction) :
    tempDests (B1 ++ B2) = tempDests B1 ++ tempDests B2 :=
  List.filterMap_append _ _ _

theorem labelsOf_cons (i : IRInstruction) (B : List IRInstruction) :
    labelsOf (i :: B) = labelsOf [i] ++ labelsOf B := by
  by_cases h : i.opcode = .LABEL <;> simp [labelsOf, List.filterMap_cons, h]

theorem jumpTargetsOf_cons (i : IRInstruction) (B : List IRInstruction) :
    jumpTargetsOf (i :: B) = jumpTargetsOf [i] ++ jumpTargetsOf B := by
  cases h : i.opcode <;> simp [jumpTargetsOf, List.filterMap_cons, h]

theorem tempDests_cons (i : IRInstruction) (B : List IRInstruction) :
    tempDests (i :: B) = tempDests [i] ++ tempDests B := by
  by_cases h : isTempCreating i.opcode <;> simp [tempDests, List.filterMap_cons, h]

theorem LBlock_nil (c : Nat) : LBlock c c [] := by
  refine ⟨le_refl c, ?_, [], ?_, ?_, ?_⟩ <;> simp [labelsOf, jumpTargetsOf]

theorem LBlock_mono {c c' c0 c1 : Nat} {B : List IRInstruction}
    (h : LBlock c c' B) (h0 : c0 ≤ c) (h1 : c' ≤ c1) : LBlock c0 c1 B := by
  obtain ⟨hle, hj, ns, hmap, hnd, hrange⟩ := h
  refine ⟨by omega, hj, ns, hmap, hnd, ?_⟩
  intro n hn
  have := hrange n hn
  omega

theorem LBlock_append {c c1 c2 : Nat} {B1 B2 : List IRInstruction}
    (h1 : LBlock c c1 B1) (h2 : LBlock c1 c2 B2) : LBlock c c2 (B1 ++ B2) := by
  obtain ⟨hle1, hj1, ns1, hmap1, hnd1, hr1⟩ := h1
  obtain ⟨hle2, hj2, ns2, hmap2, hnd2, hr2⟩ := h2
  refine ⟨by omega, ?_, ns1 ++ ns2, ?_, ?_, ?_⟩
  · rw [labelsOf_append, jumpTargetsOf_append]
    intro t ht
    rcases List.mem_append.1 ht with ht | ht
    · exact List.mem_append_left _ (hj1 t ht)
    · exact List.mem_append_right _ (hj2 t ht)
  · rw [labelsOf_append, hmap1, hmap2, List.map_append]
  · refine hnd1.append hnd2 ?_
    intro n hn1 hn2
    have := hr1 n hn1
    have := hr2 n hn2
    omega
  · intro n hn
    rcases List.mem_append.1 hn with hn | hn
    · have := hr1 n hn
      omega
    · have := hr2 n hn
      omega

/-- A block with no labels and no jumps is a valid block over any
non-decreasing interval. -/
theorem LBlock_silent {c c' : Nat} {B : List IRInstruction}
    (hl : labelsOf B = []) (hj : jumpTargetsOf B = []) (hcc : c ≤ c') :
    LBlock c c' B := by
  refine ⟨hcc, ?_, [], ?_, ?_, ?_⟩ <;> simp [hl, hj]

theorem TBlock_nil (c : Nat) : TBlock c c [] := by
  refine ⟨le_refl c, [], ?_, ?_, ?_⟩ <;> simp [tempDests]

theorem TBlock_mono {c c' c0 c1 : Nat} {B : List IRInstruction}
    (h : TBlock c c' B) (h0 : c0 ≤ c) (h1 : c' ≤ c1) : TBlock c0 c1 B := by
  obtain ⟨hle, ns, hmap, hnd, hrange⟩ := h
  refine ⟨by omega, ns, hmap, hnd, ?_⟩
  intro n hn
  have := hrange n hn
  omega

theorem TBlock_append {c c1 c2 : Nat} {B1 B2 : List IRInstruction}
    (h1 : TBlock c c1 B1) (h2 : TBlock c1 c2 B2) : TBlock c c2 (B1 ++ B2) := by
  obtain ⟨hle1, ns1, hmap1, hnd1, hr1⟩ := h1
  obtain ⟨hle2, ns2, hmap2, hnd2, hr2⟩ := h2
  refine ⟨by omega, ns1 ++ ns2, ?_, ?_, ?_⟩
  · rw [tempDests_append, hmap1, hmap2, List.map_append]
  · refine hnd1.append hnd2 ?_
    intro n hn1 hn2
    have := hr1 n hn1
    have := hr2 n hn2
    omega
  · intro n hn
    rcases List.mem_append.1 hn with hn | hn
    · have := hr1 n hn
      omega
    · have := hr2 n hn
      omega

/-- A single freshly issued temp-creating instruction. -/
theorem TBlock_single {c : Nat} {i : IRInstruction}
    (h : tempDests [i] = [mkTemp c]) : TBlock c (c + 1) [i] := by
  refine ⟨by omega, [c], by simp [h], by simp, ?_⟩
  intro n hn
  simp at hn
  omega

/-- A single instruction that creates no temp. -/
theorem TBlock_skip {c : Nat} {i : IRInstruction}
    (h : tempDests [i] = []) : TBlock c c [i] := by
  refine ⟨le_refl c, [], ?_, ?_, ?_⟩ <;> simp [h]

/-- What one `emit` of a silent (non-label, non-jump) instruction does to
the shape facts, bundled for reuse. -/
theorem emit_block (i : IRInstruction) (σ : GenState) (hcur : σ.cur < σ.functions.length) :
    (emit i σ).cur = σ.cur
    ∧ (emit i σ).functions.length = σ.functions.length
    ∧ (∀ j, j ≠ σ.cur → (emit i σ).functions.getD j dfltFn = σ.functions.getD j dfltFn)
    ∧ (curFn (emit i σ)).labelCounter = (curFn σ).labelCounter
    ∧ (curFn (emit i σ)).instructions = (curFn σ).instructions ++ [i] :=
  ⟨rfl, emit_len i σ, fun j h => emit_getD_ne i σ j h, by rw [curFn_emit i σ hcur],
   by rw [curFn_emit i σ hcur]⟩

theorem genExprPost_refl (σ : GenState) : GenExprPost σ σ := by
  refine ⟨rfl, rfl, fun j _ => rfl, le_refl _, [], rfl, by simp, rfl, rfl, TBlock_nil _⟩

theorem genExprPost_trans {σ σ₁ σ₂ : GenState}
    (h1 : GenExprPost σ σ₁) (h2 : GenExprPost σ₁ σ₂) : GenExprPost σ σ₂ := by
  obtain ⟨hc1, hl1, ho1, ht1, B1, hlc1, hi1, hnl1, hnj1, htb1⟩ := h1
  obtain ⟨hc2, hl2, ho2, ht2, B2, hlc2, hi2, hnl2, hnj2, htb2⟩ := h2
  refine ⟨hc2.trans hc1, hl2.trans hl1, ?_, ht1.trans ht2, B1 ++ B2, ?_, ?_, ?_, ?_, ?_⟩
  · intro j hj
    rw [ho2 j (by rw [hc1]; exact hj), ho1 j hj]
  · rw [hlc2, hlc1]
  · rw [hi2, hi1, List.append_assoc]
  · rw [labelsOf_append, hnl1, hnl2]
    rfl
  · rw [jumpTargetsOf_append, hnj1, hnj2]
    rfl
  · exact TBlock_append htb1 htb2

/-- Stepping the state by `generateTemp` then `emit` of the instruction
that consumes the fresh temp as its destination. -/
theorem genExprPost_tempEmit (σ : GenState) (hcur : σ.cur < σ.functions.length)
    (i : IRInstruction) (hd : tempDests [i] = [mkTemp σ.tempCounter])
    (hl : labelsOf [i] = []) (hj : jumpTargetsOf [i] = []) :
    GenExprPost σ (emit i { σ with tempCounter := σ.tempCounter + 1 }) := by
  have hcur' : ({ σ with tempCounter := σ.tempCounter + 1 } : GenState).cur
      < ({ σ with tempCounter := σ.tempCounter + 1 } : GenState).functions.length := hcur
  refine ⟨rfl, emit_len _ _, fun j h => emit_getD_ne _ _ j h, Nat.le_succ _, [i], ?_, ?_, hl, hj, ?_⟩
  · rw [curFn_emit _ _ hcur']
    try rfl
  · rw [curFn_emit _ _ hcur']
    try rfl
  · exact TBlock_mono (TBlock_single hd) (le_refl _) (le_refl _)

/-- Stepping the state by an `emit` that issues no temp. -/
theorem genExprPost_silentEmit (σ : GenState) (hcur : σ.cur < σ.functions.length)
    (i : IRInstruction) (hd : tempDests [i] = [])
    (hl : labelsOf [i] = []) (hj : jumpTargetsOf [i] = []) :
    GenExprPost σ (emit i σ) := by
  refine ⟨rfl, emit_len _ _, fun j h => emit_getD_ne _ _ j h, le_refl _, [i], ?_, ?_, hl, hj, TBlock_skip hd⟩
  · rw [curFn_emit _ _ hcur]
    try rfl
  · rw [curFn_emit _ _ hcur]
    try rfl

/-- Stepping by `generateTemp` whose result is discarded. -/
theorem genExprPost_skipTemp (σ : GenState) :
    GenExprPost σ { σ with tempCounter := σ.tempCounter + 1 } := by
  refine ⟨rfl, rfl, fun j _ => rfl, Nat.le_succ _, [], rfl, by simp [curFn], rfl, rfl, ?_⟩
  exact TBlock_mono (TBlock_nil _) (le_refl _) (Nat.le_succ _)

theorem genExprPost_cur_len {σ σ' : GenState} (h : GenExprPost σ σ')
    (hcur : σ.cur < σ.functions.length) : σ'.cur < σ'.functions.length := by
  rw [h.1, h.2.1]
  exact hcur

mutual

/-- `IRGenerator::visit` on an expression only appends instructions to the
current function: the current index, the function count, the other
functions and the current function's label counter are untouched; the
appended block defines no labels, contains no jumps, and its freshly issued
destinations are distinct temporaries of the counter interval. -/
theorem genExpr_spec (e : Expr) (σ : GenState) (hcur : σ.cur < σ.functions.length) :
    GenExprPost σ (genExpr e σ).2 := by
  cases e with
  | literal v =>
    simp only [genExpr, generateTemp]
    exact genExprPost_tempEmit σ hcur _ (by simp [tempDests, List.filterMap, isTempCreating, mkTemp])
      (by simp [labelsOf, List.filterMap]) (by simp [jumpTargetsOf, List.filterMap])
  | var name =>
    simp only [genExpr, generateTemp]
    exact genExprPost_tempEmit σ hcur _ (by simp [tempDests, List.filterMap, isTempCreating, mkTemp])
      (by simp [labelsOf, List.filterMap]) (by simp [jumpTargetsOf, List.filterMap])
  | binary l op r =>
    rcases hl : genExpr l σ with ⟨lv, σ₁⟩
    have Hl := genExpr_spec l σ hcur
    rw [hl] at Hl
    have hcur1 : σ₁.cur < σ₁.functions.length := genExprPost_cur_len Hl hcur
    rcases hr : genExpr r σ₁ with ⟨rv, σ₂⟩
    have Hr := genExpr_spec r σ₁ hcur1
    rw [hr] at Hr
    have hcur2 : σ₂.cur < σ₂.functions.length := genExprPost_cur_len Hr hcur1
    have Hlr := genExprPost_trans Hl Hr
    rw [genExpr.eq_def]
    cases op
    case ASSIGN =>
      cases l
      case var name =>
        simp only [hl, hr, generateTemp]
        exact genExprPost_trans Hlr (genExprPost_trans (genExprPost_skipTemp σ₂)
          (genExprPost_silentEmit { σ₂ with tempCounter := σ₂.tempCounter + 1 } hcur2
            (IRInstruction.mk .STORE_VAR [name, rv])
            (by simp [tempDests, List.filterMap, isTempCreating])
            (by simp [labelsOf, List.filterMap]) (by simp [jumpTargetsOf, List.filterMap])))
      case arrayAccess arr idx =>
        rcases harr : genExpr arr { σ₂ with tempCounter := σ₂.tempCounter + 1 } with ⟨av, σ₄⟩
        have Harr := genExpr_spec arr { σ₂ with tempCounter := σ₂.tempCounter + 1 } hcur2
        rw [harr] at Harr
        have hcur4 : σ₄.cur < σ₄.functions.length := genExprPost_cur_len Harr hcur2
        rcases hidx : genExpr idx σ₄ with ⟨iv, σ₅⟩
        have Hidx := genExpr_spec idx σ₄ hcur4
        rw [hidx] at Hidx
        have hcur5 : σ₅.cur < σ₅.functions.length := genExprPost_cur_len Hidx hcur4
        simp only [hl, hr, generateTemp, harr, hidx]
        exact genExprPost_trans Hlr (genExprPost_trans (genExprPost_skipTemp σ₂)
          (genExprPost_trans Harr (genExprPost_trans Hidx
            (genExprPost_silentEmit σ₅ hcur5
              (IRInstruction.mk .ARRAY_SET [av, iv, rv])
              (by simp [tempDests, List.filterMap, isTempCreating])
              (by simp [labelsOf, List.filterMap]) (by simp [jumpTargetsOf, List.filterMap])))))
      all_goals
        simp only [hl, hr, generateTemp]
        exact genExprPost_trans Hlr (genExprPost_tempEmit σ₂ hcur2 _
          (by simp [tempDests, List.filterMap, isTempCreating, mkTemp])
          (by simp [labelsOf, List.filterMap]) (by simp [jumpTargetsOf, List.filterMap]))
    all_goals
      simp only [hl, hr, generateTemp]
      exact genExprPost_trans Hlr (genExprPost_tempEmit σ₂ hcur2 _
        (by simp [tempDests, List.filterMap, isTempCreating, mkTemp])
        (by simp [labelsOf, List.filterMap]) (by simp [jumpTargetsOf, List.filterMap]))
  | unary op e1 =>
    rcases he : genExpr e1 σ with ⟨v, σ₁⟩
    have He := genExpr_spec e1 σ hcur
    rw [he] at He
    have hcur1 : σ₁.cur < σ₁.functions.length := genExprPost_cur_len He hcur
    simp only [genExpr, he, generateTemp]
    exact genExprPost_trans He (genExprPost_tempEmit σ₁ hcur1 _
      (by simp [tempDests, List.filterMap, isTempCreating, mkTemp])
      (by simp [labelsOf, List.filterMap]) (by simp [jumpTargetsOf, List.filterMap]))
  | call callee args =>
    rcases hargs : genExprList args σ with ⟨vs, σ₁⟩
    have Hargs := genExprList_spec args σ hcur
    rw [hargs] at Hargs
    have hcur1 : σ₁.cur < σ₁.functions.length := genExprPost_cur_len Hargs hcur
    simp only [genExpr, hargs, generateTemp]
    by_cases hb : (callee = "int" ∨ callee = "float" ∨ callee = "str" ∨ callee = "bool")
        ∧ vs.length = 1
    · rw [if_pos hb]
      exact genExprPost_trans Hargs (genExprPost_tempEmit σ₁ hcur1 _
        (by simp [tempDests, List.filterMap, isTempCreating, mkTemp])
        (by simp [labelsOf, List.filterMap]) (by simp [jumpTargetsOf, List.filterMap]))
    · rw [if_neg hb]
      exact genExprPost_trans Hargs (genExprPost_tempEmit σ₁ hcur1 _
        (by simp [tempDests, List.filterMap, isTempCreating, mkTemp])
        (by simp [labelsOf, List.filterMap]) (by simp [jumpTargetsOf, List.filterMap]))
  | arrayLit elements =>
    rcases hels : genExprList elements σ with ⟨vs, σ₁⟩
    have Hels := genExprList_spec elements σ hcur
    rw [hels] at Hels
    have hcur1 : σ₁.cur < σ₁.functions.length := genExprPost_cur_len Hels hcur
    simp only [genExpr, hels, generateTemp]
    exact genExprPost_trans Hels (genExprPost_tempEmit σ₁ hcur1 _
      (by simp [tempDests, List.filterMap, isTempCreating, mkTemp])
      (by simp [labelsOf, List.filterMap]) (by simp [jumpTargetsOf, List.filterMap]))
  | arrayAccess arr idx =>
    rcases ha : genExpr arr σ with ⟨av, σ₁⟩
    have Ha := genExpr_spec arr σ hcur
    rw [ha] at Ha
    have hcur1 : σ₁.cur < σ₁.functions.length := genExprPost_cur_len Ha hcur
    rcases hi : genExpr idx σ₁ with ⟨iv, σ₂⟩
    have Hi := genExpr_spec idx σ₁ hcur1
    rw [hi] at Hi
    have hcur2 : σ₂.cur < σ₂.functions.length := genExprPost_cur_len Hi hcur1
    simp only [genExpr, ha, hi, generateTemp]
    exact genExprPost_trans (genExprPost_trans Ha Hi) (genExprPost_tempEmit σ₂ hcur2 _
      (by simp [tempDests, List.filterMap, isTempCreating, mkTemp])
      (by simp [labelsOf, List.filterMap]) (by simp [jumpTargetsOf, List.filterMap]))
  | memberAccess obj member =>
    rcases ho : genExpr obj σ with ⟨ov, σ₁⟩
    have Ho := genExpr_spec obj σ hcur
    rw [ho] at Ho
    have hcur1 : σ₁.cur < σ₁.functions.length := genExprPost_cur_len Ho hcur
    simp only [genExpr, ho, generateTemp]
    exact genExprPost_trans Ho (genExprPost_tempEmit σ₁ hcur1 _
      (by simp [tempDests, List.filterMap, isTempCreating, mkTemp])
      (by simp [labelsOf, List.filterMap]) (by simp [jumpTargetsOf, List.filterMap]))

/-- `genExpr_spec` for the argument/element loops. -/
theorem genExprList_spec (es : List Expr) (σ : GenState) (hcur : σ.cur < σ.functions.length) :
    GenExprPost σ (genExprList es σ).2 := by
  cases es with
  | nil =>
    simp only [genExprList]
    exact genExprPost_refl σ
  | cons e rest =>
    rcases he : genExpr e σ with ⟨v, σ₁⟩
    have He := genExpr_spec e σ hcur
    rw [he] at He
    have hcur1 : σ₁.cur < σ₁.functions.length := genExprPost_cur_len He hcur
    rcases hrest : genExprList rest σ₁ with ⟨vs, σ₂⟩
    have Hrest := genExprList_spec rest σ₁ hcur1
    rw [hrest] at Hrest
    simp only [genExprList, he, hrest]
    exact genExprPost_trans He Hrest

end

theorem labelsOf_single (op : IROpCode) (args : List String) :
    labelsOf [IRInstruction.mk op args]
      = if op = .LABEL then [args.headD ""] else [] := by
  cases op <;> simp [labelsOf, List.filterMap]

theorem jumpTargetsOf_single (op : IROpCode) (args : List String) :
    jumpTargetsOf [IRInstruction.mk op args]
      = if op = .JUMP then [args.headD ""]
        else if op = .JUMP_IF_FALSE then [args.getD 1 ""]
        else if op = .JUMP_IF_TRUE then [args.getD 1 ""] else [] := by
  cases op <;> simp [jumpTargetsOf, List.filterMap]

theorem tempDests_single (op : IROpCode) (args : List String) :
    tempDests [IRInstruction.mk op args]
      = if isTempCreating op then [args.headD ""] else [] := by
  cases op <;> simp [tempDests, List.filterMap, isTempCreating]

theorem seg_refl (σ : GenState) : Seg σ σ [] := by
  refine ⟨rfl, le_refl _, fun j _ _ => rfl, by simp, ?_⟩
  intro j h1 h2
  omega

theorem seg_trans {σ σ₁ σ₂ : GenState} {B1 B2 : List IRInstruction}
    (hcur : σ.cur < σ.functions.length)
    (h1 : Seg σ σ₁ B1) (h2 : Seg σ₁ σ₂ B2) : Seg σ σ₂ (B1 ++ B2) := by
  obtain ⟨hc1, hl1, ho1, hi1, hw1⟩ := h1
  obtain ⟨hc2, hl2, ho2, hi2, hw2⟩ := h2
  refine ⟨hc2.trans hc1, hl1.trans hl2, ?_, ?_, ?_⟩
  · intro j hj hne
    rw [ho2 j (lt_of_lt_of_le hj hl1) (by rw [hc1]; exact hne), ho1 j hj hne]
  · rw [hi2, hi1, List.append_assoc]
  · intro j hj1 hj2
    by_cases hj : j < σ₁.functions.length
    · have hne : j ≠ σ₁.cur := by rw [hc1]; omega
      rw [ho2 j hj hne]
      exact hw1 j hj1 hj
    · exact hw2 j (by omega) hj2

theorem seg_cur_len {σ σ' : GenState} {B : List IRInstruction} (h : Seg σ σ' B)
    (hcur : σ.cur < σ.functions.length) : σ'.cur < σ'.functions.length := by
  rw [h.1]
  exact lt_of_lt_of_le hcur h.2.1

theorem seg_emit (i : IRInstruction) (σ : GenState) (hcur : σ.cur < σ.functions.length) :
    Seg σ (emit i σ) [i] := by
  refine ⟨rfl, le_of_eq (emit_len i σ).symm, fun j _ h => emit_getD_ne i σ j h, ?_, ?_⟩
  · rw [curFn_emit i σ hcur]
  · intro j h1 h2
    rw [emit_len] at h2
    omega

theorem seg_genLabel (σ : GenState) (hcur : σ.cur < σ.functions.length) :
    Seg σ (generateLabelSt σ).2 [] := by
  refine ⟨rfl, le_of_eq (generateLabelSt_len σ).symm,
    fun j _ h => generateLabelSt_getD_ne σ j h, ?_, ?_⟩
  · rw [curFn_generateLabelSt σ hcur]
    simp
  · intro j h1 h2
    rw [generateLabelSt_len] at h2
    omega

theorem seg_skipTemp (σ : GenState) :
    Seg σ { σ with tempCounter := σ.tempCounter + 1 } [] := by
  refine ⟨rfl, le_refl _, fun j _ _ => rfl, by simp [curFn], ?_⟩
  intro j h1 h2
  simp at h2
  omega

theorem seg_trackVar (name : String) (σ : GenState) : Seg σ (trackVar name σ) [] := by
  refine ⟨rfl, le_refl _, fun j _ _ => rfl, by simp [curFn, trackVar], ?_⟩
  intro j h1 h2
  rw [trackVar_functions] at h2
  omega

theorem seg_of_exprPost {σ σ' : GenState} (h : GenExprPost σ σ') :
    ∃ B, Seg σ σ' B ∧ labelsOf B = [] ∧ jumpTargetsOf B = []
      ∧ (curFn σ').labelCounter = (curFn σ).labelCounter
      ∧ TBlock σ.tempCounter σ'.tempCounter B := by
  obtain ⟨hc, hl, ho, ht, B, hlc, hi, hnl, hnj, htb⟩ := h
  refine ⟨B, ⟨hc, le_of_eq hl.symm, fun j hj hne => ho j hne, hi, ?_⟩, hnl, hnj, hlc, htb⟩
  intro j h1 h2
  rw [hl] at h2
  omega

theorem genTempPost_refl (σ : GenState) : GenTempPost σ σ :=
  ⟨le_refl _, [], by simp, TBlock_nil _⟩

theorem genTempPost_trans {σ σ₁ σ₂ : GenState}
    (h1 : GenTempPost σ σ₁) (h2 : GenTempPost σ₁ σ₂) : GenTempPost σ σ₂ := by
  obtain ⟨hle1, B1, hi1, ht1⟩ := h1
  obtain ⟨hle2, B2, hi2, ht2⟩ := h2
  exact ⟨hle1.trans hle2, B1 ++ B2, by rw [hi2, hi1, List.append_assoc],
    TBlock_append ht1 ht2⟩

theorem genTempPost_of_exprPost {σ σ' : GenState} (h : GenExprPost σ σ') :
    GenTempPost σ σ' := by
  obtain ⟨hc, hl, ho, ht, B, hlc, hi, hnl, hnj, htb⟩ := h
  exact ⟨ht, B, hi, htb⟩

theorem genTempPost_emit_skip (i : IRInstruction) (σ : GenState)
    (hcur : σ.cur < σ.functions.length) (hd : tempDests [i] = []) :
    GenTempPost σ (emit i σ) :=
  ⟨le_refl _, [i], by rw [curFn_emit i σ hcur], TBlock_skip hd⟩

theorem genTempPost_trackVar (name : String) (σ : GenState) :
    GenTempPost σ (trackVar name σ) :=
  ⟨le_refl _, [], by simp [curFn, trackVar], TBlock_nil _⟩

theorem genStmtPost_refl (σ : GenState) : GenStmtPost σ σ :=
  ⟨[], seg_refl σ, LBlock_nil _⟩

theorem genStmtPost_trans {σ σ₁ σ₂ : GenState} (hcur : σ.cur < σ.functions.length)
    (h1 : GenStmtPost σ σ₁) (h2 : GenStmtPost σ₁ σ₂) : GenStmtPost σ σ₂ := by
  obtain ⟨B1, hs1, hb1⟩ := h1
  obtain ⟨B2, hs2, hb2⟩ := h2
  exact ⟨B1 ++ B2, seg_trans hcur hs1 hs2, LBlock_append hb1 hb2⟩

theorem genStmtPost_silent {σ σ' : GenState} {B : List IRInstruction}
    (hseg : Seg σ σ' B) (hlab : labelsOf B = []) (hjmp : jumpTargetsOf B = [])
    (hlc : (curFn σ').labelCounter = (curFn σ).labelCounter) :
    GenStmtPost σ σ' := by
  refine ⟨B, hseg, ?_⟩
  rw [hlc]
  exact LBlock_silent hlab hjmp (le_refl _)

theorem genStmtPost_cur_len {σ σ' : GenState} (h : GenStmtPost σ σ')
    (hcur : σ.cur < σ.functions.length) : σ'.cur < σ'.functions.length := by
  obtain ⟨B, hs, _⟩ := h
  exact seg_cur_len hs hcur

/-- Block assembly for `visitIfStatement`: a then-block over `[lc+2, cm)`,
the else label `lc`, an else-block over `[cm, c')` and the end label
`lc+1`, with jumps targeting only those two labels or resolving inside the
branch blocks. -/
theorem LBlock_if_shape {lc cm c' : Nat} {Bt Be B : List IRInstruction}
    (ht : LBlock (lc + 2) cm Bt) (he : LBlock cm c' Be)
    (hlab : labelsOf B = labelsOf Bt ++ (mkLabel lc :: (labelsOf Be ++ [mkLabel (lc + 1)])))
    (hjmp : ∀ t ∈ jumpTargetsOf B,
        t = mkLabel lc ∨ t = mkLabel (lc + 1)
          ∨ t ∈ jumpTargetsOf Bt ∨ t ∈ jumpTargetsOf Be) :
    LBlock lc c' B := by
  obtain ⟨hm1, hj1, ns1, hmap1, hnd1, hr1⟩ := ht
  obtain ⟨hm2, hj2, ns2, hmap2, hnd2, hr2⟩ := he
  refine ⟨by omega, ?_, ns1 ++ (lc :: (ns2 ++ [lc + 1])), ?_, ?_, ?_⟩
  · intro t ht
    rw [hlab]
    rcases hjmp t ht with h | h | h | h
    · subst h
      exact List.mem_append_right _ (List.mem_cons_self _ _)
    · subst h
      simp
    · exact List.mem_append_left _ (hj1 t h)
    · refine List.mem_append_right _ (List.mem_cons_of_mem _ ?_)
      exact List.mem_append_left _ (hj2 t h)
  · rw [hlab, hmap1, hmap2]
    simp
  · refine hnd1.append ?_ ?_
    · refine List.nodup_cons.2 ⟨?_, hnd2.append (List.nodup_singleton _) ?_⟩
      · intro hmem
        rcases List.mem_append.1 hmem with h | h
        · have := hr2 _ h
          omega
        · simp at h
      · intro a ha hb
        simp at hb
        have := hr2 a ha
        omega
    · intro a ha hb
      have := hr1 a ha
      rcases List.mem_cons.1 hb with h | h
      · omega
      · rcases List.mem_append.1 h with h | h
        · have := hr2 a h
          omega
        · simp at h
          omega
  · intro n hn
    rcases List.mem_append.1 hn with h | h
    · have := hr1 n h
      omega
    · rcases List.mem_cons.1 h with h | h
      · omega
      · rcases List.mem_append.1 h with h | h
        · have := hr2 n h
          omega
        · simp at h
          omega

/-- Block assembly for the loop visitors: a loop label `lc`, a body block
over `[lc+2, c')` and an end label `lc+1`, with jumps targeting only those
two labels or resolving inside the body. -/
theorem LBlock_loop_shape {lc c' : Nat} {Bb B : List IRInstruction}
    (hb : LBlock (lc + 2) c' Bb)
    (hlab : labelsOf B = mkLabel lc :: (labelsOf Bb ++ [mkLabel (lc + 1)]))
    (hjmp : ∀ t ∈ jumpTargetsOf B,
        t = mkLabel lc ∨ t = mkLabel (lc + 1) ∨ t ∈ jumpTargetsOf Bb) :
    LBlock lc c' B := by
  obtain ⟨hm, hj, ns, hmap, hnd, hr⟩ := hb
  refine ⟨by omega, ?_, lc :: (ns ++ [lc + 1]), ?_, ?_, ?_⟩
  · intro t ht
    rw [hlab]
    rcases hjmp t ht with h | h | h
    · subst h
      exact List.mem_cons_self _ _
    · subst h
      simp
    · exact List.mem_cons_of_mem _ (List.mem_append_left _ (hj t h))
  · rw [hlab, hmap]
    simp
  · refine List.nodup_cons.2 ⟨?_, hnd.append (List.nodup_singleton _) ?_⟩
    · intro hmem
      rcases List.mem_append.1 hmem with h | h
      · have := hr _ h
        omega
      · simp at h
    · intro a ha hb2
      simp at hb2
      have := hr a ha
      omega
  · intro n hn
    rcases List.mem_cons.1 hn with h | h
    · omega
    · rcases List.mem_append.1 h with h | h
      · have := hr n h
        omega
      · simp at h
        omega

theorem mkLabel_inj : Function.Injective mkLabel :=
  fun _ _ h => mkLabel_injective h

theorem mkTemp_inj : Function.Injective mkTemp :=
  fun _ _ h => mkTemp_injective h

/-- A well-formed function's label names are pairwise distinct and its
jumps resolve. -/
theorem wffn_conclusion {f : IRFunction} (h : WFFn f) :
    (labelsOf f.instructions).Nodup
    ∧ ∀ t ∈ jumpTargetsOf f.instructions, t ∈ labelsOf f.instructions := by
  obtain ⟨⟨ns, hm, hnd⟩, hj⟩ := h
  exact ⟨hm ▸ hnd.map mkLabel_inj, hj⟩

theorem getD_append_lt (l : List α) (x d : α) (j : Nat) (h : j < l.length) :
    (l ++ [x]).getD j d = l.getD j d := by
  induction l generalizing j with
  | nil => simp at h
  | cons a l ih =>
    cases j with
    | zero => rfl
    | succ j =>
      simp only [List.cons_append, List.getD_cons_succ]
      exact ih j (by simpa using h)

theorem getD_append_len (l : List α) (x d : α) :
    (l ++ [x]).getD l.length d = x := by
  induction l with
  | nil => rfl
  | cons a l ih =>
    simp only [List.cons_append, List.length_cons, List.getD_cons_succ]
    exact ih

theorem headD_eq_getD (l : List α) (d : α) : l.headD d = l.getD 0 d := by
  cases l <;> rfl

theorem mem_getD_of_mem {l : List α} {a : α} (d : α) (h : a ∈ l) :
    ∃ j, j < l.length ∧ l.getD j d = a := by
  induction l with
  | nil => simp at h
  | cons b l ih =>
    rcases List.mem_cons.1 h with h | h
    · exact ⟨0, by simp, h.symm⟩
    · obtain ⟨j, hj, hv⟩ := ih h
      exact ⟨j + 1, by simpa using hj, hv⟩

theorem enterFunction_functions (name : String) (ps : List String) (σ : GenState) :
    (enterFunction name ps σ).functions
      = σ.functions ++ [IRFunction.mk name ps [] 0] := rfl

theorem enterFunction_cur (name : String) (ps : List String) (σ : GenState) :
    (enterFunction name ps σ).cur = σ.functions.length := rfl

theorem curFn_enterFunction (name : String) (ps : List String) (σ : GenState) :
    curFn (enterFunction name ps σ) = IRFunction.mk name ps [] 0 := by
  unfold curFn
  rw [enterFunction_functions, enterFunction_cur]
  exact getD_append_len _ _ _

theorem trackVarFold_functions (ps : List String) (σ : GenState) :
    (ps.foldl (fun σ param => trackVar param σ) σ).functions = σ.functions
    ∧ (ps.foldl (fun σ param => trackVar param σ) σ).cur = σ.cur := by
  induction ps generalizing σ with
  | nil => exact ⟨rfl, rfl⟩
  | cons p ps ih =>
    simp only [List.foldl]
    exact ih (trackVar p σ)

theorem labelsOf_nil : labelsOf [] = [] := rfl

theorem jumpTargetsOf_nil : jumpTargetsOf [] = [] := rfl

theorem tempDests_nil : tempDests [] = [] := rfl

theorem labelsOf_cons_mk (op : IROpCode) (args : List String) (B : List IRInstruction) :
    labelsOf (IRInstruction.mk op args :: B)
      = (if op = .LABEL then [args.headD ""] else []) ++ labelsOf B := by
  rw [labelsOf_cons, labelsOf_single]

theorem jumpTargetsOf_cons_mk (op : IROpCode) (args : List String) (B : List IRInstruction) :
    jumpTargetsOf (IRInstruction.mk op args :: B)
      = (if op = .JUMP then [args.headD ""]
          else if op = .JUMP_IF_FALSE then [args.getD 1 ""]
          else if op = .JUMP_IF_TRUE then [args.getD 1 ""] else [])
        ++ jumpTargetsOf B := by
  rw [jumpTargetsOf_cons, jumpTargetsOf_single]

theorem tempDests_cons_mk (op : IROpCode) (args : List String) (B : List IRInstruction) :
    tempDests (IRInstruction.mk op args :: B)
      = (if isTempCreating op then [args.headD ""] else []) ++ tempDests B := by
  rw [tempDests_cons, tempDests_single]

theorem curFn_eq_getD (σ : GenState) : curFn σ = σ.functions.getD σ.cur dfltFn := rfl

set_option maxHeartbeats 2000000 in
mutual

/-- `IRGenerator::visit` on a statement restores the current-function
index, preserves pre-existing other functions, appends a self-contained
label block to the current function, and leaves every newly created
function well-formed; when the statement contains no function
declaration, the appended block is also a temp block. -/
theorem genStmt_spec (s : Stmt) (σ : GenState) (hcur : σ.cur < σ.functions.length) :
    GenStmtPost σ (genStmt s σ)
    ∧ (hasFuncDecl s = false → GenTempPost σ (genStmt s σ)) := by
  cases s with
  | exprStmt e =>
    rcases hc : genExpr e σ with ⟨v, σ1⟩
    have He := genExpr_spec e σ hcur
    simp only [hc] at He
    obtain ⟨Bc, s01, hlabC, hjmpC, hlcC, htbC⟩ := seg_of_exprPost He
    constructor
    · simp only [genStmt, hc]
      exact genStmtPost_silent s01 hlabC hjmpC hlcC
    · intro hnf
      simp only [genStmt, hc]
      exact genTempPost_of_exprPost He
  | varDecl name init =>
    cases init with
    | none =>
      constructor
      · simp only [genStmt]
        exact genStmtPost_silent (seg_trackVar name σ) rfl rfl (by simp [curFn, trackVar])
      · intro hnf
        simp only [genStmt]
        exact genTempPost_trackVar name σ
    | some e =>
      rcases hc : genExpr e σ with ⟨v, σ1⟩
      have He := genExpr_spec e σ hcur
      simp only [hc] at He
      obtain ⟨Bc, s01, hlabC, hjmpC, hlcC, htbC⟩ := seg_of_exprPost He
      have hcur1 : σ1.cur < σ1.functions.length := seg_cur_len s01 hcur
      obtain ⟨σ2, hσ2⟩ : ∃ x, emit (IRInstruction.mk .STORE_VAR [name, v]) σ1 = x := ⟨_, rfl⟩
      have s12 : Seg σ1 σ2 [IRInstruction.mk .STORE_VAR [name, v]] := by
        have h := seg_emit (IRInstruction.mk .STORE_VAR [name, v]) σ1 hcur1
        rwa [hσ2] at h
      have hcur2 := seg_cur_len s12 hcur1
      have lc2 : (curFn σ2).labelCounter = (curFn σ).labelCounter := by
        rw [← hσ2, curFn_emit _ _ hcur1]
        exact hlcC
      have hgoal : genStmt (.varDecl name (some e)) σ = trackVar name σ2 := by
        simp only [genStmt, hc, hσ2]
      rw [hgoal]
      constructor
      · refine genStmtPost_silent
          (seg_trans hcur s01 (seg_trans hcur1 s12 (seg_trackVar name σ2))) ?_ ?_ ?_
        · simp [labelsOf_append, labelsOf_single, hlabC]
        · simp [jumpTargetsOf_append, jumpTargetsOf_single, hjmpC]
        · rw [show curFn (trackVar name σ2) = curFn σ2 from by simp [curFn, trackVar]]
          exact lc2
      · intro hnf
        exact genTempPost_trans (genTempPost_of_exprPost He)
          (genTempPost_trans
            (by rw [← hσ2]
                exact genTempPost_emit_skip _ σ1 hcur1
                  (by simp [tempDests_single, isTempCreating]))
            (genTempPost_trackVar name σ2))
  | ret value =>
    cases value with
    | none =>
      constructor
      · simp only [genStmt]
        refine genStmtPost_silent (seg_emit (IRInstruction.mk .RETURN []) σ hcur) ?_ ?_ ?_
        · simp [labelsOf_single]
        · simp [jumpTargetsOf_single]
        · rw [curFn_emit _ _ hcur]
      · intro hnf
        simp only [genStmt]
        exact genTempPost_emit_skip _ σ hcur (by simp [tempDests_single, isTempCreating])
    | some e =>
      rcases hc : genExpr e σ with ⟨v, σ1⟩
      have He := genExpr_spec e σ hcur
      simp only [hc] at He
      obtain ⟨Bc, s01, hlabC, hjmpC, hlcC, htbC⟩ := seg_of_exprPost He
      have hcur1 : σ1.cur < σ1.functions.length := seg_cur_len s01 hcur
      have hgoal : genStmt (.ret (some e)) σ = emit (IRInstruction.mk .RETURN [v]) σ1 := by
        simp only [genStmt, hc]
      rw [hgoal]
      constructor
      · refine genStmtPost_silent
          (seg_trans hcur s01 (seg_emit (IRInstruction.mk .RETURN [v]) σ1 hcur1)) ?_ ?_ ?_
        · simp [labelsOf_append, labelsOf_single, hlabC]
        · simp [jumpTargetsOf_append, jumpTargetsOf_single, hjmpC]
        · rw [curFn_emit _ _ hcur1]
          exact hlcC
      · intro hnf
        exact genTempPost_trans (genTempPost_of_exprPost He)
          (genTempPost_emit_skip _ σ1 hcur1 (by simp [tempDests_single, isTempCreating]))
  | printStmt e =>
    rcases hc : genExpr e σ with ⟨v, σ1⟩
    have He := genExpr_spec e σ hcur
    simp only [hc] at He
    obtain ⟨Bc, s01, hlabC, hjmpC, hlcC, htbC⟩ := seg_of_exprPost He
    have hcur1 : σ1.cur < σ1.functions.length := seg_cur_len s01 hcur
    have hgoal : genStmt (.printStmt e) σ = emit (IRInstruction.mk .PRINT [v]) σ1 := by
      simp only [genStmt, hc]
    rw [hgoal]
    constructor
    · refine genStmtPost_silent
        (seg_trans hcur s01 (seg_emit (IRInstruction.mk .PRINT [v]) σ1 hcur1)) ?_ ?_ ?_
      · simp [labelsOf_append, labelsOf_single, hlabC]
      · simp [jumpTargetsOf_append, jumpTargetsOf_single, hjmpC]
      · rw [curFn_emit _ _ hcur1]
        exact hlcC
    · intro hnf
      exact genTempPost_trans (genTempPost_of_exprPost He)
        (genTempPost_emit_skip _ σ1 hcur1 (by simp [tempDests_single, isTempCreating]))
  | inputStmt v =>
    obtain ⟨σ1, hσ1⟩ : ∃ x, emit (IRInstruction.mk .INPUT [v]) σ = x := ⟨_, rfl⟩
    have s01 : Seg σ σ1 [IRInstruction.mk .INPUT [v]] := by
      have h := seg_emit (IRInstruction.mk .INPUT [v]) σ hcur
      rwa [hσ1] at h
    have hcur1 := seg_cur_len s01 hcur
    have hgoal : genStmt (.inputStmt v) σ = trackVar v σ1 := by
      simp only [genStmt, hσ1]
    rw [hgoal]
    constructor
    · refine genStmtPost_silent (seg_trans hcur s01 (seg_trackVar v σ1)) ?_ ?_ ?_
      · simp [labelsOf_append, labelsOf_single]
      · simp [jumpTargetsOf_append, jumpTargetsOf_single]
      · rw [show curFn (trackVar v σ1) = curFn σ1 from by simp [curFn, trackVar], ← hσ1,
          curFn_emit _ _ hcur]
    · intro hnf
      refine genTempPost_trans ?_ (genTempPost_trackVar v σ1)
      rw [← hσ1]
      exact genTempPost_emit_skip _ σ hcur (by simp [tempDests_single, isTempCreating])
  | block stmts =>
    have H := genStmtList_spec stmts σ hcur
    constructor
    · simp only [genStmt]
      exact H.1
    · intro hnf
      simp only [hasFuncDecl] at hnf
      simp only [genStmt]
      exact H.2 hnf
  | whileStmt cond body =>
    rcases hL1 : generateLabelSt σ with ⟨l1, σ1⟩
    have s01 : Seg σ σ1 [] := by
      have h := seg_genLabel σ hcur
      simp only [hL1] at h
      exact h
    have hcur1 := seg_cur_len s01 hcur
    have hl1 : l1 = mkLabel (curFn σ).labelCounter := by
      have h := generateLabelSt_fst σ
      simp only [hL1] at h
      exact h
    have lc1 : (curFn σ1).labelCounter = (curFn σ).labelCounter + 1 := by
      have h := curFn_generateLabelSt σ hcur
      simp only [hL1] at h
      rw [h]
    have tc1 : σ1.tempCounter = σ.tempCounter := by
      have h := generateLabelSt_tempCounter σ
      simp only [hL1] at h
      exact h
    rcases hL2 : generateLabelSt σ1 with ⟨l2, σ2⟩
    have s12 : Seg σ1 σ2 [] := by
      have h := seg_genLabel σ1 hcur1
      simp only [hL2] at h
      exact h
    have hcur2 := seg_cur_len s12 hcur1
    have hl2 : l2 = mkLabel ((curFn σ).labelCounter + 1) := by
      have h := generateLabelSt_fst σ1
      simp only [hL2] at h
      rw [h, lc1]
    have lc2 : (curFn σ2).labelCounter = (curFn σ).labelCounter + 2 := by
      have h := curFn_generateLabelSt σ1 hcur1
      simp only [hL2] at h
      rw [h]
      show (curFn σ1).labelCounter + 1 = _
      rw [lc1]
    have tc2 : σ2.tempCounter = σ.tempCounter := by
      have h := generateLabelSt_tempCounter σ1
      simp only [hL2] at h
      rw [h, tc1]
    obtain ⟨σ3, hσ3⟩ : ∃ x, emit (IRInstruction.mk .LABEL [l1]) σ2 = x := ⟨_, rfl⟩
    have s23 : Seg σ2 σ3 [IRInstruction.mk .LABEL [l1]] := by
      have h := seg_emit (IRInstruction.mk .LABEL [l1]) σ2 hcur2
      rwa [hσ3] at h
    have hcur3 := seg_cur_len s23 hcur2
    have lc3 : (curFn σ3).labelCounter = (curFn σ).labelCounter + 2 := by
      rw [← hσ3, curFn_emit _ _ hcur2]
      exact lc2
    have tc3 : σ3.tempCounter = σ.tempCounter := by
      rw [← hσ3]
      exact tc2
    rcases hcv : genExpr cond σ3 with ⟨cv, σ4⟩
    have He := genExpr_spec cond σ3 hcur3
    simp only [hcv] at He
    obtain ⟨Bc, s34, hlabC, hjmpC, hlcC, htbC⟩ := seg_of_exprPost He
    have hcur4 := seg_cur_len s34 hcur3
    have lc4 : (curFn σ4).labelCounter = (curFn σ).labelCounter + 2 := by
      rw [hlcC, lc3]
    rw [tc3] at htbC
    obtain ⟨σ5, hσ5⟩ : ∃ x, emit (IRInstruction.mk .JUMP_IF_FALSE [cv, l2]) σ4 = x := ⟨_, rfl⟩
    have s45 : Seg σ4 σ5 [IRInstruction.mk .JUMP_IF_FALSE [cv, l2]] := by
      have h := seg_emit (IRInstruction.mk .JUMP_IF_FALSE [cv, l2]) σ4 hcur4
      rwa [hσ5] at h
    have hcur5 := seg_cur_len s45 hcur4
    have lc5 : (curFn σ5).labelCounter = (curFn σ).labelCounter + 2 := by
      rw [← hσ5, curFn_emit _ _ hcur4]
      exact lc4
    have tc5 : σ5.tempCounter = σ4.tempCounter := by
      rw [← hσ5]
      exact emit_tempCounter _ _
    obtain ⟨σ6, hσ6⟩ : ∃ x, genStmt body σ5 = x := ⟨_, rfl⟩
    have H6 := genStmt_spec body σ5 hcur5
    rw [hσ6] at H6
    obtain ⟨Bb, s56, lbB⟩ := H6.1
    have hcur6 := seg_cur_len s56 hcur5
    rw [lc5] at lbB
    obtain ⟨σ7, hσ7⟩ : ∃ x, emit (IRInstruction.mk .JUMP [l1]) σ6 = x := ⟨_, rfl⟩
    have s67 : Seg σ6 σ7 [IRInstruction.mk .JUMP [l1]] := by
      have h := seg_emit (IRInstruction.mk .JUMP [l1]) σ6 hcur6
      rwa [hσ7] at h
    have hcur7 := seg_cur_len s67 hcur6
    have lc7 : (curFn σ7).labelCounter = (curFn σ6).labelCounter := by
      rw [← hσ7, curFn_emit _ _ hcur6]
    have tc7 : σ7.tempCounter = σ6.tempCounter := by
      rw [← hσ7]
      exact emit_tempCounter _ _
    obtain ⟨σ8, hσ8⟩ : ∃ x, emit (IRInstruction.mk .LABEL [l2]) σ7 = x := ⟨_, rfl⟩
    have s78 : Seg σ7 σ8 [IRInstruction.mk .LABEL [l2]] := by
      have h := seg_emit (IRInstruction.mk .LABEL [l2]) σ7 hcur7
      rwa [hσ8] at h
    have lc8 : (curFn σ8).labelCounter = (curFn σ6).labelCounter := by
      rw [← hσ8, curFn_emit _ _ hcur7]
      exact lc7
    have tc8 : σ8.tempCounter = σ6.tempCounter := by
      rw [← hσ8]
      exact (emit_tempCounter _ _).trans tc7
    have S : Seg σ σ8
        ([] ++ ([] ++ ([IRInstruction.mk .LABEL [l1]]
          ++ (Bc ++ ([IRInstruction.mk .JUMP_IF_FALSE [cv, l2]]
            ++ (Bb ++ ([IRInstruction.mk .JUMP [l1]]
              ++ [IRInstruction.mk .LABEL [l2]]))))))) :=
      seg_trans hcur s01 (seg_trans hcur1 s12 (seg_trans hcur2 s23
        (seg_trans hcur3 s34 (seg_trans hcur4 s45 (seg_trans hcur5 s56
          (seg_trans hcur6 s67 s78))))))
    have hgoal : genStmt (.whileStmt cond body) σ = σ8 := by
      simp only [genStmt, hL1, hL2, hσ3, hcv, hσ5, hσ6, hσ7, hσ8]
    rw [hgoal]
    constructor
    · refine ⟨_, S, ?_⟩
      rw [lc8]
      refine LBlock_loop_shape lbB ?_ ?_
      · subst hl1 hl2
        simp [labelsOf_append, labelsOf_single, labelsOf_cons_mk, labelsOf_nil, hlabC]
      · intro t htm
        subst hl1 hl2
        simp [jumpTargetsOf_append, jumpTargetsOf_single, jumpTargetsOf_cons_mk, jumpTargetsOf_nil, hjmpC] at htm
        tauto
    · intro hnf
      simp only [hasFuncDecl] at hnf
      obtain ⟨le56, Bb', hiB', tbB'⟩ := H6.2 hnf
      have hBb : Bb' = Bb := List.append_cancel_left (hiB'.symm.trans s56.2.2.2.1)
      rw [hBb] at tbB'
      rw [tc5] at tbB'
      refine ⟨?_, _, S.2.2.2.1, ?_⟩
      · have h1 := htbC.1
        have h2 := tbB'.1
        omega
      · rw [tc8]
        exact TBlock_append (TBlock_nil _) (TBlock_append (TBlock_nil _)
          (TBlock_append (TBlock_skip (by simp [tempDests_single, isTempCreating]))
            (TBlock_append htbC
              (TBlock_append (TBlock_skip (by simp [tempDests_single, isTempCreating]))
                (TBlock_append tbB'
                  (TBlock_append (TBlock_skip (by simp [tempDests_single, isTempCreating]))
                    (TBlock_skip (by simp [tempDests_single, isTempCreating]))))))))
  | ifStmt cond thn els =>
    rcases hc : genExpr cond σ with ⟨cv, σ1⟩
    have He := genExpr_spec cond σ hcur
    simp only [hc] at He
    obtain ⟨Bc, s01, hlabC, hjmpC, hlcC, htbC⟩ := seg_of_exprPost He
    have hcur1 := seg_cur_len s01 hcur
    rcases hL1 : generateLabelSt σ1 with ⟨elseL, σ2⟩
    have s12 : Seg σ1 σ2 [] := by
      have h := seg_genLabel σ1 hcur1
      simp only [hL1] at h
      exact h
    have hcur2 := seg_cur_len s12 hcur1
    have hl1 : elseL = mkLabel (curFn σ).labelCounter := by
      have h := generateLabelSt_fst σ1
      simp only [hL1] at h
      rw [h, hlcC]
    have lc2 : (curFn σ2).labelCounter = (curFn σ).labelCounter + 1 := by
      have h := curFn_generateLabelSt σ1 hcur1
      simp only [hL1] at h
      rw [h]
      show (curFn σ1).labelCounter + 1 = _
      rw [hlcC]
    have tc2 : σ2.tempCounter = σ1.tempCounter := by
      have h := generateLabelSt_tempCounter σ1
      simp only [hL1] at h
      exact h
    rcases hL2 : generateLabelSt σ2 with ⟨endL, σ3⟩
    have s23 : Seg σ2 σ3 [] := by
      have h := seg_genLabel σ2 hcur2
      simp only [hL2] at h
      exact h
    have hcur3 := seg_cur_len s23 hcur2
    have hl2 : endL = mkLabel ((curFn σ).labelCounter + 1) := by
      have h := generateLabelSt_fst σ2
      simp only [hL2] at h
      rw [h, lc2]
    have lc3 : (curFn σ3).labelCounter = (curFn σ).labelCounter + 2 := by
      have h := curFn_generateLabelSt σ2 hcur2
      simp only [hL2] at h
      rw [h]
      show (curFn σ2).labelCounter + 1 = _
      rw [lc2]
    have tc3 : σ3.tempCounter = σ1.tempCounter := by
      have h := generateLabelSt_tempCounter σ2
      simp only [hL2] at h
      rw [h, tc2]
    have hL1a : "L" ++ Nat.repr (curFn σ1).labelCounter = elseL := by
      have h := congrArg Prod.fst hL1
      simpa [generateLabelSt] using h
    have hL1b : modifyCur σ1 (fun f => { f with labelCounter := f.labelCounter + 1 }) = σ2 := by
      have h := congrArg Prod.snd hL1
      simpa [generateLabelSt] using h
    have hL2a : "L" ++ Nat.repr (curFn σ2).labelCounter = endL := by
      have h := congrArg Prod.fst hL2
      simpa [generateLabelSt] using h
    have hL2b : modifyCur σ2 (fun f => { f with labelCounter := f.labelCounter + 1 }) = σ3 := by
      have h := congrArg Prod.snd hL2
      simpa [generateLabelSt] using h
    obtain ⟨σ4, hσ4⟩ : ∃ x, emit (IRInstruction.mk .JUMP_IF_FALSE [cv, elseL]) σ3 = x := ⟨_, rfl⟩
    have s34 : Seg σ3 σ4 [IRInstruction.mk .JUMP_IF_FALSE [cv, elseL]] := by
      have h := seg_emit (IRInstruction.mk .JUMP_IF_FALSE [cv, elseL]) σ3 hcur3
      rwa [hσ4] at h
    have hcur4 := seg_cur_len s34 hcur3
    have lc4 : (curFn σ4).labelCounter = (curFn σ).labelCounter + 2 := by
      rw [← hσ4, curFn_emit _ _ hcur3]
      exact lc3
    have tc4 : σ4.tempCounter = σ1.tempCounter := by
      rw [← hσ4]
      exact tc3
    obtain ⟨σ5, hσ5⟩ : ∃ x, genStmt thn σ4 = x := ⟨_, rfl⟩
    have H5 := genStmt_spec thn σ4 hcur4
    rw [hσ5] at H5
    obtain ⟨Bt, s45, lbT⟩ := H5.1
    have hcur5 := seg_cur_len s45 hcur4
    rw [lc4] at lbT
    obtain ⟨σ6, hσ6⟩ : ∃ x, emit (IRInstruction.mk .JUMP [endL]) σ5 = x := ⟨_, rfl⟩
    have s56 : Seg σ5 σ6 [IRInstruction.mk .JUMP [endL]] := by
      have h := seg_emit (IRInstruction.mk .JUMP [endL]) σ5 hcur5
      rwa [hσ6] at h
    have hcur6 := seg_cur_len s56 hcur5
    have lc6 : (curFn σ6).labelCounter = (curFn σ5).labelCounter := by
      rw [← hσ6, curFn_emit _ _ hcur5]
    have tc6 : σ6.tempCounter = σ5.tempCounter := by
      rw [← hσ6]
      exact emit_tempCounter _ _
    obtain ⟨σ7, hσ7⟩ : ∃ x, emit (IRInstruction.mk .LABEL [elseL]) σ6 = x := ⟨_, rfl⟩
    have s67 : Seg σ6 σ7 [IRInstruction.mk .LABEL [elseL]] := by
      have h := seg_emit (IRInstruction.mk .LABEL [elseL]) σ6 hcur6
      rwa [hσ7] at h
    have hcur7 := seg_cur_len s67 hcur6
    have lc7 : (curFn σ7).labelCounter = (curFn σ5).labelCounter := by
      rw [← hσ7, curFn_emit _ _ hcur6]
      exact lc6
    have tc7 : σ7.tempCounter = σ5.tempCounter := by
      rw [← hσ7]
      exact (emit_tempCounter _ _).trans tc6
    cases els with
    | none =>
      obtain ⟨σ9, hσ9⟩ : ∃ x, emit (IRInstruction.mk .LABEL [endL]) σ7 = x := ⟨_, rfl⟩
      have s79 : Seg σ7 σ9 [IRInstruction.mk .LABEL [endL]] := by
        have h := seg_emit (IRInstruction.mk .LABEL [endL]) σ7 hcur7
        rwa [hσ9] at h
      have lc9 : (curFn σ9).labelCounter = (curFn σ5).labelCounter := by
        rw [← hσ9, curFn_emit _ _ hcur7]
        exact lc7
      have tc9 : σ9.tempCounter = σ5.tempCounter := by
        rw [← hσ9]
        exact (emit_tempCounter _ _).trans tc7
      have S : Seg σ σ9
          (Bc ++ ([] ++ ([] ++ ([IRInstruction.mk .JUMP_IF_FALSE [cv, elseL]]
            ++ (Bt ++ ([IRInstruction.mk .JUMP [endL]]
              ++ ([IRInstruction.mk .LABEL [elseL]]
                ++ [IRInstruction.mk .LABEL [endL]]))))))) :=
        seg_trans hcur s01 (seg_trans hcur1 s12 (seg_trans hcur2 s23
          (seg_trans hcur3 s34 (seg_trans hcur4 s45 (seg_trans hcur5 s56
            (seg_trans hcur6 s67 s79))))))
      have hgoal : genStmt (.ifStmt cond thn none) σ = σ9 := by
        simp only [genStmt, hc, hL1, hL2, hL1a, hL1b, hL2a, hL2b, hσ4, hσ5, hσ6, hσ7, hσ9]
      rw [hgoal]
      constructor
      · refine ⟨_, S, ?_⟩
        rw [lc9]
        refine LBlock_if_shape lbT (LBlock_nil _) ?_ ?_
        · subst hl1 hl2
          simp [labelsOf_append, labelsOf_single, labelsOf_cons_mk, labelsOf_nil, hlabC]
        · intro t htm
          subst hl1 hl2
          simp [jumpTargetsOf_append, jumpTargetsOf_single, jumpTargetsOf_cons_mk,
            jumpTargetsOf_nil, hjmpC] at htm
          tauto
      · intro hnf
        simp only [hasFuncDecl, Bool.or_false] at hnf
        obtain ⟨le45, Bt', hiT', tbT'⟩ := H5.2 hnf
        have hBt : Bt' = Bt := List.append_cancel_left (hiT'.symm.trans s45.2.2.2.1)
        rw [hBt, tc4] at tbT'
        refine ⟨?_, _, S.2.2.2.1, ?_⟩
        · have h1 := htbC.1
          have h2 := tbT'.1
          omega
        · rw [tc9]
          exact TBlock_append htbC (TBlock_append (TBlock_nil _) (TBlock_append (TBlock_nil _)
            (TBlock_append (TBlock_skip (by simp [tempDests_single, isTempCreating]))
              (TBlock_append tbT'
                (TBlock_append (TBlock_skip (by simp [tempDests_single, isTempCreating]))
                  (TBlock_append (TBlock_skip (by simp [tempDests_single, isTempCreating]))
                    (TBlock_skip (by simp [tempDests_single, isTempCreating]))))))))
    | some e =>
      obtain ⟨σ8, hσ8⟩ : ∃ x, genStmt e σ7 = x := ⟨_, rfl⟩
      have H8 := genStmt_spec e σ7 hcur7
      rw [hσ8] at H8
      obtain ⟨Be, s78, lbE⟩ := H8.1
      have hcur8 := seg_cur_len s78 hcur7
      rw [lc7] at lbE
      obtain ⟨σ9, hσ9⟩ : ∃ x, emit (IRInstruction.mk .LABEL [endL]) σ8 = x := ⟨_, rfl⟩
      have s89 : Seg σ8 σ9 [IRInstruction.mk .LABEL [endL]] := by
        have h := seg_emit (IRInstruction.mk .LABEL [endL]) σ8 hcur8
        rwa [hσ9] at h
      have lc9 : (curFn σ9).labelCounter = (curFn σ8).labelCounter := by
        rw [← hσ9, curFn_emit _ _ hcur8]
      have tc9 : σ9.tempCounter = σ8.tempCounter := by
        rw [← hσ9]
        exact emit_tempCounter _ _
      have S : Seg σ σ9
          (Bc ++ ([] ++ ([] ++ ([IRInstruction.mk .JUMP_IF_FALSE [cv, elseL]]
            ++ (Bt ++ ([IRInstruction.mk .JUMP [endL]]
              ++ ([IRInstruction.mk .LABEL [elseL]]
                ++ (Be ++ [IRInstruction.mk .LABEL [endL]])))))))) :=
        seg_trans hcur s01 (seg_trans hcur1 s12 (seg_trans hcur2 s23
          (seg_trans hcur3 s34 (seg_trans hcur4 s45 (seg_trans hcur5 s56
            (seg_trans hcur6 s67 (seg_trans hcur7 s78 s89)))))))
      have hgoal : genStmt (.ifStmt cond thn (some e)) σ = σ9 := by
        simp only [genStmt, hc, hL1, hL2, hL1a, hL1b, hL2a, hL2b, hσ4, hσ5, hσ6, hσ7, hσ8, hσ9]
      rw [hgoal]
      constructor
      · refine ⟨_, S, ?_⟩
        rw [lc9]
        refine LBlock_if_shape lbT lbE ?_ ?_
        · subst hl1 hl2
          simp [labelsOf_append, labelsOf_single, labelsOf_cons_mk, labelsOf_nil, hlabC]
        · intro t htm
          subst hl1 hl2
          simp [jumpTargetsOf_append, jumpTargetsOf_single, jumpTargetsOf_cons_mk,
            jumpTargetsOf_nil, hjmpC] at htm
          tauto
      · intro hnf
        simp only [hasFuncDecl, Bool.or_eq_false_iff] at hnf
        obtain ⟨le45, Bt', hiT', tbT'⟩ := H5.2 hnf.1
        have hBt : Bt' = Bt := List.append_cancel_left (hiT'.symm.trans s45.2.2.2.1)
        rw [hBt, tc4] at tbT'
        obtain ⟨le78, Be', hiE', tbE'⟩ := H8.2 hnf.2
        have hBe : Be' = Be := List.append_cancel_left (hiE'.symm.trans s78.2.2.2.1)
        rw [hBe, tc7] at tbE'
        refine ⟨?_, _, S.2.2.2.1, ?_⟩
        · have h1 := htbC.1
          have h2 := tbT'.1
          have h3 := tbE'.1
          omega
        · rw [tc9]
          exact TBlock_append htbC (TBlock_append (TBlock_nil _) (TBlock_append (TBlock_nil _)
            (TBlock_append (TBlock_skip (by simp [tempDests_single, isTempCreating]))
              (TBlock_append tbT'
                (TBlock_append (TBlock_skip (by simp [tempDests_single, isTempCreating]))
                  (TBlock_append (TBlock_skip (by simp [tempDests_single, isTempCreating]))
                    (TBlock_append tbE'
                      (TBlock_skip (by simp [tempDests_single, isTempCreating])))))))))
  | loopTimes count body =>
    rcases hc : genExpr count σ with ⟨cntV, σ1⟩
    have He := genExpr_spec count σ hcur
    simp only [hc] at He
    obtain ⟨Bc, s01, hlabC, hjmpC, hlcC, htbC⟩ := seg_of_exprPost He
    have hcur1 := seg_cur_len s01 hcur
    rcases hT1 : generateTemp σ1 with ⟨iv, σ2⟩
    have hT1a : "t" ++ Nat.repr σ1.tempCounter = iv := by
      have h := congrArg Prod.fst hT1
      simpa [generateTemp] using h
    have hT1b : { σ1 with tempCounter := σ1.tempCounter + 1 } = σ2 := by
      have h := congrArg Prod.snd hT1
      simpa [generateTemp] using h
    have s12 : Seg σ1 σ2 [] := by
      have h := seg_skipTemp σ1
      rwa [hT1b] at h
    have hcur2 := seg_cur_len s12 hcur1
    have lc2 : (curFn σ2).labelCounter = (curFn σ).labelCounter := by
      rw [← hT1b]
      exact hlcC
    have tc2 : σ2.tempCounter = σ1.tempCounter + 1 := by
      rw [← hT1b]
    rcases hL1 : generateLabelSt σ2 with ⟨l1, σ3⟩
    have hL1a : "L" ++ Nat.repr (curFn σ2).labelCounter = l1 := by
      have h := congrArg Prod.fst hL1
      simpa [generateLabelSt] using h
    have hL1b : modifyCur σ2 (fun f => { f with labelCounter := f.labelCounter + 1 }) = σ3 := by
      have h := congrArg Prod.snd hL1
      simpa [generateLabelSt] using h
    have s23 : Seg σ2 σ3 [] := by
      have h := seg_genLabel σ2 hcur2
      simp only [hL1] at h
      exact h
    have hcur3 := seg_cur_len s23 hcur2
    have hl1 : l1 = mkLabel (curFn σ).labelCounter := by
      have h := generateLabelSt_fst σ2
      simp only [hL1] at h
      rw [h, lc2]
    have lc3 : (curFn σ3).labelCounter = (curFn σ).labelCounter + 1 := by
      have h := curFn_generateLabelSt σ2 hcur2
      simp only [hL1] at h
      rw [h]
      show (curFn σ2).labelCounter + 1 = _
      rw [lc2]
    have tc3 : σ3.tempCounter = σ1.tempCounter + 1 := by
      have h := generateLabelSt_tempCounter σ2
      simp only [hL1] at h
      rw [h, tc2]
    rcases hL2 : generateLabelSt σ3 with ⟨l2, σ4⟩
    have hL2a : "L" ++ Nat.repr (curFn σ3).labelCounter = l2 := by
      have h := congrArg Prod.fst hL2
      simpa [generateLabelSt] using h
    have hL2b : modifyCur σ3 (fun f => { f with labelCounter := f.labelCounter + 1 }) = σ4 := by
      have h := congrArg Prod.snd hL2
      simpa [generateLabelSt] using h
    have s34 : Seg σ3 σ4 [] := by
      have h := seg_genLabel σ3 hcur3
      simp only [hL2] at h
      exact h
    have hcur4 := seg_cur_len s34 hcur3
    have hl2 : l2 = mkLabel ((curFn σ).labelCounter + 1) := by
      have h := generateLabelSt_fst σ3
      simp only [hL2] at h
      rw [h, lc3]
    have lc4 : (curFn σ4).labelCounter = (curFn σ).labelCounter + 2 := by
      have h := curFn_generateLabelSt σ3 hcur3
      simp only [hL2] at h
      rw [h]
      show (curFn σ3).labelCounter + 1 = _
      rw [lc3]
    have tc4 : σ4.tempCounter = σ1.tempCounter + 1 := by
      have h := generateLabelSt_tempCounter σ3
      simp only [hL2] at h
      rw [h, tc3]
    obtain ⟨σ5, hσ5⟩ : ∃ x, emit (IRInstruction.mk .LOAD_CONST [iv, "0"]) σ4 = x := ⟨_, rfl⟩
    have s45 : Seg σ4 σ5 [IRInstruction.mk .LOAD_CONST [iv, "0"]] := by
      have h := seg_emit (IRInstruction.mk .LOAD_CONST [iv, "0"]) σ4 hcur4
      rwa [hσ5] at h
    have hcur5 := seg_cur_len s45 hcur4
    have lc5 : (curFn σ5).labelCounter = (curFn σ).labelCounter + 2 := by
      rw [← hσ5, curFn_emit _ _ hcur4]
      exact lc4
    have tc5 : σ5.tempCounter = σ1.tempCounter + 1 := by
      rw [← hσ5]
      exact tc4
    obtain ⟨σ6, hσ6⟩ : ∃ x, emit (IRInstruction.mk .LABEL [l1]) σ5 = x := ⟨_, rfl⟩
    have s56 : Seg σ5 σ6 [IRInstruction.mk .LABEL [l1]] := by
      have h := seg_emit (IRInstruction.mk .LABEL [l1]) σ5 hcur5
      rwa [hσ6] at h
    have hcur6 := seg_cur_len s56 hcur5
    have lc6 : (curFn σ6).labelCounter = (curFn σ).labelCounter + 2 := by
      rw [← hσ6, curFn_emit _ _ hcur5]
      exact lc5
    have tc6 : σ6.tempCounter = σ1.tempCounter + 1 := by
      rw [← hσ6]
      exact tc5
    rcases hT2 : generateTemp σ6 with ⟨ct, σ7⟩
    have hT2a : "t" ++ Nat.repr σ6.tempCounter = ct := by
      have h := congrArg Prod.fst hT2
      simpa [generateTemp] using h
    have hT2b : { σ6 with tempCounter := σ6.tempCounter + 1 } = σ7 := by
      have h := congrArg Prod.snd hT2
      simpa [generateTemp] using h
    have s67 : Seg σ6 σ7 [] := by
      have h := seg_skipTemp σ6
      rwa [hT2b] at h
    have hcur7 := seg_cur_len s67 hcur6
    have lc7 : (curFn σ7).labelCounter = (curFn σ).labelCounter + 2 := by
      rw [← hT2b]
      exact lc6
    have tc7 : σ7.tempCounter = σ1.tempCounter + 2 := by
      rw [← hT2b]
      show σ6.tempCounter + 1 = _
      rw [tc6]
    have hct : ct = mkTemp (σ1.tempCounter + 1) := by
      rw [← hT2a, tc6]
      rfl
    obtain ⟨σ8, hσ8⟩ : ∃ x, emit (IRInstruction.mk .BINARY_OP [ct, iv, "<", cntV]) σ7 = x := ⟨_, rfl⟩
    have s78 : Seg σ7 σ8 [IRInstruction.mk .BINARY_OP [ct, iv, "<", cntV]] := by
      have h := seg_emit (IRInstruction.mk .BINARY_OP [ct, iv, "<", cntV]) σ7 hcur7
      rwa [hσ8] at h
    have hcur8 := seg_cur_len s78 hcur7
    have lc8 : (curFn σ8).labelCounter = (curFn σ).labelCounter + 2 := by
      rw [← hσ8, curFn_emit _ _ hcur7]
      exact lc7
    have tc8 : σ8.tempCounter = σ1.tempCounter + 2 := by
      rw [← hσ8]
      exact tc7
    obtain ⟨σ9, hσ9⟩ : ∃ x, emit (IRInstruction.mk .JUMP_IF_FALSE [ct, l2]) σ8 = x := ⟨_, rfl⟩
    have s89 : Seg σ8 σ9 [IRInstruction.mk .JUMP_IF_FALSE [ct, l2]] := by
      have h := seg_emit (IRInstruction.mk .JUMP_IF_FALSE [ct, l2]) σ8 hcur8
      rwa [hσ9] at h
    have hcur9 := seg_cur_len s89 hcur8
    have lc9 : (curFn σ9).labelCounter = (curFn σ).labelCounter + 2 := by
      rw [← hσ9, curFn_emit _ _ hcur8]
      exact lc8
    have tc9 : σ9.tempCounter = σ1.tempCounter + 2 := by
      rw [← hσ9]
      exact tc8
    obtain ⟨σA, hσA⟩ : ∃ x, genStmt body σ9 = x := ⟨_, rfl⟩
    have HA := genStmt_spec body σ9 hcur9
    rw [hσA] at HA
    obtain ⟨Bb, s9A, lbB⟩ := HA.1
    have hcurA := seg_cur_len s9A hcur9
    rw [lc9] at lbB
    rcases hT3 : generateTemp σA with ⟨nt, σB⟩
    have hT3a : "t" ++ Nat.repr σA.tempCounter = nt := by
      have h := congrArg Prod.fst hT3
      simpa [generateTemp] using h
    have hT3b : { σA with tempCounter := σA.tempCounter + 1 } = σB := by
      have h := congrArg Prod.snd hT3
      simpa [generateTemp] using h
    have sAB : Seg σA σB [] := by
      have h := seg_skipTemp σA
      rwa [hT3b] at h
    have hcurB := seg_cur_len sAB hcurA
    have lcB : (curFn σB).labelCounter = (curFn σA).labelCounter := by
      rw [← hT3b]
      rfl
    have tcB : σB.tempCounter = σA.tempCounter + 1 := by
      rw [← hT3b]
    have hnt : nt = mkTemp σA.tempCounter := by
      rw [← hT3a]
      rfl
    obtain ⟨σC, hσC⟩ : ∃ x, emit (IRInstruction.mk .BINARY_OP [nt, iv, "+", "1"]) σB = x := ⟨_, rfl⟩
    have sBC : Seg σB σC [IRInstruction.mk .BINARY_OP [nt, iv, "+", "1"]] := by
      have h := seg_emit (IRInstruction.mk .BINARY_OP [nt, iv, "+", "1"]) σB hcurB
      rwa [hσC] at h
    have hcurC := seg_cur_len sBC hcurB
    have lcC : (curFn σC).labelCounter = (curFn σA).labelCounter := by
      rw [← hσC, curFn_emit _ _ hcurB]
      exact lcB
    have tcC : σC.tempCounter = σA.tempCounter + 1 := by
      rw [← hσC]
      exact tcB
    obtain ⟨σD, hσD⟩ : ∃ x, emit (IRInstruction.mk .STORE_VAR [iv, nt]) σC = x := ⟨_, rfl⟩
    have sCD : Seg σC σD [IRInstruction.mk .STORE_VAR [iv, nt]] := by
      have h := seg_emit (IRInstruction.mk .STORE_VAR [iv, nt]) σC hcurC
      rwa [hσD] at h
    have hcurD := seg_cur_len sCD hcurC
    have lcD : (curFn σD).labelCounter = (curFn σA).labelCounter := by
      rw [← hσD, curFn_emit _ _ hcurC]
      exact lcC
    have tcD : σD.tempCounter = σA.tempCounter + 1 := by
      rw [← hσD]
      exact tcC
    obtain ⟨σE, hσE⟩ : ∃ x, emit (IRInstruction.mk .JUMP [l1]) σD = x := ⟨_, rfl⟩
    have sDE : Seg σD σE [IRInstruction.mk .JUMP [l1]] := by
      have h := seg_emit (IRInstruction.mk .JUMP [l1]) σD hcurD
      rwa [hσE] at h
    have hcurE := seg_cur_len sDE hcurD
    have lcE : (curFn σE).labelCounter = (curFn σA).labelCounter := by
      rw [← hσE, curFn_emit _ _ hcurD]
      exact lcD
    have tcE : σE.tempCounter = σA.tempCounter + 1 := by
      rw [← hσE]
      exact tcD
    obtain ⟨σF, hσF⟩ : ∃ x, emit (IRInstruction.mk .LABEL [l2]) σE = x := ⟨_, rfl⟩
    have sEF : Seg σE σF [IRInstruction.mk .LABEL [l2]] := by
      have h := seg_emit (IRInstruction.mk .LABEL [l2]) σE hcurE
      rwa [hσF] at h
    have lcF : (curFn σF).labelCounter = (curFn σA).labelCounter := by
      rw [← hσF, curFn_emit _ _ hcurE]
      exact lcE
    have tcF : σF.tempCounter = σA.tempCounter + 1 := by
      rw [← hσF]
      exact tcE
    have S : Seg σ σF
        (Bc ++ ([] ++ ([] ++ ([] ++ ([IRInstruction.mk .LOAD_CONST [iv, "0"]] ++ ([IRInstruction.mk .LABEL [l1]] ++ ([] ++ ([IRInstruction.mk .BINARY_OP [ct, iv, "<", cntV]] ++ ([IRInstruction.mk .JUMP_IF_FALSE [ct, l2]] ++ (Bb ++ ([] ++ ([IRInstruction.mk .BINARY_OP [nt, iv, "+", "1"]] ++ ([IRInstruction.mk .STORE_VAR [iv, nt]] ++ ([IRInstruction.mk .JUMP [l1]] ++ ([IRInstruction.mk .LABEL [l2]]))))))))))))))) :=
      seg_trans hcur s01 (seg_trans hcur1 s12 (seg_trans hcur2 s23
        (seg_trans hcur3 s34 (seg_trans hcur4 s45 (seg_trans hcur5 s56
          (seg_trans hcur6 s67 (seg_trans hcur7 s78 (seg_trans hcur8 s89
            (seg_trans hcur9 s9A (seg_trans hcurA sAB (seg_trans hcurB sBC
              (seg_trans hcurC sCD (seg_trans hcurD sDE sEF)))))))))))))
    have hgoal : genStmt (.loopTimes count body) σ = σF := by
      simp only [genStmt, hc, hT1, hT1a, hT1b, hL1, hL1a, hL1b, hL2, hL2a, hL2b,
        hσ5, hσ6, hT2, hT2a, hT2b, hσ8, hσ9, hσA, hT3, hT3a, hT3b, hσC, hσD, hσE, hσF]
    rw [hgoal]
    constructor
    · refine ⟨_, S, ?_⟩
      rw [lcF]
      refine LBlock_loop_shape lbB ?_ ?_
      · subst hl1 hl2
        simp [labelsOf_append, labelsOf_single, labelsOf_cons_mk, labelsOf_nil, hlabC]
      · intro t htm
        subst hl1 hl2
        simp [jumpTargetsOf_append, jumpTargetsOf_single, jumpTargetsOf_cons_mk,
          jumpTargetsOf_nil, hjmpC] at htm
        tauto
    · intro hnf
      simp only [hasFuncDecl] at hnf
      obtain ⟨le9A, Bb', hiB', tbB'⟩ := HA.2 hnf
      have hBb : Bb' = Bb := List.append_cancel_left (hiB'.symm.trans s9A.2.2.2.1)
      rw [hBb, tc9] at tbB'
      refine ⟨?_, _, S.2.2.2.1, ?_⟩
      · have h1 := htbC.1
        have h2 := tbB'.1
        omega
      · rw [tcF]
        refine TBlock_append htbC (TBlock_append (TBlock_nil _) (TBlock_append (TBlock_nil _)
          (TBlock_append (TBlock_nil _)
            (TBlock_append (TBlock_single ?d1)
              (TBlock_append (TBlock_skip (by simp [tempDests_single, isTempCreating]))
                (TBlock_append (TBlock_nil _)
                  (TBlock_append (TBlock_single ?d2)
                    (TBlock_append (TBlock_skip (by simp [tempDests_single, isTempCreating]))
                      (TBlock_append tbB'
                        (TBlock_append (TBlock_nil _)
                          (TBlock_append (TBlock_single ?d3)
                            (TBlock_append (TBlock_skip (by simp [tempDests_single, isTempCreating]))
                              (TBlock_append (TBlock_skip (by simp [tempDests_single, isTempCreating]))
                                (TBlock_skip (by simp [tempDests_single, isTempCreating])))))))))))))))
        case d1 =>
          simp only [tempDests_single, isTempCreating, if_pos]
          rw [← hT1a]
          rfl
        case d2 =>
          simp only [tempDests_single, isTempCreating, if_pos]
          rw [hct]
          rfl
        case d3 =>
          simp only [tempDests_single, isTempCreating, if_pos]
          rw [hnt]
          rfl
  | loopIn v iterable body =>
    rcases hc : genExpr iterable σ with ⟨itV, σ1⟩
    have He := genExpr_spec iterable σ hcur
    simp only [hc] at He
    obtain ⟨Bit, s01, hlabC, hjmpC, hlcC, htbC⟩ := seg_of_exprPost He
    have hcur1 := seg_cur_len s01 hcur
    rcases hT1 : generateTemp σ1 with ⟨iv, σ2⟩
    have hT1a : "t" ++ Nat.repr σ1.tempCounter = iv := by
      have h := congrArg Prod.fst hT1
      simpa [generateTemp] using h
    have hT1b : { σ1 with tempCounter := σ1.tempCounter + 1 } = σ2 := by
      have h := congrArg Prod.snd hT1
      simpa [generateTemp] using h
    have s12 : Seg σ1 σ2 [] := by
      have h := seg_skipTemp σ1
      rwa [hT1b] at h
    have hcur2 := seg_cur_len s12 hcur1
    have lc2 : (curFn σ2).labelCounter = (curFn σ).labelCounter := by
      rw [← hT1b]
      exact hlcC
    have tc2 : σ2.tempCounter = σ1.tempCounter + 1 := by
      rw [← hT1b]
    rcases hL1 : generateLabelSt σ2 with ⟨l1, σ3⟩
    have hL1a : "L" ++ Nat.repr (curFn σ2).labelCounter = l1 := by
      have h := congrArg Prod.fst hL1
      simpa [generateLabelSt] using h
    have hL1b : modifyCur σ2 (fun f => { f with labelCounter := f.labelCounter + 1 }) = σ3 := by
      have h := congrArg Prod.snd hL1
      simpa [generateLabelSt] using h
    have s23 : Seg σ2 σ3 [] := by
      have h := seg_genLabel σ2 hcur2
      simp only [hL1] at h
      exact h
    have hcur3 := seg_cur_len s23 hcur2
    have hl1 : l1 = mkLabel (curFn σ).labelCounter := by
      have h := generateLabelSt_fst σ2
      simp only [hL1] at h
      rw [h, lc2]
    have lc3 : (curFn σ3).labelCounter = (curFn σ).labelCounter + 1 := by
      have h := curFn_generateLabelSt σ2 hcur2
      simp only [hL1] at h
      rw [h]
      show (curFn σ2).labelCounter + 1 = _
      rw [lc2]
    have tc3 : σ3.tempCounter = σ1.tempCounter + 1 := by
      have h := generateLabelSt_tempCounter σ2
      simp only [hL1] at h
      rw [h, tc2]
    rcases hL2 : generateLabelSt σ3 with ⟨l2, σ4⟩
    have hL2a : "L" ++ Nat.repr (curFn σ3).labelCounter = l2 := by
      have h := congrArg Prod.fst hL2
      simpa [generateLabelSt] using h
    have hL2b : modifyCur σ3 (fun f => { f with labelCounter := f.labelCounter + 1 }) = σ4 := by
      have h := congrArg Prod.snd hL2
      simpa [generateLabelSt] using h
    have s34 : Seg σ3 σ4 [] := by
      have h := seg_genLabel σ3 hcur3
      simp only [hL2] at h
      exact h
    have hcur4 := seg_cur_len s34 hcur3
    have hl2 : l2 = mkLabel ((curFn σ).labelCounter + 1) := by
      have h := generateLabelSt_fst σ3
      simp only [hL2] at h
      rw [h, lc3]
    have lc4 : (curFn σ4).labelCounter = (curFn σ).labelCounter + 2 := by
      have h := curFn_generateLabelSt σ3 hcur3
      simp only [hL2] at h
      rw [h]
      show (curFn σ3).labelCounter + 1 = _
      rw [lc3]
    have tc4 : σ4.tempCounter = σ1.tempCounter + 1 := by
      have h := generateLabelSt_tempCounter σ3
      simp only [hL2] at h
      rw [h, tc3]
    obtain ⟨σ5, hσ5⟩ : ∃ x, emit (IRInstruction.mk .LOAD_CONST [iv, "0"]) σ4 = x := ⟨_, rfl⟩
    have s45 : Seg σ4 σ5 [IRInstruction.mk .LOAD_CONST [iv, "0"]] := by
      have h := seg_emit (IRInstruction.mk .LOAD_CONST [iv, "0"]) σ4 hcur4
      rwa [hσ5] at h
    have hcur5 := seg_cur_len s45 hcur4
    have lc5 : (curFn σ5).labelCounter = (curFn σ).labelCounter + 2 := by
      rw [← hσ5, curFn_emit _ _ hcur4]
      exact lc4
    have tc5 : σ5.tempCounter = σ1.tempCounter + 1 := by
      rw [← hσ5]
      exact tc4
    obtain ⟨σ6, hσ6⟩ : ∃ x, emit (IRInstruction.mk .LABEL [l1]) σ5 = x := ⟨_, rfl⟩
    have s56 : Seg σ5 σ6 [IRInstruction.mk .LABEL [l1]] := by
      have h := seg_emit (IRInstruction.mk .LABEL [l1]) σ5 hcur5
      rwa [hσ6] at h
    have hcur6 := seg_cur_len s56 hcur5
    have lc6 : (curFn σ6).labelCounter = (curFn σ).labelCounter + 2 := by
      rw [← hσ6, curFn_emit _ _ hcur5]
      exact lc5
    have tc6 : σ6.tempCounter = σ1.tempCounter + 1 := by
      rw [← hσ6]
      exact tc5
    rcases hT2 : generateTemp σ6 with ⟨lt, σ7⟩
    have hT2a : "t" ++ Nat.repr σ6.tempCounter = lt := by
      have h := congrArg Prod.fst hT2
      simpa [generateTemp] using h
    have hT2b : { σ6 with tempCounter := σ6.tempCounter + 1 } = σ7 := by
      have h := congrArg Prod.snd hT2
      simpa [generateTemp] using h
    have s67 : Seg σ6 σ7 [] := by
      have h := seg_skipTemp σ6
      rwa [hT2b] at h
    have hcur7 := seg_cur_len s67 hcur6
    have lc7 : (curFn σ7).labelCounter = (curFn σ).labelCounter + 2 := by
      rw [← hT2b]
      exact lc6
    have tc7 : σ7.tempCounter = σ1.tempCounter + 2 := by
      rw [← hT2b]
      show σ6.tempCounter + 1 = _
      rw [tc6]
    have hlt : lt = mkTemp (σ1.tempCounter + 1) := by
      rw [← hT2a, tc6]
      rfl
    rcases hT3 : generateTemp σ7 with ⟨ct, σ8⟩
    have hT3a : "t" ++ Nat.repr σ7.tempCounter = ct := by
      have h := congrArg Prod.fst hT3
      simpa [generateTemp] using h
    have hT3b : { σ7 with tempCounter := σ7.tempCounter + 1 } = σ8 := by
      have h := congrArg Prod.snd hT3
      simpa [generateTemp] using h
    have s78 : Seg σ7 σ8 [] := by
      have h := seg_skipTemp σ7
      rwa [hT3b] at h
    have hcur8 := seg_cur_len s78 hcur7
    have lc8 : (curFn σ8).labelCounter = (curFn σ).labelCounter + 2 := by
      rw [← hT3b]
      exact lc7
    have tc8 : σ8.tempCounter = σ1.tempCounter + 3 := by
      rw [← hT3b]
      show σ7.tempCounter + 1 = _
      rw [tc7]
    have hct : ct = mkTemp (σ1.tempCounter + 2) := by
      rw [← hT3a, tc7]
      rfl
    obtain ⟨σ9, hσ9⟩ : ∃ x, emit (IRInstruction.mk .MEMBER_GET [lt, itV, "length"]) σ8 = x := ⟨_, rfl⟩
    have s89 : Seg σ8 σ9 [IRInstruction.mk .MEMBER_GET [lt, itV, "length"]] := by
      have h := seg_emit (IRInstruction.mk .MEMBER_GET [lt, itV, "length"]) σ8 hcur8
      rwa [hσ9] at h
    have hcur9 := seg_cur_len s89 hcur8
    have lc9 : (curFn σ9).labelCounter = (curFn σ).labelCounter + 2 := by
      rw [← hσ9, curFn_emit _ _ hcur8]
      exact lc8
    have tc9 : σ9.tempCounter = σ1.tempCounter + 3 := by
      rw [← hσ9]
      exact tc8
    obtain ⟨σA, hσA⟩ : ∃ x, emit (IRInstruction.mk .BINARY_OP [ct, iv, "<", lt]) σ9 = x := ⟨_, rfl⟩
    have s9A : Seg σ9 σA [IRInstruction.mk .BINARY_OP [ct, iv, "<", lt]] := by
      have h := seg_emit (IRInstruction.mk .BINARY_OP [ct, iv, "<", lt]) σ9 hcur9
      rwa [hσA] at h
    have hcurA := seg_cur_len s9A hcur9
    have lcA : (curFn σA).labelCounter = (curFn σ).labelCounter + 2 := by
      rw [← hσA, curFn_emit _ _ hcur9]
      exact lc9
    have tcA : σA.tempCounter = σ1.tempCounter + 3 := by
      rw [← hσA]
      exact tc9
    obtain ⟨σB, hσB⟩ : ∃ x, emit (IRInstruction.mk .JUMP_IF_FALSE [ct, l2]) σA = x := ⟨_, rfl⟩
    have sAB : Seg σA σB [IRInstruction.mk .JUMP_IF_FALSE [ct, l2]] := by
      have h := seg_emit (IRInstruction.mk .JUMP_IF_FALSE [ct, l2]) σA hcurA
      rwa [hσB] at h
    have hcurB := seg_cur_len sAB hcurA
    have lcB : (curFn σB).labelCounter = (curFn σ).labelCounter + 2 := by
      rw [← hσB, curFn_emit _ _ hcurA]
      exact lcA
    have tcB : σB.tempCounter = σ1.tempCounter + 3 := by
      rw [← hσB]
      exact tcA
    rcases hT4 : generateTemp σB with ⟨mt, σC⟩
    have hT4a : "t" ++ Nat.repr σB.tempCounter = mt := by
      have h := congrArg Prod.fst hT4
      simpa [generateTemp] using h
    have hT4b : { σB with tempCounter := σB.tempCounter + 1 } = σC := by
      have h := congrArg Prod.snd hT4
      simpa [generateTemp] using h
    have sBC : Seg σB σC [] := by
      have h := seg_skipTemp σB
      rwa [hT4b] at h
    have hcurC := seg_cur_len sBC hcurB
    have lcC : (curFn σC).labelCounter = (curFn σ).labelCounter + 2 := by
      rw [← hT4b]
      exact lcB
    have tcC : σC.tempCounter = σ1.tempCounter + 4 := by
      rw [← hT4b]
      show σB.tempCounter + 1 = _
      rw [tcB]
    have hmt : mt = mkTemp (σ1.tempCounter + 3) := by
      rw [← hT4a, tcB]
      rfl
    obtain ⟨σD, hσD⟩ : ∃ x, emit (IRInstruction.mk .ARRAY_GET [mt, itV, iv]) σC = x := ⟨_, rfl⟩
    have sCD : Seg σC σD [IRInstruction.mk .ARRAY_GET [mt, itV, iv]] := by
      have h := seg_emit (IRInstruction.mk .ARRAY_GET [mt, itV, iv]) σC hcurC
      rwa [hσD] at h
    have hcurD := seg_cur_len sCD hcurC
    have lcD : (curFn σD).labelCounter = (curFn σ).labelCounter + 2 := by
      rw [← hσD, curFn_emit _ _ hcurC]
      exact lcC
    have tcD : σD.tempCounter = σ1.tempCounter + 4 := by
      rw [← hσD]
      exact tcC
    obtain ⟨σE, hσE⟩ : ∃ x, emit (IRInstruction.mk .STORE_VAR [v, mt]) σD = x := ⟨_, rfl⟩
    have sDE : Seg σD σE [IRInstruction.mk .STORE_VAR [v, mt]] := by
      have h := seg_emit (IRInstruction.mk .STORE_VAR [v, mt]) σD hcurD
      rwa [hσE] at h
    have hcurE := seg_cur_len sDE hcurD
    have lcE : (curFn σE).labelCounter = (curFn σ).labelCounter + 2 := by
      rw [← hσE, curFn_emit _ _ hcurD]
      exact lcD
    have tcE : σE.tempCounter = σ1.tempCounter + 4 := by
      rw [← hσE]
      exact tcD
    obtain ⟨σG, hσG⟩ : ∃ x, genStmt body σE = x := ⟨_, rfl⟩
    have HG := genStmt_spec body σE hcurE
    rw [hσG] at HG
    obtain ⟨Bb, sEG, lbB⟩ := HG.1
    have hcurG := seg_cur_len sEG hcurE
    rw [lcE] at lbB
    rcases hT5 : generateTemp σG with ⟨nt, σH⟩
    have hT5a : "t" ++ Nat.repr σG.tempCounter = nt := by
      have h := congrArg Prod.fst hT5
      simpa [generateTemp] using h
    have hT5b : { σG with tempCounter := σG.tempCounter + 1 } = σH := by
      have h := congrArg Prod.snd hT5
      simpa [generateTemp] using h
    have sGH : Seg σG σH [] := by
      have h := seg_skipTemp σG
      rwa [hT5b] at h
    have hcurH := seg_cur_len sGH hcurG
    have lcH : (curFn σH).labelCounter = (curFn σG).labelCounter := by
      rw [← hT5b]
      rfl
    have tcH : σH.tempCounter = σG.tempCounter + 1 := by
      rw [← hT5b]
    have hnt : nt = mkTemp σG.tempCounter := by
      rw [← hT5a]
      rfl
    obtain ⟨σI, hσI⟩ : ∃ x, emit (IRInstruction.mk .BINARY_OP [nt, iv, "+", "1"]) σH = x := ⟨_, rfl⟩
    have sHI : Seg σH σI [IRInstruction.mk .BINARY_OP [nt, iv, "+", "1"]] := by
      have h := seg_emit (IRInstruction.mk .BINARY_OP [nt, iv, "+", "1"]) σH hcurH
      rwa [hσI] at h
    have hcurI := seg_cur_len sHI hcurH
    have lcI : (curFn σI).labelCounter = (curFn σG).labelCounter := by
      rw [← hσI, curFn_emit _ _ hcurH]
      exact lcH
    have tcI : σI.tempCounter = σG.tempCounter + 1 := by
      rw [← hσI]
      exact tcH
    obtain ⟨σJ, hσJ⟩ : ∃ x, emit (IRInstruction.mk .STORE_VAR [iv, nt]) σI = x := ⟨_, rfl⟩
    have sIJ : Seg σI σJ [IRInstruction.mk .STORE_VAR [iv, nt]] := by
      have h := seg_emit (IRInstruction.mk .STORE_VAR [iv, nt]) σI hcurI
      rwa [hσJ] at h
    have hcurJ := seg_cur_len sIJ hcurI
    have lcJ : (curFn σJ).labelCounter = (curFn σG).labelCounter := by
      rw [← hσJ, curFn_emit _ _ hcurI]
      exact lcI
    have tcJ : σJ.tempCounter = σG.tempCounter + 1 := by
      rw [← hσJ]
      exact tcI
    obtain ⟨σK, hσK⟩ : ∃ x, emit (IRInstruction.mk .JUMP [l1]) σJ = x := ⟨_, rfl⟩
    have sJK : Seg σJ σK [IRInstruction.mk .JUMP [l1]] := by
      have h := seg_emit (IRInstruction.mk .JUMP [l1]) σJ hcurJ
      rwa [hσK] at h
    have hcurK := seg_cur_len sJK hcurJ
    have lcK : (curFn σK).labelCounter = (curFn σG).labelCounter := by
      rw [← hσK, curFn_emit _ _ hcurJ]
      exact lcJ
    have tcK : σK.tempCounter = σG.tempCounter + 1 := by
      rw [← hσK]
      exact tcJ
    obtain ⟨σL, hσL⟩ : ∃ x, emit (IRInstruction.mk .LABEL [l2]) σK = x := ⟨_, rfl⟩
    have sKL : Seg σK σL [IRInstruction.mk .LABEL [l2]] := by
      have h := seg_emit (IRInstruction.mk .LABEL [l2]) σK hcurK
      rwa [hσL] at h
    have lcL : (curFn σL).labelCounter = (curFn σG).labelCounter := by
      rw [← hσL, curFn_emit _ _ hcurK]
      exact lcK
    have tcL : σL.tempCounter = σG.tempCounter + 1 := by
      rw [← hσL]
      exact tcK
    have S : Seg σ σL
        (Bit ++ ([] ++ ([] ++ ([] ++ ([IRInstruction.mk .LOAD_CONST [iv, "0"]] ++ ([IRInstruction.mk .LABEL [l1]] ++ ([] ++ ([] ++ ([IRInstruction.mk .MEMBER_GET [lt, itV, "length"]] ++ ([IRInstruction.mk .BINARY_OP [ct, iv, "<", lt]] ++ ([IRInstruction.mk .JUMP_IF_FALSE [ct, l2]] ++ ([] ++ ([IRInstruction.mk .ARRAY_GET [mt, itV, iv]] ++ ([IRInstruction.mk .STORE_VAR [v, mt]] ++ (Bb ++ ([] ++ ([IRInstruction.mk .BINARY_OP [nt, iv, "+", "1"]] ++ ([IRInstruction.mk .STORE_VAR [iv, nt]] ++ ([IRInstruction.mk .JUMP [l1]] ++ ([IRInstruction.mk .LABEL [l2]])))))))))))))))))))) :=
      seg_trans hcur s01 (seg_trans hcur1 s12 (seg_trans hcur2 s23
        (seg_trans hcur3 s34 (seg_trans hcur4 s45 (seg_trans hcur5 s56
          (seg_trans hcur6 s67 (seg_trans hcur7 s78 (seg_trans hcur8 s89
            (seg_trans hcur9 s9A (seg_trans hcurA sAB (seg_trans hcurB sBC
              (seg_trans hcurC sCD (seg_trans hcurD sDE (seg_trans hcurE sEG
                (seg_trans hcurG sGH (seg_trans hcurH sHI (seg_trans hcurI sIJ
                  (seg_trans hcurJ sJK sKL))))))))))))))))))
    have hgoal : genStmt (.loopIn v iterable body) σ = σL := by
      simp only [genStmt, hc, hT1, hT1a, hT1b, hL1, hL1a, hL1b, hL2, hL2a, hL2b,
        hσ5, hσ6, hT2, hT2a, hT2b, hT3, hT3a, hT3b, hσ9, hσA, hσB, hT4, hT4a, hT4b,
        hσD, hσE, hσG, hT5, hT5a, hT5b, hσI, hσJ, hσK, hσL]
    rw [hgoal]
    constructor
    · refine ⟨_, S, ?_⟩
      rw [lcL]
      refine LBlock_loop_shape lbB ?_ ?_
      · subst hl1 hl2
        simp [labelsOf_append, labelsOf_single, labelsOf_cons_mk, labelsOf_nil, hlabC]
      · intro t htm
        subst hl1 hl2
        simp [jumpTargetsOf_append, jumpTargetsOf_single, jumpTargetsOf_cons_mk,
          jumpTargetsOf_nil, hjmpC] at htm
        tauto
    · intro hnf
      simp only [hasFuncDecl] at hnf
      obtain ⟨leEG, Bb2, hiB2, tbB⟩ := HG.2 hnf
      have hBb : Bb2 = Bb := List.append_cancel_left (hiB2.symm.trans sEG.2.2.2.1)
      rw [hBb, tcE] at tbB
      refine ⟨?_, _, S.2.2.2.1, ?_⟩
      · have h1 := htbC.1
        have h2 := tbB.1
        omega
      · rw [tcL]
        refine TBlock_append htbC (TBlock_append (TBlock_nil _) (TBlock_append (TBlock_nil _) (TBlock_append (TBlock_nil _) (TBlock_append (TBlock_single ?d1) (TBlock_append (TBlock_skip (by simp [tempDests_single, isTempCreating])) (TBlock_append (TBlock_nil _) (TBlock_append (TBlock_nil _) (TBlock_append (TBlock_single ?d2) (TBlock_append (TBlock_single ?d3) (TBlock_append (TBlock_skip (by simp [tempDests_single, isTempCreating])) (TBlock_append (TBlock_nil _) (TBlock_append (TBlock_single ?d4) (TBlock_append (TBlock_skip (by simp [tempDests_single, isTempCreating])) (TBlock_append tbB (TBlock_append (TBlock_nil _) (TBlock_append (TBlock_single ?d5) (TBlock_append (TBlock_skip (by simp [tempDests_single, isTempCreating])) (TBlock_append (TBlock_skip (by simp [tempDests_single, isTempCreating])) ((TBlock_skip (by simp [tempDests_single, isTempCreating])))))))))))))))))))))
        case d1 =>
          simp only [tempDests_single, isTempCreating, if_pos]
          rw [← hT1a]
          rfl
        case d2 =>
          simp only [tempDests_single, isTempCreating, if_pos]
          rw [hlt]
          rfl
        case d3 =>
          simp only [tempDests_single, isTempCreating, if_pos]
          rw [hct]
          rfl
        case d4 =>
          simp only [tempDests_single, isTempCreating, if_pos]
          rw [hmt]
          rfl
        case d5 =>
          simp only [tempDests_single, isTempCreating, if_pos]
          rw [hnt]
          rfl
  | funcDecl name params body =>
    obtain ⟨σ1, hσ1⟩ : ∃ x, enterFunction name params σ = x := ⟨_, rfl⟩
    obtain ⟨σ2, hσ2⟩ : ∃ x, params.foldl (fun σ param => trackVar param σ) σ1 = x := ⟨_, rfl⟩
    have hfn2 : σ2.functions = σ.functions ++ [IRFunction.mk name params [] 0] := by
      rw [← hσ2, (trackVarFold_functions params σ1).1, ← hσ1, enterFunction_functions]
    have hcur2v : σ2.cur = σ.functions.length := by
      rw [← hσ2, (trackVarFold_functions params σ1).2, ← hσ1, enterFunction_cur]
    have hlen2 : σ2.functions.length = σ.functions.length + 1 := by
      rw [hfn2]
      simp
    have hcur2 : σ2.cur < σ2.functions.length := by
      rw [hcur2v, hlen2]
      omega
    have hcf2 : curFn σ2 = IRFunction.mk name params [] 0 := by
      rw [curFn_eq_getD, hfn2, hcur2v]
      exact getD_append_len _ _ _
    have hgetD2 : ∀ j, j < σ.functions.length →
        σ2.functions.getD j dfltFn = σ.functions.getD j dfltFn := by
      intro j hj
      rw [hfn2]
      exact getD_append_lt _ _ _ _ hj
    obtain ⟨σ3, hσ3⟩ : ∃ x, genStmt body σ2 = x := ⟨_, rfl⟩
    have H3 := genStmt_spec body σ2 hcur2
    rw [hσ3] at H3
    obtain ⟨Bb, s23, lb23⟩ := H3.1
    have hcur3 := seg_cur_len s23 hcur2
    have hcur3v : σ3.cur = σ.functions.length := by
      rw [s23.1, hcur2v]
    obtain ⟨σ4, R, hσ4, s34, hlabR, hjmpR, hlen34⟩ :
        ∃ σ4 R, (if (curFn σ3).instructions.isEmpty
            ∨ ((curFn σ3).instructions.getLastD (IRInstruction.mk .NOP [])).opcode ≠ .RETURN then
              emit (IRInstruction.mk .RETURN []) σ3 else σ3) = σ4
          ∧ Seg σ3 σ4 R ∧ labelsOf R = [] ∧ jumpTargetsOf R = []
          ∧ σ4.functions.length = σ3.functions.length := by
      by_cases hcond : (curFn σ3).instructions.isEmpty
          ∨ ((curFn σ3).instructions.getLastD (IRInstruction.mk .NOP [])).opcode ≠ .RETURN
      · exact ⟨emit (IRInstruction.mk .RETURN []) σ3, [IRInstruction.mk .RETURN []],
          by rw [if_pos hcond], seg_emit _ _ hcur3, by simp [labelsOf_single],
          by simp [jumpTargetsOf_single], emit_len _ _⟩
      · exact ⟨σ3, [], by rw [if_neg hcond], seg_refl σ3, rfl, rfl, rfl⟩
    have hcur4 := seg_cur_len s34 hcur3
    have hcur4v : σ4.cur = σ.functions.length := by
      rw [s34.1, hcur3v]
    have hpres : ∀ j, j < σ.functions.length →
        σ4.functions.getD j dfltFn = σ.functions.getD j dfltFn := by
      intro j hj
      have hle23 := s23.2.1
      have hjlt3 : j < σ3.functions.length := by omega
      have h4 : σ4.functions.getD j dfltFn = σ3.functions.getD j dfltFn :=
        s34.2.2.1 j hjlt3 (by rw [hcur3v]; omega)
      have h3 : σ3.functions.getD j dfltFn = σ2.functions.getD j dfltFn :=
        s23.2.2.1 j (by omega) (by rw [hcur2v]; omega)
      rw [h4, h3]
      exact hgetD2 j hj
    have hcfB : curFn { σ4 with cur := σ.cur } = curFn σ := by
      rw [curFn_eq_getD, curFn_eq_getD]
      exact hpres σ.cur hcur
    have hgoal : genStmt (.funcDecl name params body) σ = { σ4 with cur := σ.cur } := by
      simp only [genStmt, hσ1, hσ2, hσ3, hσ4]
    rw [hgoal]
    constructor
    · refine ⟨[], ⟨rfl, ?_, ?_, ?_, ?_⟩, ?_⟩
      · show σ.functions.length ≤ σ4.functions.length
        have h1 := s23.2.1
        omega
      · intro j hj hne
        exact hpres j hj
      · rw [hcfB]
        simp
      · intro j hj1 hj2
        have hj2x : j < σ4.functions.length := hj2
        show WFFn (σ4.functions.getD j dfltFn)
        by_cases hj0 : j = σ.functions.length
        · subst hj0
          have hc4 : σ4.functions.getD σ.functions.length dfltFn = curFn σ4 := by
            rw [curFn_eq_getD, hcur4v]
          rw [hc4]
          have hinstr4 : (curFn σ4).instructions = Bb ++ R := by
            rw [s34.2.2.2.1, s23.2.2.2.1, hcf2]
            simp
          obtain ⟨hle, hjm, ns, hm, hnd, hr⟩ := lb23
          constructor
          · refine ⟨ns, ?_, hnd⟩
            rw [hinstr4, labelsOf_append, hlabR, hm]
            simp
          · intro t htm
            rw [hinstr4, labelsOf_append, hlabR]
            rw [hinstr4, jumpTargetsOf_append, hjmpR] at htm
            simp only [List.append_nil] at htm ⊢
            exact hjm t htm
        · have hle23 := s23.2.1
          have hj1n : σ2.functions.length ≤ j := by omega
          have hj2n : j < σ3.functions.length := by omega
          have hW := s23.2.2.2.2 j hj1n hj2n
          rw [s34.2.2.1 j hj2n (by rw [hcur3v]; omega)]
          exact hW
      · rw [hcfB]
        exact LBlock_nil _
    · intro h
      simp [hasFuncDecl] at h

/-- `genStmt_spec` for statement lists. -/
theorem genStmtList_spec (l : List Stmt) (σ : GenState) (hcur : σ.cur < σ.functions.length) :
    GenStmtPost σ (genStmtList l σ)
    ∧ (hasFuncDeclList l = false → GenTempPost σ (genStmtList l σ)) := by
  cases l with
  | nil =>
    simp only [genStmtList]
    exact ⟨genStmtPost_refl σ, fun _ => genTempPost_refl σ⟩
  | cons s rest =>
    obtain ⟨σ1, hσ1⟩ : ∃ x, genStmt s σ = x := ⟨_, rfl⟩
    have H1 := genStmt_spec s σ hcur
    rw [hσ1] at H1
    have hcur1 := genStmtPost_cur_len H1.1 hcur
    have H2 := genStmtList_spec rest σ1 hcur1
    simp only [genStmtList, hσ1]
    constructor
    · exact genStmtPost_trans hcur H1.1 H2.1
    · intro h
      simp only [hasFuncDeclList, Bool.or_eq_false_iff] at h
      exact genTempPost_trans (H1.2 h.1) (H2.2 h.2)

end

/-- C8: every IR function produced by the generator from any program has
pairwise-distinct label names, and the target operand of every jump
instruction equals the name of some LABEL instruction of the same
function. -/
theorem C8_label_integrity (p : Program) (f : IRFunction) (hf : f ∈ generate p) :
    (labelsOf f.instructions).Nodup
    ∧ ∀ t ∈ jumpTargetsOf f.instructions, t ∈ labelsOf f.instructions := by
  have hcur0 : initGenState.cur < initGenState.functions.length := by
    simp [initGenState]
  obtain ⟨B, hseg, hlb⟩ := (genStmtList_spec p.statements initGenState hcur0).1
  unfold generate at hf
  obtain ⟨j, hj, hget⟩ := mem_getD_of_mem dfltFn hf
  by_cases hj0 : j < initGenState.functions.length
  · have hlen1 : initGenState.functions.length = 1 := rfl
    have hj00 : j = 0 := by omega
    subst hj00
    have hcf : curFn (genStmtList p.statements initGenState)
        = (genStmtList p.statements initGenState).functions.getD 0 dfltFn := by
      rw [curFn_eq_getD, hseg.1]
      rfl
    have hfi : f.instructions = B := by
      rw [← hget, ← hcf, hseg.2.2.2.1]
      rfl
    obtain ⟨hle, hjm, ns, hm, hnd, hr⟩ := hlb
    constructor
    · rw [hfi, hm]
      exact hnd.map mkLabel_inj
    · intro t htm
      rw [hfi] at htm ⊢
      exact hjm t htm
  · have hW := hseg.2.2.2.2 j (Nat.le_of_not_lt hj0) hj
    rw [hget] at hW
    exact wffn_conclusion hW

/-- Witness for C8 on the one-statement program `1`. -/
theorem C8_label_integrity_witness :
    (labelsOf (IRFunction.mk "__main__" []
        [IRInstruction.mk .LOAD_CONST ["t0", "1"]] 0).instructions).Nodup
    ∧ ∀ t ∈ jumpTargetsOf (IRFunction.mk "__main__" []
          [IRInstruction.mk .LOAD_CONST ["t0", "1"]] 0).instructions,
        t ∈ labelsOf (IRFunction.mk "__main__" []
          [IRInstruction.mk .LOAD_CONST ["t0", "1"]] 0).instructions :=
  C8_label_integrity (Program.mk [.exprStmt (.literal (.vint 1))]) _ (by
    rw [show generate (Program.mk [.exprStmt (.literal (.vint 1))])
        = [IRFunction.mk "__main__" [] [IRInstruction.mk .LOAD_CONST ["t0", "1"]] 0] from rfl]
    exact List.mem_singleton.mpr rfl)

/-- C4 (amended): for programs without function declarations, the
temporary destinations of the generated `__main__` function are pairwise
distinct. -/
theorem C4_temp_freshness (p : Program) (h : hasFuncDeclList p.statements = false) :
    (tempDests ((generate p).headD dfltFn).instructions).Nodup := by
  have hcur0 : initGenState.cur < initGenState.functions.length := by
    simp [initGenState]
  have HL := genStmtList_spec p.statements initGenState hcur0
  obtain ⟨B, hseg, hlb⟩ := HL.1
  obtain ⟨hle, B2, hi2, htb⟩ := HL.2 h
  have hBB : B2 = B := List.append_cancel_left (hi2.symm.trans hseg.2.2.2.1)
  rw [hBB] at htb
  have hhead : (generate p).headD dfltFn = curFn (genStmtList p.statements initGenState) := by
    rw [curFn_eq_getD, hseg.1]
    exact headD_eq_getD _ _
  rw [hhead]
  have hfi : (curFn (genStmtList p.statements initGenState)).instructions = B := by
    rw [hseg.2.2.2.1]
    rfl
  rw [hfi]
  obtain ⟨hle2, ns, hm, hnd, hr⟩ := htb
  rw [hm]
  exact hnd.map mkTemp_inj

/-- Witness for C4 on the one-statement program `print 2`. -/
theorem C4_temp_freshness_witness :
    (tempDests ((generate (Program.mk [.printStmt (.literal (.vint 2))])).headD
        dfltFn).instructions).Nodup :=
  C4_temp_freshness (Program.mk [.printStmt (.literal (.vint 2))]) rfl

/-- C3 (amended): lowering `Binary(ASSIGN, Variable x, rhs)` first lowers
the target as an ordinary read (a LOAD_VAR of `x` into a fresh temp), then
the rhs, then burns one unused temporary, then emits a single
`STORE_VAR x, r`, returning `r`; for an `ArrayAccess(arr, idx)` target,
`arr` and `idx` are lowered again after the rhs (they were already lowered
inside the ARRAY_GET read of the whole target) before the single
`ARRAY_SET`, which also returns `r`. -/
theorem C3_assign_lowering (x : String) (arr idx rhs : Expr) (σ : GenState)
    (hcur : σ.cur < σ.functions.length) :
    (∀ rv σ₂,
        genExpr rhs (emit (IRInstruction.mk .LOAD_VAR [mkTemp σ.tempCounter, x])
          { σ with tempCounter := σ.tempCounter + 1 }) = (rv, σ₂) →
      genExpr (.binary (.var x) .ASSIGN rhs) σ
          = (rv, emit (IRInstruction.mk .STORE_VAR [x, rv])
              { σ₂ with tempCounter := σ₂.tempCounter + 1 })
        ∧ ∃ B, (curFn σ₂).instructions
            = (curFn σ).instructions
              ++ (IRInstruction.mk .LOAD_VAR [mkTemp σ.tempCounter, x] :: B))
    ∧ (∀ av1 σa iv1 σb rv σd av2 σf iv2 σg,
        genExpr arr σ = (av1, σa) →
        genExpr idx σa = (iv1, σb) →
        genExpr rhs (emit (IRInstruction.mk .ARRAY_GET [mkTemp σb.tempCounter, av1, iv1])
          { σb with tempCounter := σb.tempCounter + 1 }) = (rv, σd) →
        genExpr arr { σd with tempCounter := σd.tempCounter + 1 } = (av2, σf) →
        genExpr idx σf = (iv2, σg) →
        genExpr (.binary (.arrayAccess arr idx) .ASSIGN rhs) σ
          = (rv, emit (IRInstruction.mk .ARRAY_SET [av2, iv2, rv]) σg)) := by
  constructor
  · intro rv σ₂ hrhs
    simp only [mkTemp] at hrhs
    constructor
    · rw [genExpr.eq_def]
      simp only [genExpr, generateTemp, hrhs]
    · have hcur1 : (emit (IRInstruction.mk .LOAD_VAR ["t" ++ Nat.repr σ.tempCounter, x])
            { σ with tempCounter := σ.tempCounter + 1 }).cur
          < (emit (IRInstruction.mk .LOAD_VAR ["t" ++ Nat.repr σ.tempCounter, x])
            { σ with tempCounter := σ.tempCounter + 1 }).functions.length := by
        rw [emit_len]
        exact hcur
      have H := genExpr_spec rhs
        (emit (IRInstruction.mk .LOAD_VAR ["t" ++ Nat.repr σ.tempCounter, x])
          { σ with tempCounter := σ.tempCounter + 1 }) hcur1
      rw [hrhs] at H
      obtain ⟨hc, hl, ho, ht, B, hlc, hi, hnl, hnj, htb⟩ := H
      refine ⟨B, ?_⟩
      rw [hi, curFn_emit _ { σ with tempCounter := σ.tempCounter + 1 } hcur]
      simp [mkTemp, curFn]
  · intro av1 σa iv1 σb rv σd av2 σf iv2 σg h1 h2 h3 h4 h5
    simp only [mkTemp] at h3
    rw [genExpr.eq_def]
    simp only [genExpr, h1, h2, generateTemp, h3, h4, h5]

/-- Witness for C3 at `x = 5` from the initial generator state. -/
theorem C3_assign_lowering_witness :
    genExpr (.binary (.var "x") .ASSIGN (.literal (.vint 5))) initGenState
      = ("t1", GenState.mk [IRFunction.mk "__main__" []
          [IRInstruction.mk .LOAD_VAR ["t0", "x"],
           IRInstruction.mk .LOAD_CONST ["t1", "5"],
           IRInstruction.mk .STORE_VAR ["x", "t1"]] 0] 0 [] 3) := by
  have h := (C3_assign_lowering "x" (.literal (.vint 0)) (.literal (.vint 0))
      (.literal (.vint 5)) initGenState (by simp [initGenState])).1 "t1"
      (GenState.mk [IRFunction.mk "__main__" []
          [IRInstruction.mk .LOAD_VAR ["t0", "x"],
           IRInstruction.mk .LOAD_CONST ["t1", "5"]] 0] 0 [] 2) rfl
  exact h.1

/-- Witness for C10 at `f = "g"`, `x = "n"`. -/
theorem C10_function_binding_witness :
    analyze (Program.mk [.exprStmt (.call "g" []), .funcDecl "g" [] (.block [])])
        = .error "Function 'g' is not defined"
    ∧ analyze (Program.mk [.funcDecl "g" ["n"]
          (.block [.ret (some (.call "g" [.var "n"]))])])
        = .ok () := by
  have h := C10_function_binding "g" "n" (by decide) (by decide) (by decide)
    (by decide) (by decide)
  exact h

end Vypr
